import Mathlib

/-! # lin99: type-generic vectors and matrices

A shallow embedding of `src/vector.c` and `src/matrix.c` together with the parts of
`include/lin99/vector.h` and `include/lin99/matrix.h` they rely on.

Modelling conventions.

* Memory is a list of blocks.  A pointer is the address of a block: `0` is `NULL`, and
  address `p + 1` names the block at position `p` of the list.  A block that has been
  released is `none`.  Allocation appends a block, so a fresh address never aliases a
  live one.
* `size_t` values are natural numbers; every `size_t` multiplication and addition of
  the source is reduced modulo `2 ^ w`, where `w` is the width of `size_t`.
* A function pointer is an optional identity (`none` is `NULL`).  What the callback
  behind an identity does is fixed by the environment `Env`.
* Undefined behaviour of C (a call through `NULL`, an access through `NULL` or past the
  end of a block, a release of a dead block) is the error outcome `Fault`.
* `printf` diagnostics and every callback invocation are appended to a trace, most
  recent first.
-/

namespace Lin99

/-! ## Memory -/

/-- A block of bytes; a byte is kept as a natural number. -/
abbrev Bytes := List Nat

/-- Undefined behaviour the library can run into. -/
inductive Fault where
  | nullCall
  | nullDeref
  | outOfBounds
  | deadBlock
deriving DecidableEq, Repr

/-- Memory: the blocks allocated so far, `none` once released. -/
abbrev Mem := List (Option Bytes)

/-- Contents of the live block at address `p`, if any. -/
def Mem.get (m : Mem) (p : Nat) : Option Bytes :=
  match p with
  | 0 => none
  | q + 1 => (m.get? q).join

/-- Replace the block at address `p`. -/
def Mem.put (m : Mem) (p : Nat) (b : Option Bytes) : Mem :=
  match p with
  | 0 => m
  | q + 1 => m.set q b

/-- Address the next allocated block receives. -/
def Mem.fresh (m : Mem) : Nat := m.length + 1

/-- Read `n` bytes at offset `off` of the block at `p`. -/
def load (m : Mem) (p off n : Nat) : Except Fault Bytes :=
  if p = 0 then .error .nullDeref
  else match m.get p with
    | none => .error .deadBlock
    | some b => if off + n ≤ b.length then .ok ((b.drop off).take n) else .error .outOfBounds

/-- Overwrite the bytes at offset `off` of the block at `p` with `src`. -/
def store (m : Mem) (p off : Nat) (src : Bytes) : Except Fault Mem :=
  if p = 0 then .error .nullDeref
  else match m.get p with
    | none => .error .deadBlock
    | some b =>
      if off + src.length ≤ b.length then
        .ok (m.put p (some (b.take off ++ src ++ b.drop (off + src.length))))
      else .error .outOfBounds

/-- The call `memcpy(dst + doff, src + soff, n)`: the bytes are read, then written. -/
def memcpy (m : Mem) (dst doff src soff n : Nat) : Except Fault Mem :=
  match load m src soff n with
  | .error e => .error e
  | .ok bs => store m dst doff bs

/-- The call `memset(dst, 0, n)`. -/
def memset0 (m : Mem) (dst n : Nat) : Except Fault Mem :=
  store m dst 0 (List.replicate n 0)

/-! ## Function pointers, environment and world -/

/-- Identity of an allocator: `zalloc` of `vector.h`, or one supplied by the caller. -/
inductive AllocFn where
  | zalloc
  | custom (id : Nat)
deriving DecidableEq, Repr

/-- Identity of a deallocator: `free` of the C library, or one supplied by the caller. -/
inductive FreeFn where
  | free
  | custom (id : Nat)
deriving DecidableEq, Repr

/-- The diagnostics the library prints. -/
inductive Diag where
  | nullReference
  | nullReferenced
  | indexExceeded
  | rawIndexExceeded
  | bufferSizeOverflow
  | elementCountOverflow
  | vectorsNotCompatible
  | vectorNotCompatible
  | sqrtNotCompatible
  | memoryNotFound
  | divideByZero
deriving DecidableEq, Repr

/-- What the outside world observes. -/
inductive Event where
  | print (d : Diag)
  | alloc (f : AllocFn) (size : Nat) (ret : Nat)
  | release (f : FreeFn) (p : Nat)
  | arith (f : Nat) (left right : Bytes)
  | sqrt (f : Nat) (input : Bytes)
deriving DecidableEq, Repr

/-- Everything the library takes from its surroundings. -/
structure Env where
  /-- Width of `size_t` in bits. -/
  w : Nat
  /-- Whether the `calloc` call made at a given tick for a given byte count succeeds. -/
  callocOk : Nat → Nat → Bool
  /-- Whether a caller-supplied allocator succeeds (identity, tick, byte count). -/
  allocOk : Nat → Nat → Nat → Bool
  /-- Initial byte of a block from a caller-supplied allocator (identity, tick, index). -/
  allocInit : Nat → Nat → Nat → Nat
  /-- Bytes an arithmetic callback stores through its result pointer, from the
  contents of the blocks its left and right operands point to. -/
  arith : Nat → Bytes → Bytes → Bytes
  /-- Bytes a square-root callback stores through its output pointer. -/
  sqrt : Nat → Bytes → Bytes

/-- Mutable state: memory, the number of allocator calls so far, and the trace. -/
structure World where
  mem : Mem
  tick : Nat
  trace : List Event
deriving DecidableEq, Repr

/-- Append an event to the trace. -/
def World.log (wd : World) (e : Event) : World :=
  { wd with trace := e :: wd.trace }

/-- A `printf` of one of the diagnostics. -/
def printf (wd : World) (d : Diag) : World := wd.log (.print d)

/-- Outcome of one allocator call: on success a fresh block holding `init`. -/
def allocBlock (f : AllocFn) (size : Nat) (ok : Bool) (init : Bytes) (wd : World) :
    Nat × World :=
  if ok then
    (wd.mem.fresh,
      { mem := wd.mem ++ [some init], tick := wd.tick + 1,
        trace := .alloc f size wd.mem.fresh :: wd.trace })
  else
    (0, { wd with tick := wd.tick + 1, trace := .alloc f size 0 :: wd.trace })

/-- The library function `calloc(n, size)`: zero-filled block, or `NULL`. -/
def calloc (env : Env) (n size : Nat) (wd : World) : Nat × World :=
  allocBlock .zalloc n (decide (n * size < 2 ^ env.w) && env.callocOk wd.tick (n * size))
    (List.replicate (n * size) 0) wd

/-- `static void* zalloc(size_t sz_Size) { return calloc(sz_Size, 1); }` -/
def zalloc (env : Env) (sz_Size : Nat) (wd : World) : Nat × World :=
  calloc env sz_Size 1 wd

/-- A call through an allocator pointer. -/
def callAlloc (env : Env) (f : Option AllocFn) (size : Nat) (wd : World) :
    Except Fault (Nat × World) :=
  match f with
  | none => .error .nullCall
  | some .zalloc => .ok (zalloc env size wd)
  | some (.custom id) =>
    .ok (allocBlock (.custom id) size (env.allocOk id wd.tick size)
      ((List.range size).map (env.allocInit id wd.tick)) wd)

/-- A call through a deallocator pointer: releasing `NULL` does nothing, releasing a
live block kills it. -/
def callFree (f : Option FreeFn) (p : Nat) (wd : World) : Except Fault World :=
  match f with
  | none => .error .nullCall
  | some fn =>
    if p = 0 then .ok (wd.log (.release fn p))
    else match wd.mem.get p with
      | none => .error .deadBlock
      | some _ => .ok { wd with mem := wd.mem.put p none, trace := .release fn p :: wd.trace }

/-- Contents of the block a pointer points to. -/
def deref (m : Mem) (p : Nat) : Except Fault Bytes :=
  if p = 0 then .error .nullDeref
  else match m.get p with
    | none => .error .deadBlock
    | some b => .ok b

/-- A call `pfn(result, left, right)` through an arithmetic callback pointer: the
callback sees the blocks behind `left` and `right` and stores its answer at the start
of the block behind `result`. -/
def callArith (env : Env) (f : Option Nat) (result left right : Nat) (wd : World) :
    Except Fault World :=
  match f with
  | none => .error .nullCall
  | some id => do
    let l ← deref wd.mem left
    let r ← deref wd.mem right
    let m ← store wd.mem result 0 (env.arith id l r)
    pure { wd with mem := m, trace := .arith id l r :: wd.trace }

/-- A call `pfn(output, input)` through a square-root callback pointer. -/
def callSqrt (env : Env) (f : Option Nat) (output input : Nat) (wd : World) :
    Except Fault World :=
  match f with
  | none => .error .nullCall
  | some id => do
    let x ← deref wd.mem input
    let m ← store wd.mem output 0 (env.sqrt id x)
    pure { wd with mem := m, trace := .sqrt id x :: wd.trace }

/-- The call `memcmp(p, q, n)`, as the sign of the first differing byte. -/
def memcmp (m : Mem) (p q n : Nat) : Except Fault Int := do
  let a ← load m p 0 n
  let b ← load m q 0 n
  pure (if a = b then 0 else if a < b then -1 else 1)

/-! ## vector.h -/

/-- `#define TYPE_NULL 0` -/
def TYPE_NULL : Int := 0

/-- `#define CHECK_ALLOCATION(buffer) (buffer != NULL)` -/
def CHECK_ALLOCATION (buffer : Nat) : Bool := buffer != 0

/-- The value both constructors assign to the allocate binding,
`((pfn_AllocateMemory != NULL) || (p->pfn_Allocate != NULL)) ? pfn_AllocateMemory : zalloc`. -/
def allocateBinding (pfn_AllocateMemory pfn_Allocate : Option AllocFn) : Option AllocFn :=
  if pfn_AllocateMemory ≠ none ∨ pfn_Allocate ≠ none then pfn_AllocateMemory
  else some AllocFn.zalloc

/-- The value both constructors assign to the free binding,
`((pfn_FreeMemory != NULL) || (p->pfn_Free != NULL)) ? pfn_FreeMemory : free`. -/
def freeBinding (pfn_FreeMemory pfn_Free : Option FreeFn) : Option FreeFn :=
  if pfn_FreeMemory ≠ none ∨ pfn_Free ≠ none then pfn_FreeMemory
  else some FreeFn.free

/-- `typedef struct __vector_t { ... } vector_t;` -/
structure vector_t where
  s32_Type : Int
  p_StorageBuffer : Nat
  sz_BufferSize : Nat
  sz_ElementSize : Nat
  sz_ElementCount : Nat
  pfn_ElementAdd : Option Nat
  pfn_ElementSubtract : Option Nat
  pfn_ElementMultiply : Option Nat
  pfn_ElementDivide : Option Nat
  pfn_Allocate : Option AllocFn
  pfn_Free : Option FreeFn
deriving DecidableEq, Repr

/-- `int vctcreate(vector_t*, void* (*)(size_t), void (*)(void*))`: the return code,
the descriptor as the call leaves it, and the world. -/
def vctcreate (env : Env) (pv_Vector : Option vector_t)
    (pfn_AllocateMemory : Option AllocFn) (pfn_FreeMemory : Option FreeFn) (wd : World) :
    Except Fault (Int × Option vector_t × World) :=
  match pv_Vector with
  | none => .ok (-1, none, printf wd .nullReference)
  | some v =>
    if v.sz_ElementCount = 0 ∨ v.sz_ElementSize = 0 then .ok (-1, some v, wd)
    else do
      let v := { v with pfn_Allocate := allocateBinding pfn_AllocateMemory v.pfn_Allocate }
      let v := { v with pfn_Free := freeBinding pfn_FreeMemory v.pfn_Free }
      let v := { v with sz_BufferSize := (v.sz_ElementSize * v.sz_ElementCount) % 2 ^ env.w }
      let r ← callAlloc env v.pfn_Allocate v.sz_BufferSize wd
      let v := { v with p_StorageBuffer := r.1 }
      if CHECK_ALLOCATION v.p_StorageBuffer = false ∨ v.sz_BufferSize < v.sz_ElementCount then
        let wd ← callFree v.pfn_Free v.p_StorageBuffer r.2
        pure (-1, some v, printf wd .bufferSizeOverflow)
      else
        pure (0, some v, r.2)

/-- `int vctmemchk(const vector_t*)`.  The source dereferences its argument without a
null test, so the embedding takes the pointee. -/
def vctmemchk (cpv_Vector : vector_t) : Int :=
  if cpv_Vector.p_StorageBuffer ≠ 0 ∧
     cpv_Vector.sz_ElementSize ≠ 0 ∧
     cpv_Vector.sz_ElementCount ≠ 0 ∧
     cpv_Vector.sz_BufferSize ≠ 0 ∧
     cpv_Vector.s32_Type ≠ TYPE_NULL ∧
     cpv_Vector.pfn_Allocate ≠ none ∧
     cpv_Vector.pfn_Free ≠ none then 0
  else -1

/-- `void vctread(void*, const vector_t*, const size_t)` -/
def vctread (env : Env) (p_Destination : Nat) (cpv_Vector : Option vector_t)
    (csz_Idx : Nat) (wd : World) : Except Fault World :=
  match cpv_Vector with
  | none => .ok (printf wd .nullReference)
  | some v =>
    if csz_Idx < v.sz_ElementCount then do
      let m ← memcpy wd.mem p_Destination 0 v.p_StorageBuffer
        ((csz_Idx * v.sz_ElementSize) % 2 ^ env.w) v.sz_ElementSize
      pure { wd with mem := m }
    else .ok (printf wd .indexExceeded)

/-- `void vctwrite(vector_t*, const size_t, void*)` -/
def vctwrite (env : Env) (pv_Vector : Option vector_t) (csz_Idx : Nat) (p_Data : Nat)
    (wd : World) : Except Fault World :=
  match pv_Vector with
  | none => .ok (printf wd .nullReference)
  | some v =>
    if csz_Idx ≥ v.sz_ElementCount then .ok (printf wd .indexExceeded)
    else do
      let m ← memcpy wd.mem v.p_StorageBuffer
        ((csz_Idx * v.sz_ElementSize) % 2 ^ env.w) p_Data 0 v.sz_ElementSize
      pure { wd with mem := m }

/-- `int vctcmp(const vector_t*, const vector_t*)` -/
def vctcmp (cpv_A cpv_B : Option vector_t) (wd : World) : Int × World :=
  match cpv_A, cpv_B with
  | some a, some b =>
    if a.s32_Type ≠ b.s32_Type ∨
       a.sz_ElementCount ≠ b.sz_ElementCount ∨
       a.pfn_ElementAdd ≠ b.pfn_ElementAdd ∨
       a.pfn_ElementSubtract ≠ b.pfn_ElementSubtract ∨
       a.pfn_ElementMultiply ≠ b.pfn_ElementMultiply ∨
       a.pfn_ElementDivide ≠ b.pfn_ElementDivide then (1, wd)
    else (0, wd)
  | _, _ => (-1, printf wd .nullReference)

/-- One pass of the loop body of `ELEMENTWISE_OP_DEF`. -/
def elementwiseStep (pfn_Name : vector_t → Option Nat) (env : Env)
    (pv_Result cpv_A cpv_B : vector_t) (pu8_A pu8_B pu8_Result : Nat)
    (wd : World) (sz_Idx : Nat) : Except Fault World := do
  let wd ← vctread env pu8_A (some cpv_A) sz_Idx wd
  let wd ← vctread env pu8_B (some cpv_B) sz_Idx wd
  let wd ← callArith env (pfn_Name cpv_A) pu8_Result pu8_A pu8_B wd
  vctwrite env (some pv_Result) sz_Idx pu8_Result wd

/-- `#define ELEMENTWISE_OP_DEF(fn_Name, pfn_Name)`: the function the macro defines
for the binding `pfn_Name`. -/
def ELEMENTWISE_OP_DEF (pfn_Name : vector_t → Option Nat) (env : Env)
    (pv_Result cpv_A cpv_B : Option vector_t) (wd : World) : Except Fault World :=
  match cpv_A, cpv_B, pv_Result with
  | some a, some b, some r =>
    let c := vctcmp (some a) (some b) wd
    if c.1 ≠ 0 ∨ pfn_Name a = none ∨ vctmemchk a ≠ 0 ∨ vctmemchk b ≠ 0 ∨
        vctmemchk r ≠ 0 then
      .ok (printf c.2 .vectorsNotCompatible)
    else do
      let ra ← callAlloc env a.pfn_Allocate a.sz_ElementSize c.2
      if CHECK_ALLOCATION ra.1 = false then
        pure (printf ra.2 .memoryNotFound)
      else
        let rb ← callAlloc env b.pfn_Allocate b.sz_ElementSize ra.2
        if CHECK_ALLOCATION rb.1 = false then
          let wd ← callFree a.pfn_Free ra.1 rb.2
          pure (printf wd .memoryNotFound)
        else
          let rr ← callAlloc env r.pfn_Allocate r.sz_ElementSize rb.2
          if CHECK_ALLOCATION rr.1 = false then
            let wd ← callFree b.pfn_Free rb.1 rr.2
            let wd ← callFree a.pfn_Free ra.1 wd
            pure (printf wd .memoryNotFound)
          else
            let wd ← (List.range a.sz_ElementCount).foldlM
              (elementwiseStep pfn_Name env r a b ra.1 rb.1 rr.1) rr.2
            let wd ← callFree a.pfn_Free ra.1 wd
            let wd ← callFree b.pfn_Free rb.1 wd
            callFree r.pfn_Free rr.1 wd
  | _, _, _ => .ok (printf wd .nullReference)

/-- `ELEMENTWISE_OP_DEF(vctadd, pfn_ElementAdd)` -/
def vctadd := ELEMENTWISE_OP_DEF vector_t.pfn_ElementAdd

/-- `ELEMENTWISE_OP_DEF(vctsub, pfn_ElementSubtract)` -/
def vctsub := ELEMENTWISE_OP_DEF vector_t.pfn_ElementSubtract

/-- `ELEMENTWISE_OP_DEF(vctelemul, pfn_ElementMultiply)` -/
def vctelemul := ELEMENTWISE_OP_DEF vector_t.pfn_ElementMultiply

/-- `ELEMENTWISE_OP_DEF(vctelediv, pfn_ElementDivide)` -/
def vctelediv := ELEMENTWISE_OP_DEF vector_t.pfn_ElementDivide

/-- One pass of the loop body of `vctdot`. -/
def dotStep (env : Env) (cpv_A cpv_B : vector_t) (p_Product pu8_A pu8_B pu8_Product : Nat)
    (wd : World) (sz_Idx : Nat) : Except Fault World := do
  let wd ← vctread env pu8_A (some cpv_A) sz_Idx wd
  let wd ← vctread env pu8_B (some cpv_B) sz_Idx wd
  let m ← memset0 wd.mem pu8_Product cpv_A.sz_ElementSize
  let wd ← callArith env cpv_A.pfn_ElementMultiply pu8_Product pu8_A pu8_B { wd with mem := m }
  callArith env cpv_A.pfn_ElementAdd p_Product pu8_Product p_Product wd

/-- `void vctdot(void*, const vector_t*, const vector_t*)` -/
def vctdot (env : Env) (p_Product : Nat) (cpv_A cpv_B : Option vector_t) (wd : World) :
    Except Fault World :=
  match cpv_A, cpv_B with
  | some a, some b =>
    if p_Product = 0 then .ok (printf wd .nullReference)
    else
      let c := vctcmp (some a) (some b) wd
      if c.1 ≠ 0 ∨ a.pfn_ElementAdd = none ∨ a.pfn_ElementMultiply = none ∨
          vctmemchk a ≠ 0 ∨ vctmemchk b ≠ 0 then
        .ok (printf c.2 .vectorsNotCompatible)
      else do
        let ra ← callAlloc env a.pfn_Allocate a.sz_ElementSize c.2
        if CHECK_ALLOCATION ra.1 = false then
          pure (printf ra.2 .memoryNotFound)
        else
          let rb ← callAlloc env b.pfn_Allocate b.sz_ElementSize ra.2
          if CHECK_ALLOCATION rb.1 = false then
            let wd ← callFree a.pfn_Free ra.1 rb.2
            pure (printf wd .memoryNotFound)
          else
            let rp ← callAlloc env a.pfn_Allocate a.sz_ElementSize rb.2
            if CHECK_ALLOCATION rp.1 = false then
              let wd ← callFree b.pfn_Free rb.1 rp.2
              let wd ← callFree a.pfn_Free ra.1 wd
              pure (printf wd .memoryNotFound)
            else
              let m ← memset0 rp.2.mem p_Product a.sz_ElementSize
              let wd ← (List.range a.sz_ElementCount).foldlM
                (dotStep env a b p_Product ra.1 rb.1 rp.1) { rp.2 with mem := m }
              let wd ← callFree a.pfn_Free rp.1 wd
              let wd ← callFree b.pfn_Free rb.1 wd
              callFree a.pfn_Free ra.1 wd
  | _, _ => .ok (printf wd .nullReference)

/-- One pass of the loop body of `SCALE_OP_DEF`. -/
def scaleStep (pfn_Name : vector_t → Option Nat) (env : Env) (pv_Scaled : Option vector_t)
    (cpv_Vector : vector_t) (cp_Scalar pu8_Element pu8_ScaledElement : Nat)
    (wd : World) (sz_Idx : Nat) : Except Fault World := do
  let wd ← vctread env pu8_Element (some cpv_Vector) sz_Idx wd
  let wd ← callArith env (pfn_Name cpv_Vector) pu8_ScaledElement pu8_Element cp_Scalar wd
  vctwrite env pv_Scaled sz_Idx pu8_ScaledElement wd

/-- `#define SCALE_OP_DEF(fn_Name, pfn_Name)`: the function the macro defines for the
binding `pfn_Name`. -/
def SCALE_OP_DEF (pfn_Name : vector_t → Option Nat) (env : Env)
    (pv_Scaled : Option vector_t) (cpv_Vector : Option vector_t) (cp_Scalar : Nat)
    (wd : World) : Except Fault World :=
  match cpv_Vector, pv_Scaled with
  | some v, some s =>
    if cp_Scalar = 0 then .ok (printf wd .nullReference)
    else if pfn_Name v = none ∨ vctmemchk v ≠ 0 then
      .ok (printf wd .vectorsNotCompatible)
    else do
      let re ← callAlloc env v.pfn_Allocate v.sz_ElementSize wd
      if CHECK_ALLOCATION re.1 = false then
        pure (printf re.2 .memoryNotFound)
      else
        let rs ← callAlloc env v.pfn_Allocate v.sz_ElementSize re.2
        if CHECK_ALLOCATION rs.1 = false then
          let wd ← callFree v.pfn_Free re.1 rs.2
          pure (printf wd .memoryNotFound)
        else
          let wd ← (List.range v.sz_ElementCount).foldlM
            (scaleStep pfn_Name env (some s) v cp_Scalar re.1 rs.1) rs.2
          let wd ← callFree v.pfn_Free re.1 wd
          callFree v.pfn_Free rs.1 wd
  | _, _ => .ok (printf wd .nullReference)

/-- `SCALE_OP_DEF(vctscale, pfn_ElementMultiply)` -/
def vctscale := SCALE_OP_DEF vector_t.pfn_ElementMultiply

/-- `SCALE_OP_DEF(vctscaleinv, pfn_ElementDivide)` -/
def vctscaleinv := SCALE_OP_DEF vector_t.pfn_ElementDivide

/-- `void vctmagsq(void*, const vector_t*)` -/
def vctmagsq (env : Env) (p_Magnitude : Nat) (cpv_Vector : Option vector_t) (wd : World) :
    Except Fault World :=
  match cpv_Vector with
  | some v =>
    if p_Magnitude = 0 then .ok (printf wd .nullReference)
    else if v.pfn_ElementAdd = none ∨ v.pfn_ElementMultiply = none ∨ vctmemchk v ≠ 0 then
      .ok (printf wd .vectorNotCompatible)
    else vctdot env p_Magnitude (some v) (some v) wd
  | none => .ok (printf wd .nullReference)

/-- `void vctnorm(vector_t*, const vector_t*, void (*)(void*, const void*))`.  The
second argument of the `memcmp` call of the source is the literal `NULL`. -/
def vctnorm (env : Env) (pv_Normalized cpv_Vector : Option vector_t)
    (pfn_SquareRoot : Option Nat) (wd : World) : Except Fault World :=
  match pv_Normalized, cpv_Vector with
  | some n, some v =>
    if v.pfn_ElementDivide = none ∨ pfn_SquareRoot = none ∨ vctmemchk v ≠ 0 then
      .ok (printf wd .sqrtNotCompatible)
    else do
      let rm ← callAlloc env v.pfn_Allocate v.sz_ElementSize wd
      if CHECK_ALLOCATION rm.1 = false then
        pure (printf rm.2 .memoryNotFound)
      else
        let wd ← vctdot env rm.1 (some v) (some v) rm.2
        let c ← memcmp wd.mem rm.1 0 v.sz_ElementSize
        if c ≠ 0 then
          let wd ← callSqrt env pfn_SquareRoot rm.1 rm.1 wd
          let wd ← vctscaleinv env (some n) (some v) rm.1 wd
          callFree v.pfn_Free rm.1 wd
        else
          let wd ← callFree v.pfn_Free rm.1 wd
          pure (printf wd .divideByZero)
  | _, _ => .ok (printf wd .nullReference)

/-- `void vctdstry(vector_t*)`: the descriptor as the call leaves it, and the world. -/
def vctdstry (pv_Vector : Option vector_t) (wd : World) :
    Except Fault (Option vector_t × World) :=
  match pv_Vector with
  | none => .ok (none, printf wd .nullReference)
  | some v =>
    if v.p_StorageBuffer ≠ 0 then do
      let wd ← callFree v.pfn_Free v.p_StorageBuffer wd
      pure (some { v with sz_BufferSize := 0 }, wd)
    else .ok (some v, wd)

/-! ## matrix.h -/

/-- `typedef struct __matrix_t { ... } matrix_t;` -/
structure matrix_t where
  s32_Type : Int
  p_StorageBuffer : Nat
  sz_BufferSize : Nat
  sz_ElementSize : Nat
  sz_Width : Nat
  sz_Height : Nat
  sz_ElementCount : Nat
  pfn_ElementAdd : Option Nat
  pfn_ElementSubtract : Option Nat
  pfn_ElementMultiply : Option Nat
  pfn_ElementDivide : Option Nat
  pfn_Allocate : Option AllocFn
  pfn_Free : Option FreeFn
deriving DecidableEq, Repr

/-- `int mtxcreate(matrix_t*, void* (*)(size_t), void (*)(void*))`: the return code,
the descriptor as the call leaves it, and the world. -/
def mtxcreate (env : Env) (pm_Matrix : Option matrix_t)
    (pfn_AllocateMemory : Option AllocFn) (pfn_FreeMemory : Option FreeFn) (wd : World) :
    Except Fault (Int × Option matrix_t × World) :=
  match pm_Matrix with
  | none => .ok (-1, none, printf wd .nullReference)
  | some m =>
    if m.sz_Width = 0 ∨ m.sz_Height = 0 ∨ m.sz_ElementSize = 0 then .ok (-1, some m, wd)
    else do
      let m := { m with pfn_Allocate := allocateBinding pfn_AllocateMemory m.pfn_Allocate }
      let m := { m with pfn_Free := freeBinding pfn_FreeMemory m.pfn_Free }
      let m := { m with sz_ElementCount := (m.sz_Width * m.sz_Height) % 2 ^ env.w }
      if m.sz_ElementCount < m.sz_Width then
        pure (-1, some m, printf wd .elementCountOverflow)
      else
        let m := { m with sz_BufferSize := (m.sz_ElementSize * m.sz_ElementCount) % 2 ^ env.w }
        let r ← callAlloc env m.pfn_Allocate m.sz_BufferSize wd
        let m := { m with p_StorageBuffer := r.1 }
        if CHECK_ALLOCATION m.p_StorageBuffer = false ∨ m.sz_BufferSize < m.sz_ElementCount then
          let wd ← callFree m.pfn_Free m.p_StorageBuffer r.2
          pure (-1, some m, printf wd .bufferSizeOverflow)
        else
          pure (0, some m, r.2)

/-- `int mtxmemchk(const matrix_t*)`.  The source dereferences its argument without a
null test, so the embedding takes the pointee. -/
def mtxmemchk (cpm_Matrix : matrix_t) : Int :=
  if cpm_Matrix.p_StorageBuffer ≠ 0 ∧
     cpm_Matrix.sz_ElementSize ≠ 0 ∧
     cpm_Matrix.sz_Width ≠ 0 ∧
     cpm_Matrix.sz_Height ≠ 0 ∧
     cpm_Matrix.sz_ElementCount ≠ 0 ∧
     cpm_Matrix.sz_BufferSize ≠ 0 ∧
     cpm_Matrix.s32_Type ≠ TYPE_NULL ∧
     cpm_Matrix.pfn_Allocate ≠ none ∧
     cpm_Matrix.pfn_Free ≠ none then 0
  else -1

/-- `void mtxreadraw(void*, const matrix_t*, const size_t)` -/
def mtxreadraw (env : Env) (p_Destination : Nat) (cpm_Matrix : Option matrix_t)
    (csz_RawIdx : Nat) (wd : World) : Except Fault World :=
  match cpm_Matrix with
  | none => .ok (printf wd .nullReference)
  | some m =>
    if csz_RawIdx < m.sz_ElementCount then do
      let mem ← memcpy wd.mem p_Destination 0 m.p_StorageBuffer
        ((csz_RawIdx * m.sz_ElementSize) % 2 ^ env.w) m.sz_ElementSize
      pure { wd with mem := mem }
    else .ok (printf wd .rawIndexExceeded)

/-- `void mtxread(void*, const matrix_t*, const size_t, const size_t)` -/
def mtxread (env : Env) (p_Destination : Nat) (cpm_Matrix : Option matrix_t)
    (csz_RowIdx csz_ColIdx : Nat) (wd : World) : Except Fault World :=
  match cpm_Matrix with
  | none => .ok (printf wd .nullReference)
  | some m =>
    mtxreadraw env p_Destination (some m)
      ((csz_RowIdx + (m.sz_Height * csz_ColIdx) % 2 ^ env.w) % 2 ^ env.w) wd

/-- `void mtxdstry(matrix_t*)`: the descriptor as the call leaves it, and the world. -/
def mtxdstry (pm_Matrix : Option matrix_t) (wd : World) :
    Except Fault (Option matrix_t × World) :=
  match pm_Matrix with
  | none => .ok (none, printf wd .nullReferenced)
  | some m =>
    if m.p_StorageBuffer ≠ 0 then do
      let wd ← callFree m.pfn_Free m.p_StorageBuffer wd
      pure (some { m with sz_BufferSize := 0 }, wd)
    else .ok (some m, wd)

/-! ## Definitions used to state the properties -/

deriving instance DecidableEq for Except

/-- Element `i` of a buffer of `size`-byte elements. -/
def elem (bs : Bytes) (size i : Nat) : Bytes := (bs.drop (i * size)).take size

/-! ## Example bindings and containers -/

/-- Value of a little-endian 32-bit integer stored at the start of a block. -/
def le32 (bs : Bytes) : Nat :=
  bs.getD 0 0 + 256 * bs.getD 1 0 + 65536 * bs.getD 2 0 + 16777216 * bs.getD 3 0

/-- The four bytes of a 32-bit integer, least significant first. -/
def toLe32 (n : Nat) : Bytes :=
  [n % 256, n / 256 % 256, n / 65536 % 256, n / 16777216 % 256]

/-- `GENERAL_OP_DEFINITION(AddU32, uint32_t, +)` -/
def AddU32 (cp_A cp_B : Bytes) : Bytes := toLe32 ((le32 cp_A + le32 cp_B) % 2 ^ 32)

/-- `GENERAL_OP_DEFINITION(SubtractU32, uint32_t, -)` -/
def SubtractU32 (cp_A cp_B : Bytes) : Bytes :=
  toLe32 ((le32 cp_A + 2 ^ 32 - le32 cp_B % 2 ^ 32) % 2 ^ 32)

/-- `GENERAL_OP_DEFINITION(MultiplyU32, uint32_t, *)` -/
def MultiplyU32 (cp_A cp_B : Bytes) : Bytes := toLe32 ((le32 cp_A * le32 cp_B) % 2 ^ 32)

/-- `GENERAL_OP_DEFINITION(DivideU32, uint32_t, /)`; a zero divisor, undefined in C,
yields zero here. -/
def DivideU32 (cp_A cp_B : Bytes) : Bytes := toLe32 ((le32 cp_A / le32 cp_B) % 2 ^ 32)

/-- Integer square root, by search from below. -/
def isqrt (n : Nat) : Nat :=
  (List.range (n + 1)).foldl (fun r k => if k * k ≤ n then k else r) 0

/-- `USE_ARITHMETIC_OP_SET_U32` on a 64-bit machine whose allocators always succeed:
callbacks 1 to 4 are `AddU32`, `SubtractU32`, `MultiplyU32`, `DivideU32`; any other
callback stores nothing; the square-root callback is the integer square root. -/
def exEnv : Env where
  w := 64
  callocOk := fun _ _ => true
  allocOk := fun _ _ _ => true
  allocInit := fun _ _ i => i % 256
  arith := fun f l r =>
    if f = 1 then AddU32 l r else if f = 2 then SubtractU32 l r
    else if f = 3 then MultiplyU32 l r else if f = 4 then DivideU32 l r else []
  sqrt := fun _ x => toLe32 (isqrt (le32 x))

/-- A `TYPE_U32` vector of three elements whose buffer is the block at address 1. -/
def exVecA : vector_t where
  s32_Type := 6
  p_StorageBuffer := 1
  sz_BufferSize := 12
  sz_ElementSize := 4
  sz_ElementCount := 3
  pfn_ElementAdd := some 1
  pfn_ElementSubtract := some 2
  pfn_ElementMultiply := some 3
  pfn_ElementDivide := some 4
  pfn_Allocate := some .zalloc
  pfn_Free := some .free

/-- A second vector of the same shape and bindings, on the block at address 2. -/
def exVecB : vector_t := { exVecA with p_StorageBuffer := 2 }

/-- A third vector of the same shape and bindings, on the block at address 3. -/
def exVecR : vector_t := { exVecA with p_StorageBuffer := 3 }

/-- The vector `exVecA` with another callback bound to addition. -/
def exVecOtherAdd : vector_t := { exVecA with pfn_ElementAdd := some 9 }

/-- A world holding `[1,2,3]`, `[4,5,6]`, an all-`0xff` result buffer, and two
four-byte cells at addresses 4 and 5. -/
def exWorld : World where
  mem := [some (toLe32 1 ++ toLe32 2 ++ toLe32 3), some (toLe32 4 ++ toLe32 5 ++ toLe32 6),
          some (List.replicate 12 255), some (toLe32 77), some (toLe32 88)]
  tick := 0
  trace := []

/-- A descriptor as `MAKE_VECTOR` leaves it before calling `vctcreate`: zeroed, then
type, element size, element count and arithmetic bindings set. -/
def exFresh (size count : Nat) : vector_t where
  s32_Type := 6
  p_StorageBuffer := 0
  sz_BufferSize := 0
  sz_ElementSize := size
  sz_ElementCount := count
  pfn_ElementAdd := some 1
  pfn_ElementSubtract := some 2
  pfn_ElementMultiply := some 3
  pfn_ElementDivide := some 4
  pfn_Allocate := none
  pfn_Free := none

/-- A matrix descriptor as `MAKE_MATRIX` leaves it before calling `mtxcreate`. -/
def exFreshMatrix (size width height : Nat) : matrix_t where
  s32_Type := 6
  p_StorageBuffer := 0
  sz_BufferSize := 0
  sz_ElementSize := size
  sz_Width := width
  sz_Height := height
  sz_ElementCount := width * height
  pfn_ElementAdd := some 1
  pfn_ElementSubtract := some 2
  pfn_ElementMultiply := some 3
  pfn_ElementDivide := some 4
  pfn_Allocate := none
  pfn_Free := none

/-- A `TYPE_U32` matrix of two columns and three rows on the block at address 1. -/
def exMatrix : matrix_t where
  s32_Type := 6
  p_StorageBuffer := 1
  sz_BufferSize := 24
  sz_ElementSize := 4
  sz_Width := 2
  sz_Height := 3
  sz_ElementCount := 6
  pfn_ElementAdd := some 1
  pfn_ElementSubtract := some 2
  pfn_ElementMultiply := some 3
  pfn_ElementDivide := some 4
  pfn_Allocate := some .zalloc
  pfn_Free := some .free

/-- The environment `exEnv` on a machine whose `size_t` has 32 bits. -/
def exEnv32 : Env := { exEnv with w := 32 }

/-- The descriptor the smoke test `test.c` builds with
`MAKE_VECTOR_FAST(vf32_MyVector, float, 32, FP32)` before `vctcreate(&name, NULL, NULL)`:
type `TYPE_FP32`, four-byte elements, 32 of them, callbacks 11 to 14 standing for
`AddFP32`, `SubtractFP32`, `MultiplyFP32`, `DivideFP32`. -/
def exSmoke : vector_t where
  s32_Type := -3
  p_StorageBuffer := 0
  sz_BufferSize := 0
  sz_ElementSize := 4
  sz_ElementCount := 32
  pfn_ElementAdd := some 11
  pfn_ElementSubtract := some 12
  pfn_ElementMultiply := some 13
  pfn_ElementDivide := some 14
  pfn_Allocate := none
  pfn_Free := none

/-- A descriptor that already carries caller-supplied allocate and free bindings. -/
def exBound : vector_t :=
  { exFresh 4 3 with pfn_Allocate := some (.custom 1), pfn_Free := some (.custom 1) }

/-- A matrix descriptor that already carries caller-supplied allocate and free
bindings. -/
def exBoundMatrix : matrix_t :=
  { exFreshMatrix 4 2 3 with pfn_Allocate := some (.custom 1), pfn_Free := some (.custom 1) }

/-- Whether the allocator call made at tick `tick` through `f` for `size` bytes
returns a block. -/
def allocSucceeds (env : Env) (f : Option AllocFn) (size tick : Nat) : Bool :=
  match f with
  | none => false
  | some .zalloc => decide (size * 1 < 2 ^ env.w) && env.callocOk tick (size * 1)
  | some (.custom id) => env.allocOk id tick size

/-- The buffer of `v` is the live block `buf` of `element_count * element_size` bytes,
a size that fits `size_t`. -/
def HasBuffer (env : Env) (wd : World) (v : vector_t) (buf : Bytes) : Prop :=
  wd.mem.get v.p_StorageBuffer = some buf ∧
  buf.length = v.sz_ElementCount * v.sz_ElementSize ∧
  buf.length < 2 ^ env.w

instance (env : Env) (wd : World) (v : vector_t) (buf : Bytes) :
    Decidable (HasBuffer env wd v buf) := by
  unfold HasBuffer
  infer_instance

/-- What an element-wise operation bound to callback `f` has to achieve: it returns
normally in a world where element `i` of the result buffer is `f` applied to elements
`i` of the operand buffers `ba` and `bb`, and both operand buffers are as they were. -/
def ElementwisePost (env : Env) (f : Nat) (a b r : vector_t) (ba bb : Bytes)
    (res : Except Fault World) : Prop :=
  ∃ wd1 br1, res = .ok wd1 ∧
    wd1.mem.get r.p_StorageBuffer = some br1 ∧
    (∀ i, i < a.sz_ElementCount → elem br1 r.sz_ElementSize i
      = env.arith f (elem ba a.sz_ElementSize i) (elem bb b.sz_ElementSize i)) ∧
    wd1.mem.get a.p_StorageBuffer = some ba ∧
    wd1.mem.get b.p_StorageBuffer = some bb

/-- The dot product as the specification words it: start from `size` zero bytes and, for
`i` ascending below `n`, replace the accumulator `acc` by
`add(multiply(a[i], b[i]), acc)`. -/
def dotSpec (env : Env) (fadd fmul : Nat) (ba bb : Bytes) (sa sb size n : Nat) : Bytes :=
  (List.range n).foldl
    (fun acc i => env.arith fadd (env.arith fmul (elem ba sa i) (elem bb sb i)) acc)
    (List.replicate size 0)

/-- A world holding the vector `[1,1,1]` at address 1, the vector `[0,0,0]` at address
2, the vector `[3,4,0]` at address 3, a result buffer at address 4 and a four-byte cell
at address 5. -/
def exWorldNorm : World where
  mem := [some (toLe32 1 ++ toLe32 1 ++ toLe32 1), some (toLe32 0 ++ toLe32 0 ++ toLe32 0),
          some (toLe32 3 ++ toLe32 4 ++ toLe32 0), some (List.replicate 12 255),
          some (toLe32 77)]
  tick := 0
  trace := []

/-- A vector of the shape and bindings of `exVecA` on the block at address 4. -/
def exVecR4 : vector_t := { exVecA with p_StorageBuffer := 4 }

/-- A world whose block at address 1 holds the six elements 10, 11, ..., 15 of the
matrix `exMatrix`, with a four-byte cell at address 2. -/
def exWorldMatrix : World where
  mem := [some (toLe32 10 ++ toLe32 11 ++ toLe32 12 ++ toLe32 13 ++ toLe32 14 ++ toLe32 15),
          some (toLe32 77)]
  tick := 0
  trace := []

/-- A matrix descriptor of width 2 and height `2^31 + 1` with four-byte elements, as
`MAKE_MATRIX` leaves it on a machine whose `size_t` has 32 bits: the macro's own
`width * height` is already the wrapped product 2. -/
def exWideMatrix : matrix_t :=
  { exFreshMatrix 4 2 (2 ^ 31 + 1) with sz_ElementCount := 2 }

/-- A descriptor without allocate binding whose free binding is already set. -/
def exFreeBound : vector_t :=
  { exFresh 4 3 with pfn_Free := some (.custom 1) }

/-- A world holding `[1,2,3]` as four-byte elements at address 1, three eight-byte
elements whose low halves are 10, 12, 14 at address 2, and an all-`0xff` result buffer
of three four-byte elements at address 3. -/
def exWorldSizes : World where
  mem := [some (toLe32 1 ++ toLe32 2 ++ toLe32 3),
          some (toLe32 10 ++ toLe32 11 ++ toLe32 12 ++ toLe32 13 ++ toLe32 14 ++ toLe32 15),
          some (List.replicate 12 255)]
  tick := 0
  trace := []

/-- A vector of eight-byte elements on the block at address 2 with the type tag, length
and bindings of `exVecA`. -/
def exVecB8 : vector_t := { exVecB with sz_ElementSize := 8, sz_BufferSize := 24 }

/-- The vector `exVecA` with the type tag `TYPE_NULL`. -/
def exVecNoType : vector_t := { exVecA with s32_Type := 0 }

/-- An environment in which every allocation fails. -/
def exEnvNoMem : Env := { exEnv with callocOk := fun _ _ => false, allocOk := fun _ _ _ => false }
/-- The vector `exVecR` with the type tag `TYPE_NULL`. -/
def exResNoType : vector_t := { exVecR with s32_Type := 0 }
/-- A call returns normally and every address holds what it held before: nothing the
caller can reach, the output argument included, has been written. -/
def LeavesMemory (wd : World) (res : Except Fault World) : Prop :=
  ∃ wd1, res = .ok wd1 ∧ ∀ p, wd1.mem.get p = wd.mem.get p

/-- The environment `exEnv` with a `calloc` that fails from its second call on. -/
def exEnvOneAlloc : Env := { exEnv with callocOk := fun tick _ => decide (tick = 0) }

/-- What a scaling operation bound to callback `f` has to achieve: it returns normally
in a world where element `i` of the result buffer is `f` applied to element `i` of the
source buffer `bv` (left operand) and the scalar `kb` (right operand), and the source
buffer is as it was. -/
def ScalePost (env : Env) (f : Nat) (v s : vector_t) (bv kb : Bytes)
    (res : Except Fault World) : Prop :=
  ∃ wd1 br1, res = .ok wd1 ∧
    wd1.mem.get s.p_StorageBuffer = some br1 ∧
    (∀ i, i < v.sz_ElementCount → elem br1 s.sz_ElementSize i
      = env.arith f (elem bv v.sz_ElementSize i) kb) ∧
    wd1.mem.get v.p_StorageBuffer = some bv

/-- A world holding `[10,20,30]` at address 1, two all-`0xff` buffers of three elements
at addresses 2 and 3, and the scalar 10 at address 4. -/
def exWorldScale : World where
  mem := [some (toLe32 10 ++ toLe32 20 ++ toLe32 30), some (List.replicate 12 255),
          some (List.replicate 12 255), some (toLe32 10)]
  tick := 0
  trace := []

/-- A world holding the two-element vectors `[1,2]` and `[4,5]` at addresses 1 and 2 and
an all-`0xff` buffer of three elements at address 3. -/
def exWorldFrame : World where
  mem := [some (toLe32 1 ++ toLe32 2), some (toLe32 4 ++ toLe32 5),
          some (List.replicate 12 255)]
  tick := 0
  trace := []

/-- A vector of two elements with the type tag and bindings of `exVecA`, on the block at
address 1. -/
def exShortA : vector_t := { exVecA with sz_ElementCount := 2, sz_BufferSize := 8 }

/-- A second vector of two elements, on the block at address 2. -/
def exShortB : vector_t := { exShortA with p_StorageBuffer := 2 }

/-- The environment `exEnv` with caller-supplied allocators that fail at the call made
at tick 2 and succeed at every other call. -/
def exEnvThirdFails : Env := { exEnv with allocOk := fun _ tick _ => decide (tick ≠ 2) }

/-- The vector `exVecA` bound to a caller-supplied allocator and deallocator. -/
def exVecACustom : vector_t :=
  { exVecA with pfn_Allocate := some (.custom 1), pfn_Free := some (.custom 1) }

/-- The environment `exEnv` with a `calloc` that succeeds at its first three calls only. -/
def exEnvThreeAllocs : Env := { exEnv with callocOk := fun tick _ => decide (tick < 3) }

/-- The world `exWorld` after three allocator calls. -/
def exWorldLater : World := { exWorld with tick := 3 }

/-! ## Lemmas on the monad and on memory -/

@[simp] theorem bind_ok {ε α β : Type} (x : α) (f : α → Except ε β) :
    (Except.ok x >>= f) = f x := rfl

@[simp] theorem bind_error {ε α β : Type} (e : ε) (f : α → Except ε β) :
    (Except.error e >>= f) = Except.error e := rfl

@[simp] theorem pure_eq_ok {ε α : Type} (x : α) : (pure x : Except ε α) = Except.ok x := rfl

theorem Mem.get_some_pos {m : Mem} {p : Nat} {b : Bytes} (h : m.get p = some b) :
    p ≠ 0 ∧ p ≤ m.length := by
  cases p with
  | zero => simp [Mem.get] at h
  | succ q =>
    refine ⟨by omega, ?_⟩
    by_contra hq
    have : m[q]? = none := List.getElem?_eq_none (by omega)
    simp [Mem.get, this] at h

theorem Mem.get_put_same {m : Mem} {p : Nat} {b : Bytes} (h : m.get p = some b)
    (x : Option Bytes) : (m.put p x).get p = x := by
  have hp := Mem.get_some_pos h
  cases p with
  | zero => simp at hp
  | succ q =>
    have hq : q < m.length := by omega
    simp [Mem.get, Mem.put, List.getElem?_set, hq]

theorem Mem.get_put_ne (m : Mem) {p q : Nat} (x : Option Bytes) (h : q ≠ p) :
    (m.put p x).get q = m.get q := by
  cases p with
  | zero => simp [Mem.put]
  | succ p =>
    cases q with
    | zero => simp [Mem.get]
    | succ q =>
      have : p ≠ q := by omega
      simp [Mem.get, Mem.put, List.getElem?_set, this]

@[simp] theorem Mem.length_put (m : Mem) (p : Nat) (x : Option Bytes) :
    (m.put p x).length = m.length := by
  cases p <;> simp [Mem.put]

theorem Mem.get_append_fresh (m : Mem) (x : Option Bytes) :
    Mem.get (m ++ [x]) (m.length + 1) = x := by
  simp [Mem.get]

theorem Mem.get_append_old (m : Mem) (x : Option Bytes) {p : Nat} (h : p ≠ m.length + 1) :
    Mem.get (m ++ [x]) p = m.get p := by
  cases p with
  | zero => simp [Mem.get]
  | succ q =>
    rcases Nat.lt_or_ge q m.length with hq | hq
    · simp [Mem.get, List.getElem?_append_left hq]
    · have h1 : (m ++ [x])[q]? = none := List.getElem?_eq_none (by simp; omega)
      have h2 : m[q]? = none := List.getElem?_eq_none hq
      simp [Mem.get, h1, h2]

theorem load_ok {m : Mem} {p : Nat} {b : Bytes} (h : m.get p = some b) (off n : Nat)
    (hb : off + n ≤ b.length) : load m p off n = .ok ((b.drop off).take n) := by
  have hp := (Mem.get_some_pos h).1
  simp [load, hp, h, hb]

theorem store_ok {m : Mem} {p : Nat} {b : Bytes} (h : m.get p = some b) (off : Nat)
    (src : Bytes) (hb : off + src.length ≤ b.length) :
    store m p off src = .ok (m.put p (some (b.take off ++ src ++ b.drop (off + src.length)))) := by
  have hp := (Mem.get_some_pos h).1
  simp [store, hp, h, hb]

theorem idx_offset_lt {count size i n : Nat} (hi : i < count) (hn : count * size ≤ n) :
    i * size + size ≤ n := by
  have : (i + 1) * size ≤ count * size := Nat.mul_le_mul_right size (by omega)
  rw [Nat.add_mul, Nat.one_mul] at this
  omega

theorem vctread_ok (env : Env) (v : vector_t) (wd : World) {b d : Bytes} {q i : Nat}
    (hbuf : wd.mem.get v.p_StorageBuffer = some b)
    (hlen : v.sz_ElementCount * v.sz_ElementSize ≤ b.length)
    (hfit : b.length < 2 ^ env.w)
    (hi : i < v.sz_ElementCount)
    (hd : wd.mem.get q = some d) (hdl : v.sz_ElementSize ≤ d.length) :
    vctread env q (some v) i wd =
      .ok { wd with mem := (wd.mem.put q
                              (some (elem b v.sz_ElementSize i ++ d.drop v.sz_ElementSize))) } := by
  have hoff := idx_offset_lt hi hlen
  have hmod : (i * v.sz_ElementSize) % 2 ^ env.w = i * v.sz_ElementSize :=
    Nat.mod_eq_of_lt (by omega)
  have hl : ((b.drop (i * v.sz_ElementSize)).take v.sz_ElementSize).length
      = v.sz_ElementSize := by
    simp; omega
  simp only [vctread, hi, if_true, memcpy, hmod, load_ok hbuf _ _ hoff]
  rw [store_ok hd 0 _ (by rw [hl]; omega)]
  simp [elem, hl]

theorem vctwrite_ok (env : Env) (v : vector_t) (wd : World) {b s : Bytes} {q i : Nat}
    (hbuf : wd.mem.get v.p_StorageBuffer = some b)
    (hlen : v.sz_ElementCount * v.sz_ElementSize ≤ b.length)
    (hfit : b.length < 2 ^ env.w)
    (hi : i < v.sz_ElementCount)
    (hs : wd.mem.get q = some s) (hsl : v.sz_ElementSize ≤ s.length) :
    vctwrite env (some v) i q wd =
      .ok { wd with mem := (wd.mem.put v.p_StorageBuffer
                              (some (b.take (i * v.sz_ElementSize) ++ s.take v.sz_ElementSize ++
                                b.drop (i * v.sz_ElementSize + v.sz_ElementSize)))) } := by
  have hoff := idx_offset_lt hi hlen
  have hmod : (i * v.sz_ElementSize) % 2 ^ env.w = i * v.sz_ElementSize :=
    Nat.mod_eq_of_lt (by omega)
  have hl : (s.take v.sz_ElementSize).length = v.sz_ElementSize := by
    simp; omega
  have hnot : ¬ i ≥ v.sz_ElementCount := by omega
  simp only [vctwrite, hnot, if_false, memcpy, hmod, load_ok hs 0 v.sz_ElementSize (by omega), List.drop_zero]
  rw [store_ok hbuf _ _ (by rw [hl]; omega)]
  simp [hl]

/-- Element `i` of a buffer right after element `i` was overwritten with `x`. -/
theorem elem_write_same {buf x : Bytes} {size i : Nat} (hx : x.length = size)
    (hb : i * size + size ≤ buf.length) :
    elem (buf.take (i * size) ++ x ++ buf.drop (i * size + size)) size i = x := by
  have h1 : (buf.take (i * size)).length = i * size := by simp; omega
  unfold elem
  rw [List.append_assoc, List.drop_append_of_le_length (by omega), List.drop_of_length_le (by omega)]
  simp [List.take_append_of_le_length, hx]

/-! ## Indexed access -/

/-- C1. Write/read fidelity: on a vector whose buffer holds `element_count` elements of
`element_size` bytes, for every index `i < element_count` and every value (the first
`element_size` bytes behind `p_Data`), `vctwrite(c, i, p_Data)` followed by
`vctread(p_Dest, c, i)` succeeds and leaves that value in the first `element_size`
bytes of the destination; the rest of a destination block other than the buffer is
untouched. -/
theorem C1_write_read_fidelity (env : Env) (c : vector_t) (wd : World) (buf blk dst : Bytes)
    (i p_Data p_Dest : Nat)
    (hbuf : wd.mem.get c.p_StorageBuffer = some buf)
    (hlen : buf.length = c.sz_ElementCount * c.sz_ElementSize)
    (hfit : buf.length < 2 ^ env.w)
    (hi : i < c.sz_ElementCount)
    (hv : wd.mem.get p_Data = some blk) (hvl : c.sz_ElementSize ≤ blk.length)
    (hd : wd.mem.get p_Dest = some dst) (hdl : c.sz_ElementSize ≤ dst.length) :
    ∃ wd1 wd2 d, vctwrite env (some c) i p_Data wd = .ok wd1 ∧
      vctread env p_Dest (some c) i wd1 = .ok wd2 ∧
      wd2.mem.get p_Dest = some d ∧
      d.take c.sz_ElementSize = blk.take c.sz_ElementSize ∧
      (p_Dest ≠ c.p_StorageBuffer → d.drop c.sz_ElementSize = dst.drop c.sz_ElementSize) := by
  have hoff := idx_offset_lt hi (Nat.le_of_eq hlen.symm)
  have hvt : (blk.take c.sz_ElementSize).length = c.sz_ElementSize := by simp; omega
  obtain ⟨buf1, hbuf1⟩ : ∃ buf1, buf1 = buf.take (i * c.sz_ElementSize) ++
      blk.take c.sz_ElementSize ++ buf.drop (i * c.sz_ElementSize + c.sz_ElementSize) := ⟨_, rfl⟩
  have hl1 : buf1.length = buf.length := by
    rw [hbuf1]; simp; omega
  have hw := vctwrite_ok env c wd hbuf (Nat.le_of_eq hlen.symm) hfit hi hv hvl
  rw [← hbuf1] at hw
  have hg1 : (wd.mem.put c.p_StorageBuffer (some buf1)).get c.p_StorageBuffer = some buf1 :=
    Mem.get_put_same hbuf _
  have he : elem buf1 c.sz_ElementSize i = blk.take c.sz_ElementSize := by
    rw [hbuf1]; exact elem_write_same hvt hoff
  obtain ⟨d0, hd0, hd0l, hd0e⟩ : ∃ d0,
      (wd.mem.put c.p_StorageBuffer (some buf1)).get p_Dest = some d0 ∧
      c.sz_ElementSize ≤ d0.length ∧ (p_Dest ≠ c.p_StorageBuffer → d0 = dst) := by
    by_cases hp : p_Dest = c.p_StorageBuffer
    · exact ⟨buf1, by rw [hp]; exact hg1, by omega, fun h => absurd hp h⟩
    · exact ⟨dst, by rw [Mem.get_put_ne _ _ hp]; exact hd, hdl, fun _ => rfl⟩
  have hr := vctread_ok env c ⟨wd.mem.put c.p_StorageBuffer (some buf1), wd.tick, wd.trace⟩
    hg1 (by omega) (by omega) hi hd0 hd0l
  refine ⟨_, _, _, hw, hr, Mem.get_put_same hd0 _, ?_, ?_⟩
  · rw [he, List.take_left' hvt]
  · intro hp
    rw [he, List.drop_left' hvt, hd0e hp]

/-- C1 at a concrete input: element 1 of `[1,2,3]` is overwritten with the cell at
address 4 and read back into the cell at address 5. -/
theorem C1_write_read_fidelity_witness :
    ∃ wd1 wd2 d, vctwrite exEnv (some exVecA) 1 4 exWorld = .ok wd1 ∧
      vctread exEnv 5 (some exVecA) 1 wd1 = .ok wd2 ∧
      wd2.mem.get 5 = some d ∧
      d.take 4 = (toLe32 77).take 4 ∧
      ((5 : Nat) ≠ exVecA.p_StorageBuffer → d.drop 4 = (toLe32 88).drop 4) :=
  C1_write_read_fidelity exEnv exVecA exWorld (toLe32 1 ++ toLe32 2 ++ toLe32 3)
    (toLe32 77) (toLe32 88) 1 4 5 (by decide) (by decide) (by decide) (by decide)
    (by decide) (by decide) (by decide) (by decide)

/-- C2. Out-of-bounds access is a no-op: for an index `i >= element_count`, `vctwrite`,
`vctread` and `mtxreadraw` return normally having only printed their diagnostic; memory
(the buffer and the destination alike) and the allocator tick are what they were, and
no descriptor field is written (none of the three takes the descriptor by mutable
state). -/
theorem C2_out_of_bounds_noop (env : Env) (c : vector_t) (m : matrix_t)
    (i j p_Data p_Dest : Nat) (wd : World)
    (hi : c.sz_ElementCount ≤ i) (hj : m.sz_ElementCount ≤ j) :
    vctwrite env (some c) i p_Data wd = .ok (printf wd .indexExceeded) ∧
    vctread env p_Dest (some c) i wd = .ok (printf wd .indexExceeded) ∧
    mtxreadraw env p_Dest (some m) j wd = .ok (printf wd .rawIndexExceeded) ∧
    (∀ d, (printf wd d).mem = wd.mem ∧ (printf wd d).tick = wd.tick ∧
      (printf wd d).trace = .print d :: wd.trace) := by
  refine ⟨?_, ?_, ?_, fun d => ⟨rfl, rfl, rfl⟩⟩
  · simp [vctwrite, hi]
  · simp [vctread, Nat.not_lt.mpr hi]
  · simp [mtxreadraw, Nat.not_lt.mpr hj]

/-- C2 at a concrete input: index 3 of a three-element vector and raw index 6 of a
six-element matrix. -/
theorem C2_out_of_bounds_noop_witness :
    vctwrite exEnv (some exVecA) 3 4 exWorld = .ok (printf exWorld .indexExceeded) ∧
    vctread exEnv 5 (some exVecA) 3 exWorld = .ok (printf exWorld .indexExceeded) ∧
    mtxreadraw exEnv 5 (some exMatrix) 6 exWorld = .ok (printf exWorld .rawIndexExceeded) ∧
    (∀ d, (printf exWorld d).mem = exWorld.mem ∧ (printf exWorld d).tick = exWorld.tick ∧
      (printf exWorld d).trace = .print d :: exWorld.trace) :=
  C2_out_of_bounds_noop exEnv exVecA exMatrix 3 6 4 5 exWorld (by decide) (by decide)

/-! ## Compatibility and validation -/

/-- C5. Compatibility is ternary: `vctcmp` returns -1 exactly when an operand is null;
on non-null operands it returns 0 exactly when the type tags, the element counts and
each of the four arithmetic bindings agree, and 1 exactly when they do not.  So equal
type and length with different add callbacks gives 1, not -1. -/
theorem C5_vctcmp_ternary (a b : Option vector_t) (x y : vector_t) (wd : World) :
    ((vctcmp a b wd).1 = -1 ↔ (a = none ∨ b = none)) ∧
    ((vctcmp (some x) (some y) wd).1 = 0 ↔
      (x.s32_Type = y.s32_Type ∧ x.sz_ElementCount = y.sz_ElementCount ∧
       x.pfn_ElementAdd = y.pfn_ElementAdd ∧ x.pfn_ElementSubtract = y.pfn_ElementSubtract ∧
       x.pfn_ElementMultiply = y.pfn_ElementMultiply ∧
       x.pfn_ElementDivide = y.pfn_ElementDivide)) ∧
    ((vctcmp (some x) (some y) wd).1 = 1 ↔
      ¬ (x.s32_Type = y.s32_Type ∧ x.sz_ElementCount = y.sz_ElementCount ∧
       x.pfn_ElementAdd = y.pfn_ElementAdd ∧ x.pfn_ElementSubtract = y.pfn_ElementSubtract ∧
       x.pfn_ElementMultiply = y.pfn_ElementMultiply ∧
       x.pfn_ElementDivide = y.pfn_ElementDivide)) ∧
    (x.s32_Type = y.s32_Type → x.sz_ElementCount = y.sz_ElementCount →
      x.pfn_ElementAdd ≠ y.pfn_ElementAdd → (vctcmp (some x) (some y) wd).1 = 1) := by
  have key : ∀ u v : vector_t, (vctcmp (some u) (some v) wd).1 =
      if (u.s32_Type = v.s32_Type ∧ u.sz_ElementCount = v.sz_ElementCount ∧
       u.pfn_ElementAdd = v.pfn_ElementAdd ∧ u.pfn_ElementSubtract = v.pfn_ElementSubtract ∧
       u.pfn_ElementMultiply = v.pfn_ElementMultiply ∧
       u.pfn_ElementDivide = v.pfn_ElementDivide) then 0 else 1 := by
    intro u v
    unfold vctcmp
    by_cases h : (u.s32_Type = v.s32_Type ∧ u.sz_ElementCount = v.sz_ElementCount ∧
       u.pfn_ElementAdd = v.pfn_ElementAdd ∧ u.pfn_ElementSubtract = v.pfn_ElementSubtract ∧
       u.pfn_ElementMultiply = v.pfn_ElementMultiply ∧
       u.pfn_ElementDivide = v.pfn_ElementDivide)
    · obtain ⟨h1, h2, h3, h4, h5, h6⟩ := h
      simp [h1, h2, h3, h4, h5, h6]
    · rw [if_neg h]
      have h' : u.s32_Type ≠ v.s32_Type ∨ u.sz_ElementCount ≠ v.sz_ElementCount ∨
          u.pfn_ElementAdd ≠ v.pfn_ElementAdd ∨
          u.pfn_ElementSubtract ≠ v.pfn_ElementSubtract ∨
          u.pfn_ElementMultiply ≠ v.pfn_ElementMultiply ∨
          u.pfn_ElementDivide ≠ v.pfn_ElementDivide := by
        by_contra hc
        simp only [not_or, not_not] at hc
        exact h hc
      simp only [if_pos h']
  refine ⟨?_, ?_, ?_, ?_⟩
  · cases a with
    | none => simp [vctcmp]
    | some u =>
      cases b with
      | none => simp [vctcmp]
      | some v =>
        rw [key]
        split <;> simp
  · rw [key]
    split <;> simp_all
  · rw [key]
    split <;> simp_all
  · intro _ _ h3
    rw [key, if_neg (fun h => h3 h.2.2.1)]

/-- C5 at a concrete input: same type, same length, another add callback. -/
theorem C5_vctcmp_ternary_witness :
    (vctcmp (some exVecA) (some exVecOtherAdd) exWorld).1 = 1 :=
  (C5_vctcmp_ternary none none exVecA exVecOtherAdd exWorld).2.2.2
    (by decide) (by decide) (by decide)

/-- C6. Integrity validation: `vctmemchk` returns 0 exactly when the buffer pointer is
non-null, element size, element count and buffer size are nonzero, the type tag is not
`TYPE_NULL` and the allocate and free bindings are non-null, and -1 otherwise;
`mtxmemchk` asks in addition for nonzero width and height.  Both are functions of the
descriptor that return only the code, so no field changes. -/
theorem C6_memchk (v : vector_t) (m : matrix_t) :
    (vctmemchk v = 0 ↔
      (v.p_StorageBuffer ≠ 0 ∧ v.sz_ElementSize ≠ 0 ∧ v.sz_ElementCount ≠ 0 ∧
       v.sz_BufferSize ≠ 0 ∧ v.s32_Type ≠ TYPE_NULL ∧ v.pfn_Allocate ≠ none ∧
       v.pfn_Free ≠ none)) ∧
    (vctmemchk v = -1 ↔
      ¬ (v.p_StorageBuffer ≠ 0 ∧ v.sz_ElementSize ≠ 0 ∧ v.sz_ElementCount ≠ 0 ∧
       v.sz_BufferSize ≠ 0 ∧ v.s32_Type ≠ TYPE_NULL ∧ v.pfn_Allocate ≠ none ∧
       v.pfn_Free ≠ none)) ∧
    (mtxmemchk m = 0 ↔
      ((m.p_StorageBuffer ≠ 0 ∧ m.sz_ElementSize ≠ 0 ∧ m.sz_ElementCount ≠ 0 ∧
        m.sz_BufferSize ≠ 0 ∧ m.s32_Type ≠ TYPE_NULL ∧ m.pfn_Allocate ≠ none ∧
        m.pfn_Free ≠ none) ∧ m.sz_Width ≠ 0 ∧ m.sz_Height ≠ 0)) ∧
    (mtxmemchk m = -1 ↔
      ¬ ((m.p_StorageBuffer ≠ 0 ∧ m.sz_ElementSize ≠ 0 ∧ m.sz_ElementCount ≠ 0 ∧
        m.sz_BufferSize ≠ 0 ∧ m.s32_Type ≠ TYPE_NULL ∧ m.pfn_Allocate ≠ none ∧
        m.pfn_Free ≠ none) ∧ m.sz_Width ≠ 0 ∧ m.sz_Height ≠ 0)) := by
  refine ⟨?_, ?_, ?_, ?_⟩
  · unfold vctmemchk
    split <;> simp_all
  · unfold vctmemchk
    split <;> simp_all
  · unfold mtxmemchk
    split
    · rename_i h
      simp only [true_iff]
      tauto
    · rename_i h
      simp only [Int.reduceNeg, Int.neg_eq_zero, one_ne_zero, false_iff]
      tauto
  · unfold mtxmemchk
    split
    · rename_i h
      simp only [Int.reduceNeg, zero_eq_neg, one_ne_zero, false_iff, not_not]
      tauto
    · rename_i h
      simp only [true_iff]
      tauto

/-! ## Construction -/

/-- C7. Construction rejects empty shapes: `vctcreate` returns -1 on a null descriptor
and on `element_count = 0` or `element_size = 0`, and `mtxcreate` on a null descriptor
and on a zero width, height or element size.  The returned descriptor is the one
passed in and the returned world is the one passed in (plus the null-reference
diagnostic in the null case), so no allocator was called. -/
theorem C7_create_rejects_empty (env : Env) (v : vector_t) (m : matrix_t)
    (pfn_AllocateMemory : Option AllocFn) (pfn_FreeMemory : Option FreeFn) (wd : World)
    (hv : v.sz_ElementCount = 0 ∨ v.sz_ElementSize = 0)
    (hm : m.sz_Width = 0 ∨ m.sz_Height = 0 ∨ m.sz_ElementSize = 0) :
    vctcreate env none pfn_AllocateMemory pfn_FreeMemory wd
      = .ok (-1, none, printf wd .nullReference) ∧
    vctcreate env (some v) pfn_AllocateMemory pfn_FreeMemory wd = .ok (-1, some v, wd) ∧
    mtxcreate env none pfn_AllocateMemory pfn_FreeMemory wd
      = .ok (-1, none, printf wd .nullReference) ∧
    mtxcreate env (some m) pfn_AllocateMemory pfn_FreeMemory wd = .ok (-1, some m, wd) ∧
    (printf wd .nullReference).tick = wd.tick ∧
    (printf wd .nullReference).trace = .print .nullReference :: wd.trace := by
  refine ⟨rfl, ?_, rfl, ?_, rfl, rfl⟩
  · simp [vctcreate, hv]
  · simp [mtxcreate, hm]

/-- C7 at a concrete input: a vector descriptor of zero elements and a matrix
descriptor of zero height, with a caller-supplied allocator. -/
theorem C7_create_rejects_empty_witness :
    vctcreate exEnv none (some (.custom 1)) (some (.custom 1)) exWorld
      = .ok (-1, none, printf exWorld .nullReference) ∧
    vctcreate exEnv (some (exFresh 4 0)) (some (.custom 1)) (some (.custom 1)) exWorld
      = .ok (-1, some (exFresh 4 0), exWorld) ∧
    mtxcreate exEnv none (some (.custom 1)) (some (.custom 1)) exWorld
      = .ok (-1, none, printf exWorld .nullReference) ∧
    mtxcreate exEnv (some (exFreshMatrix 4 2 0)) (some (.custom 1)) (some (.custom 1)) exWorld
      = .ok (-1, some (exFreshMatrix 4 2 0), exWorld) ∧
    (printf exWorld .nullReference).tick = exWorld.tick ∧
    (printf exWorld .nullReference).trace = .print .nullReference :: exWorld.trace :=
  C7_create_rejects_empty exEnv (exFresh 4 0) (exFreshMatrix 4 2 0) (some (.custom 1))
    (some (.custom 1)) exWorld (by decide) (by decide)

/-- C8. The buffer-size invariant does not hold: with a 32-bit `size_t`, 65537
elements of 65537 bytes give the wrapped product 131073, which is not below the
element count, so `vctcreate` returns 0 with `buffer_size = 131073` although the exact
product is 4295098369; `mtxcreate` does the same on a 1 x 65537 matrix, and with a
64-bit `size_t` the same happens for `2^32 + 1` elements of `2^32 + 1` bytes. -/
theorem C8_buffer_size_wraps :
    (vctcreate exEnv32 (some (exFresh 65537 65537)) none none exWorld).map
        (fun r => (r.1, r.2.1.map vector_t.sz_BufferSize)) = .ok (0, some 131073) ∧
    (mtxcreate exEnv32 (some (exFreshMatrix 65537 1 65537)) none none exWorld).map
        (fun r => (r.1, r.2.1.map matrix_t.sz_BufferSize)) = .ok (0, some 131073) ∧
    65537 * 65537 ≠ 131073 ∧ ¬ (65537 * 65537 < 2 ^ exEnv32.w) ∧
    (vctcreate exEnv (some (exFresh (2 ^ 32 + 1) (2 ^ 32 + 1))) none none exWorld).map
        (fun r => (r.1, r.2.1.map vector_t.sz_BufferSize)) = .ok (0, some (2 ^ 33 + 1)) ∧
    ¬ ((2 ^ 32 + 1) * (2 ^ 32 + 1) < 2 ^ exEnv.w) := by
  refine ⟨by decide, by decide, by decide, by decide, by decide, by decide⟩

/-- C9. The allocator binding is not sticky: on a descriptor that already has a
caller-supplied allocate binding, `vctcreate(v, NULL, NULL)` and
`mtxcreate(m, NULL, NULL)` overwrite the binding with the null override and then call
through it; and when only the allocate override is given, the existing free binding is
replaced by `NULL` in the descriptor that is returned. -/
theorem C9_binding_overwritten_by_null :
    vctcreate exEnv (some exBound) none none exWorld = .error .nullCall ∧
    mtxcreate exEnv (some exBoundMatrix) none none exWorld = .error .nullCall ∧
    (vctcreate exEnv (some exBound) (some (.custom 2)) none exWorld).map
        (fun r => (r.1, r.2.1.map vector_t.pfn_Free)) = .ok (0, some none) ∧
    exBound.pfn_Allocate = some (.custom 1) ∧ exBound.pfn_Free = some (.custom 1) := by
  refine ⟨by decide, by decide, by decide, by decide, by decide⟩

/-- C10. Default construction: on a descriptor without allocate and free bindings,
with nonzero element size and count whose product fits `size_t`, and with `calloc`
succeeding, `vctcreate(v, NULL, NULL)` returns 0, binds `zalloc` and `free`, sets
`buffer_size = element_size * element_count`, points the buffer at a fresh block, has
called `zalloc` once and nothing else, and every element `i < element_count` then
reads back as `element_size` zero bytes. -/
theorem C10_default_construction (env : Env) (v : vector_t) (wd : World)
    (ha : v.pfn_Allocate = none) (hf : v.pfn_Free = none)
    (hs : v.sz_ElementSize ≠ 0) (hc : v.sz_ElementCount ≠ 0)
    (hfit : v.sz_ElementSize * v.sz_ElementCount < 2 ^ env.w)
    (hok : env.callocOk wd.tick (v.sz_ElementSize * v.sz_ElementCount) = true) :
    ∃ v1 wd1, vctcreate env (some v) none none wd = .ok (0, some v1, wd1) ∧
      v1 = { v with pfn_Allocate := some AllocFn.zalloc, pfn_Free := some FreeFn.free,
                    sz_BufferSize := v.sz_ElementSize * v.sz_ElementCount,
                    p_StorageBuffer := wd.mem.fresh } ∧
      wd1.trace = .alloc .zalloc (v.sz_ElementSize * v.sz_ElementCount) wd.mem.fresh :: wd.trace ∧
      wd1.mem = wd.mem ++ [some (List.replicate (v.sz_ElementSize * v.sz_ElementCount) 0)] ∧
      ∀ i p_Dest dst, i < v.sz_ElementCount → wd1.mem.get p_Dest = some dst →
        v.sz_ElementSize ≤ dst.length →
        ∃ wd2, vctread env p_Dest (some v1) i wd1 = .ok wd2 ∧
          wd2.mem.get p_Dest
            = some (List.replicate v.sz_ElementSize 0 ++ dst.drop v.sz_ElementSize) := by
  have hmod : (v.sz_ElementSize * v.sz_ElementCount) % 2 ^ env.w
      = v.sz_ElementSize * v.sz_ElementCount := Nat.mod_eq_of_lt hfit
  have hpos : 0 < v.sz_ElementSize * v.sz_ElementCount :=
    Nat.mul_pos (Nat.pos_of_ne_zero hs) (Nat.pos_of_ne_zero hc)
  have hge : ¬ v.sz_ElementSize * v.sz_ElementCount < v.sz_ElementCount := by
    have := Nat.le_mul_of_pos_left v.sz_ElementCount (Nat.pos_of_ne_zero hs)
    omega
  refine ⟨_, ⟨wd.mem ++ [some (List.replicate (v.sz_ElementSize * v.sz_ElementCount) 0)],
    wd.tick + 1,
    .alloc .zalloc (v.sz_ElementSize * v.sz_ElementCount) wd.mem.fresh :: wd.trace⟩,
    ?_, rfl, rfl, rfl, ?_⟩
  · simp [vctcreate, allocateBinding, freeBinding, hs, hc, ha, hf, hmod, callAlloc, zalloc, calloc, allocBlock, hfit, hok,
      CHECK_ALLOCATION, Mem.fresh, hge]
  · intro i p_Dest dst hi hd hdl
    have hbuf : Mem.get (wd.mem ++ [some (List.replicate (v.sz_ElementSize * v.sz_ElementCount) 0)])
        wd.mem.fresh = some (List.replicate (v.sz_ElementSize * v.sz_ElementCount) 0) :=
      Mem.get_append_fresh _ _
    have hr := vctread_ok env
      { v with pfn_Allocate := some AllocFn.zalloc, pfn_Free := some FreeFn.free,
               sz_BufferSize := v.sz_ElementSize * v.sz_ElementCount,
               p_StorageBuffer := wd.mem.fresh }
      ⟨wd.mem ++ [some (List.replicate (v.sz_ElementSize * v.sz_ElementCount) 0)], wd.tick + 1,
        .alloc .zalloc (v.sz_ElementSize * v.sz_ElementCount) wd.mem.fresh :: wd.trace⟩
      hbuf (by simp [Nat.mul_comm]) (by simpa using hfit) hi hd hdl
    refine ⟨_, hr, ?_⟩
    rw [Mem.get_put_same hd]
    have hoff := idx_offset_lt hi (Nat.le_of_eq (Nat.mul_comm v.sz_ElementCount v.sz_ElementSize))
    have : elem (List.replicate (v.sz_ElementSize * v.sz_ElementCount) 0) v.sz_ElementSize i
        = List.replicate v.sz_ElementSize 0 := by
      simp only [elem, List.drop_replicate, List.take_replicate]
      congr 1
      omega
    simp [this]

/-- C10 at the smoke test's 32-element `float` vector. -/
theorem C10_default_construction_witness :
    ∃ v1 wd1, vctcreate exEnv (some exSmoke) none none exWorld = .ok (0, some v1, wd1) ∧
      v1 = { exSmoke with pfn_Allocate := some AllocFn.zalloc, pfn_Free := some FreeFn.free,
                          sz_BufferSize := exSmoke.sz_ElementSize * exSmoke.sz_ElementCount,
                          p_StorageBuffer := exWorld.mem.fresh } ∧
      wd1.trace = .alloc .zalloc (exSmoke.sz_ElementSize * exSmoke.sz_ElementCount)
        exWorld.mem.fresh :: exWorld.trace ∧
      wd1.mem = exWorld.mem ++
        [some (List.replicate (exSmoke.sz_ElementSize * exSmoke.sz_ElementCount) 0)] ∧
      ∀ i p_Dest dst, i < exSmoke.sz_ElementCount → wd1.mem.get p_Dest = some dst →
        exSmoke.sz_ElementSize ≤ dst.length →
        ∃ wd2, vctread exEnv p_Dest (some v1) i wd1 = .ok wd2 ∧
          wd2.mem.get p_Dest
            = some (List.replicate exSmoke.sz_ElementSize 0 ++ dst.drop exSmoke.sz_ElementSize) :=
  C10_default_construction exEnv exSmoke exWorld (by decide) (by decide) (by decide)
    (by decide) (by decide) (by decide)

/-! ## Lemmas on callbacks and loops -/

theorem callAlloc_ok (env : Env) {f : Option AllocFn} {size : Nat} (wd : World)
    (h : allocSucceeds env f size wd.tick = true) :
    ∃ g init, f = some g ∧ init.length = size ∧
      callAlloc env f size wd =
        .ok (wd.mem.length + 1,
          ⟨wd.mem ++ [some init], wd.tick + 1, .alloc g size (wd.mem.length + 1) :: wd.trace⟩) := by
  cases f with
  | none => simp [allocSucceeds] at h
  | some g =>
    cases g with
    | zalloc =>
      refine ⟨.zalloc, List.replicate (size * 1) 0, rfl, by simp, ?_⟩
      simp only [allocSucceeds] at h
      simp only [callAlloc, zalloc, calloc, allocBlock, h, Mem.fresh, if_true]
    | custom id =>
      refine ⟨.custom id, (List.range size).map (env.allocInit id wd.tick), rfl, by simp, ?_⟩
      simp only [allocSucceeds] at h
      simp [callAlloc, allocBlock, h, Mem.fresh]

theorem callAlloc_fail (env : Env) {g : AllocFn} {n : Nat} (wd : World)
    (h : allocSucceeds env (some g) n wd.tick = false) :
    callAlloc env (some g) n wd =
      .ok (0, ⟨wd.mem, wd.tick + 1, .alloc g n 0 :: wd.trace⟩) := by
  cases g with
  | zalloc =>
    simp only [allocSucceeds] at h
    simp only [callAlloc, zalloc, calloc, allocBlock, h]
    rfl
  | custom id =>
    simp only [allocSucceeds] at h
    simp [callAlloc, allocBlock, h]

theorem callFree_ok {g : FreeFn} {p : Nat} {b : Bytes} (wd : World)
    (h : wd.mem.get p = some b) :
    callFree (some g) p wd = .ok ⟨wd.mem.put p none, wd.tick, .release g p :: wd.trace⟩ := by
  have hp := (Mem.get_some_pos h).1
  simp [callFree, hp, h]

theorem callArith_ok (env : Env) {c p u v : Nat} {l r x : Bytes} (wd : World)
    (hl : wd.mem.get u = some l) (hr : wd.mem.get v = some r)
    (hx : wd.mem.get p = some x) (hlen : (env.arith c l r).length ≤ x.length) :
    callArith env (some c) p u v wd =
      .ok ⟨wd.mem.put p (some (env.arith c l r ++ x.drop (env.arith c l r).length)),
        wd.tick, .arith c l r :: wd.trace⟩ := by
  have h1 := (Mem.get_some_pos hl).1
  have h2 := (Mem.get_some_pos hr).1
  have hs := store_ok hx 0 (env.arith c l r) (by omega)
  simp [callArith, deref, h1, h2, hl, hr, hs]

/-- A loop over `0 .. n-1` that keeps an invariant runs to the end and ends in it. -/
theorem foldlM_range_inv (step : World → Nat → Except Fault World) (P : Nat → World → Prop)
    (n : Nat) (w0 : World) (h0 : P 0 w0)
    (hstep : ∀ k w, k < n → P k w → ∃ w1, step w k = .ok w1 ∧ P (k + 1) w1) :
    ∃ w1, (List.range n).foldlM step w0 = .ok w1 ∧ P n w1 := by
  induction n with
  | zero => exact ⟨w0, rfl, h0⟩
  | succ m ih =>
    obtain ⟨w1, hw1, hp1⟩ := ih (fun k w hk hp => hstep k w (by omega) hp)
    obtain ⟨w2, hw2, hp2⟩ := hstep m w1 (by omega) hp1
    refine ⟨w2, ?_, hp2⟩
    rw [List.range_succ, List.foldlM_append, hw1]
    simp [hw2]

theorem getElem?_elem (bs : Bytes) (size i n : Nat) :
    (elem bs size i)[n]? = if n < size then bs[i * size + n]? else none := by
  unfold elem
  rw [List.getElem?_take]
  split
  · rw [List.getElem?_drop]
  · rfl

theorem getElem?_splice (buf x : Bytes) (o j : Nat) (h : o + x.length ≤ buf.length) :
    (buf.take o ++ x ++ buf.drop (o + x.length))[j]? =
      if j < o then buf[j]? else if j < o + x.length then x[j - o]? else buf[j]? := by
  have h1 : (buf.take o).length = o := by simp; omega
  by_cases hj : j < o
  · rw [if_pos hj, List.append_assoc, List.getElem?_append_left (by omega),
      List.getElem?_take, if_pos hj]
  · rw [if_neg hj, List.append_assoc, List.getElem?_append_right (by omega), h1]
    by_cases hj2 : j < o + x.length
    · rw [if_pos hj2, List.getElem?_append_left (by omega)]
    · rw [if_neg hj2, List.getElem?_append_right (by omega), List.getElem?_drop]
      congr 1
      omega

/-- Overwriting element `k` leaves every other element as it was. -/
theorem elem_write_other {buf x : Bytes} {size k i : Nat} (hx : x.length = size)
    (hb : k * size + size ≤ buf.length) (hik : i ≠ k) :
    elem (buf.take (k * size) ++ x ++ buf.drop (k * size + size)) size i = elem buf size i := by
  apply List.ext_getElem?
  intro n
  rw [getElem?_elem, getElem?_elem]
  split
  · rename_i hn
    have hsp := getElem?_splice buf x (k * size) (i * size + n) (by omega)
    rw [← hx]
    rw [hx] at hsp ⊢
    rw [hsp]
    rcases Nat.lt_or_gt_of_ne hik with hlt | hgt
    · have : (i + 1) * size ≤ k * size := Nat.mul_le_mul_right size (by omega)
      rw [Nat.add_mul, Nat.one_mul] at this
      rw [if_pos (by omega)]
    · have : (k + 1) * size ≤ i * size := Nat.mul_le_mul_right size (by omega)
      rw [Nat.add_mul, Nat.one_mul] at this
      rw [if_neg (by omega), if_neg (by omega)]
  · rfl

theorem length_splice {buf x : Bytes} {o : Nat} (h : o + x.length ≤ buf.length) :
    (buf.take o ++ x ++ buf.drop (o + x.length)).length = buf.length := by
  simp; omega

theorem length_elem {bs : Bytes} {size i : Nat} (h : i * size + size ≤ bs.length) :
    (elem bs size i).length = size := by
  simp [elem]; omega

/-! ## The element-wise engine -/

theorem vctcmp_snd (a b : vector_t) (wd : World) : (vctcmp (some a) (some b) wd).2 = wd := by
  simp only [vctcmp]
  split <;> rfl

theorem vctmemchk_eq_zero {v : vector_t} (h : vctmemchk v = 0) :
    v.p_StorageBuffer ≠ 0 ∧ v.sz_ElementSize ≠ 0 ∧ v.sz_ElementCount ≠ 0 ∧
    v.sz_BufferSize ≠ 0 ∧ v.s32_Type ≠ TYPE_NULL ∧ (∃ g, v.pfn_Allocate = some g) ∧
    (∃ g, v.pfn_Free = some g) := by
  unfold vctmemchk at h
  split at h
  · rename_i hc
    obtain ⟨h1, h2, h3, h4, h5, h6, h7⟩ := hc
    exact ⟨h1, h2, h3, h4, h5, Option.ne_none_iff_exists'.mp h6, Option.ne_none_iff_exists'.mp h7⟩
  · simp at h

theorem check_succ (n : Nat) : (CHECK_ALLOCATION (n + 1) = false) = False := by
  simp [CHECK_ALLOCATION]

theorem check_zero : (CHECK_ALLOCATION 0 = false) = True := by
  simp [CHECK_ALLOCATION]

/-- Past its guards and allocations, `ELEMENTWISE_OP_DEF` is its loop followed by the
three releases. -/
theorem elementwise_run (sel : vector_t → Option Nat) (env : Env) (a b r : vector_t)
    (wd : World) (f : Nat) (hsel : sel a = some f)
    (hva : vctmemchk a = 0) (hvb : vctmemchk b = 0) (hvr : vctmemchk r = 0)
    (hcmp : (vctcmp (some a) (some b) wd).1 = 0)
    (hal1 : allocSucceeds env a.pfn_Allocate a.sz_ElementSize wd.tick = true)
    (hal2 : allocSucceeds env b.pfn_Allocate b.sz_ElementSize (wd.tick + 1) = true)
    (hal3 : allocSucceeds env r.pfn_Allocate r.sz_ElementSize (wd.tick + 2) = true) :
    ∃ i1 i2 i3 t, i1.length = a.sz_ElementSize ∧ i2.length = b.sz_ElementSize ∧
      i3.length = r.sz_ElementSize ∧
      ELEMENTWISE_OP_DEF sel env (some r) (some a) (some b) wd =
        ((List.range a.sz_ElementCount).foldlM
            (elementwiseStep sel env r a b (wd.mem.length + 1) (wd.mem.length + 2)
              (wd.mem.length + 3))
            ⟨wd.mem ++ [some i1] ++ [some i2] ++ [some i3], wd.tick + 3, t⟩ >>= fun w =>
          callFree a.pfn_Free (wd.mem.length + 1) w >>= fun w =>
          callFree b.pfn_Free (wd.mem.length + 2) w >>= fun w =>
          callFree r.pfn_Free (wd.mem.length + 3) w) := by
  obtain ⟨g1, i1, hg1, hi1, h1⟩ := callAlloc_ok env wd hal1
  obtain ⟨g2, i2, hg2, hi2, h2⟩ := callAlloc_ok env
    ⟨wd.mem ++ [some i1], wd.tick + 1, .alloc g1 a.sz_ElementSize (wd.mem.length + 1) :: wd.trace⟩
    hal2
  obtain ⟨g3, i3, hg3, hi3, h3⟩ := callAlloc_ok env
    ⟨wd.mem ++ [some i1] ++ [some i2], wd.tick + 1 + 1,
      .alloc g2 b.sz_ElementSize ((wd.mem ++ [some i1]).length + 1) ::
        .alloc g1 a.sz_ElementSize (wd.mem.length + 1) :: wd.trace⟩
    hal3
  refine ⟨i1, i2, i3,
    .alloc g3 r.sz_ElementSize (wd.mem.length + 3) :: .alloc g2 b.sz_ElementSize (wd.mem.length + 2)
      :: .alloc g1 a.sz_ElementSize (wd.mem.length + 1) :: wd.trace,
    hi1, hi2, hi3, ?_⟩
  have hguard : ¬ ((vctcmp (some a) (some b) wd).1 ≠ 0 ∨ sel a = none ∨ vctmemchk a ≠ 0 ∨
      vctmemchk b ≠ 0 ∨ vctmemchk r ≠ 0) := by
    simp [hcmp, hsel, hva, hvb, hvr]
  simp only [List.length_append, List.length_singleton] at h2 h3
  simp only [ELEMENTWISE_OP_DEF, if_neg hguard, vctcmp_snd, h1, h2, h3, bind_ok,
    check_succ, if_false]

theorem Mem.get_put (m : Mem) {p : Nat} (q : Nat) (x : Option Bytes)
    (hp : 0 < p ∧ p ≤ m.length) : (m.put p x).get q = if q = p then x else m.get q := by
  by_cases h : q = p
  · subst h
    rw [if_pos rfl]
    cases q with
    | zero => omega
    | succ n =>
      have hn : n < m.length := by omega
      simp [Mem.get, Mem.put, List.getElem?_set, hn]
  · rw [if_neg h, Mem.get_put_ne _ _ h]

theorem Mem.get_bounds {m : Mem} {p : Nat} {b : Bytes} (h : m.get p = some b) :
    0 < p ∧ p ≤ m.length :=
  ⟨Nat.pos_of_ne_zero (Mem.get_some_pos h).1, (Mem.get_some_pos h).2⟩

/-- One pass of the element-wise loop, on distinct live blocks. -/
theorem elementwiseStep_ok (sel : vector_t → Option Nat) (env : Env) (a b r : vector_t)
    (f : Nat) (hsel : sel a = some f) (pA pB pR : Nat) (w : World) (k : Nat)
    (ba bb brk xa xb xr : Bytes)
    (hk : k < a.sz_ElementCount) (hbc : b.sz_ElementCount = a.sz_ElementCount)
    (hkr : k < r.sz_ElementCount)
    (hA : w.mem.get a.p_StorageBuffer = some ba)
    (hAl : a.sz_ElementCount * a.sz_ElementSize ≤ ba.length) (hAf : ba.length < 2 ^ env.w)
    (hB : w.mem.get b.p_StorageBuffer = some bb)
    (hBl : b.sz_ElementCount * b.sz_ElementSize ≤ bb.length) (hBf : bb.length < 2 ^ env.w)
    (hR : w.mem.get r.p_StorageBuffer = some brk)
    (hRl : r.sz_ElementCount * r.sz_ElementSize ≤ brk.length) (hRf : brk.length < 2 ^ env.w)
    (hxa : w.mem.get pA = some xa) (hxal : xa.length = a.sz_ElementSize)
    (hxb : w.mem.get pB = some xb) (hxbl : xb.length = b.sz_ElementSize)
    (hxr : w.mem.get pR = some xr) (hxrl : xr.length = r.sz_ElementSize)
    (hAB : pA ≠ pB) (hAR : pA ≠ pR) (hBR : pB ≠ pR)
    (hAb : pA ≠ b.p_StorageBuffer) (hAr : pA ≠ r.p_StorageBuffer)
    (hBr : pB ≠ r.p_StorageBuffer) (hRr : pR ≠ r.p_StorageBuffer)
    (hop : (env.arith f (elem ba a.sz_ElementSize k) (elem bb b.sz_ElementSize k)).length
      = r.sz_ElementSize) :
    elementwiseStep sel env r a b pA pB pR w k =
      .ok ⟨(((w.mem.put pA (some (elem ba a.sz_ElementSize k))).put pB
              (some (elem bb b.sz_ElementSize k))).put pR
              (some (env.arith f (elem ba a.sz_ElementSize k) (elem bb b.sz_ElementSize k)))).put
            r.p_StorageBuffer
            (some (brk.take (k * r.sz_ElementSize) ++
              env.arith f (elem ba a.sz_ElementSize k) (elem bb b.sz_ElementSize k) ++
              brk.drop (k * r.sz_ElementSize + r.sz_ElementSize))),
        w.tick,
        .arith f (elem ba a.sz_ElementSize k) (elem bb b.sz_ElementSize k) :: w.trace⟩ := by
  have bA := Mem.get_bounds hxa
  have bB := Mem.get_bounds hxb
  have bR := Mem.get_bounds hxr
  have bb' := Mem.get_bounds hB
  have br' := Mem.get_bounds hR
  have h1 := vctread_ok env a w hA hAl hAf hk hxa (by omega)
  rw [← hxal, List.drop_length, List.append_nil, hxal] at h1
  have h2 := vctread_ok env b ⟨w.mem.put pA (some (elem ba a.sz_ElementSize k)), w.tick, w.trace⟩
    (b := bb) (d := xb) (q := pB) (i := k)
    (by simp [Mem.get_put, bA, hB, Ne.symm hAb]) hBl hBf (by omega)
    (by simp [Mem.get_put, bA, hxb, Ne.symm hAB]) (by omega)
  rw [← hxbl, List.drop_length, List.append_nil, hxbl] at h2
  have h3 := callArith_ok env (c := f) (p := pR) (u := pA) (v := pB)
    (l := elem ba a.sz_ElementSize k) (r := elem bb b.sz_ElementSize k) (x := xr)
    ⟨(w.mem.put pA (some (elem ba a.sz_ElementSize k))).put pB
      (some (elem bb b.sz_ElementSize k)), w.tick, w.trace⟩
    (by simp [Mem.get_put, bA, bB, hAB])
    (by simp [Mem.get_put, bA, bB])
    (by simp [Mem.get_put, bA, bB, hxr, Ne.symm hAR, Ne.symm hBR])
    (by omega)
  rw [hop, ← hxrl, List.drop_length, List.append_nil] at h3
  have h4 := vctwrite_ok env r
    ⟨((w.mem.put pA (some (elem ba a.sz_ElementSize k))).put pB
      (some (elem bb b.sz_ElementSize k))).put pR
      (some (env.arith f (elem ba a.sz_ElementSize k) (elem bb b.sz_ElementSize k))),
      w.tick, .arith f (elem ba a.sz_ElementSize k) (elem bb b.sz_ElementSize k) :: w.trace⟩
    (b := brk) (q := pR) (i := k)
    (s := env.arith f (elem ba a.sz_ElementSize k) (elem bb b.sz_ElementSize k))
    (by simp [Mem.get_put, bA, bB, bR, hR, Ne.symm hAr, Ne.symm hBr, Ne.symm hRr])
    hRl hRf (by omega)
    (by simp [Mem.get_put, bA, bB, bR])
    (by omega)
  rw [← hop, List.take_length, hop] at h4
  simp only [elementwiseStep, h1, bind_ok, h2, hsel, h3, h4]

/-- One pass of the element-wise loop at an index the result does not have: the
scratch blocks are filled and `vctwrite` only prints its diagnostic. -/
theorem elementwiseStep_skip (sel : vector_t → Option Nat) (env : Env) (a b r : vector_t)
    (f : Nat) (hsel : sel a = some f) (pA pB pR : Nat) (w : World) (k : Nat)
    (ba bb xa xb xr : Bytes)
    (hk : k < a.sz_ElementCount) (hbc : b.sz_ElementCount = a.sz_ElementCount)
    (hkr : r.sz_ElementCount ≤ k)
    (hA : w.mem.get a.p_StorageBuffer = some ba)
    (hAl : a.sz_ElementCount * a.sz_ElementSize ≤ ba.length) (hAf : ba.length < 2 ^ env.w)
    (hB : w.mem.get b.p_StorageBuffer = some bb)
    (hBl : b.sz_ElementCount * b.sz_ElementSize ≤ bb.length) (hBf : bb.length < 2 ^ env.w)
    (hxa : w.mem.get pA = some xa) (hxal : xa.length = a.sz_ElementSize)
    (hxb : w.mem.get pB = some xb) (hxbl : xb.length = b.sz_ElementSize)
    (hxr : w.mem.get pR = some xr) (hxrl : xr.length = r.sz_ElementSize)
    (hAB : pA ≠ pB) (hAR : pA ≠ pR) (hBR : pB ≠ pR)
    (hAb : pA ≠ b.p_StorageBuffer)
    (hop : (env.arith f (elem ba a.sz_ElementSize k) (elem bb b.sz_ElementSize k)).length
      = r.sz_ElementSize) :
    elementwiseStep sel env r a b pA pB pR w k =
      .ok ⟨((w.mem.put pA (some (elem ba a.sz_ElementSize k))).put pB
              (some (elem bb b.sz_ElementSize k))).put pR
              (some (env.arith f (elem ba a.sz_ElementSize k) (elem bb b.sz_ElementSize k))),
        w.tick,
        .print .indexExceeded ::
          .arith f (elem ba a.sz_ElementSize k) (elem bb b.sz_ElementSize k) :: w.trace⟩ := by
  have bA := Mem.get_bounds hxa
  have bB := Mem.get_bounds hxb
  have bR := Mem.get_bounds hxr
  have h1 := vctread_ok env a w hA hAl hAf hk hxa (by omega)
  rw [← hxal, List.drop_length, List.append_nil, hxal] at h1
  have h2 := vctread_ok env b ⟨w.mem.put pA (some (elem ba a.sz_ElementSize k)), w.tick, w.trace⟩
    (b := bb) (d := xb) (q := pB) (i := k)
    (by simp [Mem.get_put, bA, hB, Ne.symm hAb]) hBl hBf (by omega)
    (by simp [Mem.get_put, bA, hxb, Ne.symm hAB]) (by omega)
  rw [← hxbl, List.drop_length, List.append_nil, hxbl] at h2
  have h3 := callArith_ok env (c := f) (p := pR) (u := pA) (v := pB)
    (l := elem ba a.sz_ElementSize k) (r := elem bb b.sz_ElementSize k) (x := xr)
    ⟨(w.mem.put pA (some (elem ba a.sz_ElementSize k))).put pB
      (some (elem bb b.sz_ElementSize k)), w.tick, w.trace⟩
    (by simp [Mem.get_put, bA, bB, hAB])
    (by simp [Mem.get_put, bA, bB])
    (by simp [Mem.get_put, bA, bB, hxr, Ne.symm hAR, Ne.symm hBR])
    (by omega)
  rw [hop, ← hxrl, List.drop_length, List.append_nil] at h3
  have hge : k ≥ r.sz_ElementCount := hkr
  simp only [elementwiseStep, h1, bind_ok, h2, hsel, h3, vctwrite, if_pos hge]
  rfl

theorem Mem.get_append_left (m l : Mem) {p : Nat} (h : p ≤ m.length) :
    Mem.get (m ++ l) p = m.get p := by
  cases p with
  | zero => rfl
  | succ q => simp [Mem.get, List.getElem?_append_left (show q < m.length by omega)]

theorem Mem.get_append_right (m l : Mem) (j : Nat) :
    Mem.get (m ++ l) (m.length + 1 + j) = Mem.get l (j + 1) := by
  have : m.length + 1 + j = (m.length + j) + 1 := by omega
  rw [this]
  simp [Mem.get, List.getElem?_append_right]

theorem vctcmp_zero_iff (a b : vector_t) (wd : World) :
    (vctcmp (some a) (some b) wd).1 = 0 ↔
      (a.s32_Type = b.s32_Type ∧ a.sz_ElementCount = b.sz_ElementCount ∧
       a.pfn_ElementAdd = b.pfn_ElementAdd ∧ a.pfn_ElementSubtract = b.pfn_ElementSubtract ∧
       a.pfn_ElementMultiply = b.pfn_ElementMultiply ∧
       a.pfn_ElementDivide = b.pfn_ElementDivide) := by
  simp only [vctcmp]
  split
  · rename_i h
    simp only [one_ne_zero, false_iff]
    intro hc
    obtain ⟨h1, h2, h3, h4, h5, h6⟩ := hc
    rcases h with h | h | h | h | h | h <;> contradiction
  · rename_i h
    simp only [not_or, not_not] at h
    simp only [true_iff]
    exact h

/-- The element-wise engine on valid, compatible operands with well-formed buffers, a
result buffer apart from both operands, succeeding scratch allocations and a callback
that stores exactly one element, whatever the element count of the result: it returns
normally, element `i` of the result is the callback applied to elements `i` of the
operands for every `i` below both element counts, every element of the result from
`a`'s element count on is as before, and so is every other live block. -/
theorem elementwise_any (sel : vector_t → Option Nat) (env : Env) (a b r : vector_t)
    (wd : World) (ba bb br : Bytes) (f : Nat) (hsel : sel a = some f)
    (hva : vctmemchk a = 0) (hvb : vctmemchk b = 0) (hvr : vctmemchk r = 0)
    (hcmp : (vctcmp (some a) (some b) wd).1 = 0)
    (hA : HasBuffer env wd a ba) (hB : HasBuffer env wd b bb) (hR : HasBuffer env wd r br)
    (hra : r.p_StorageBuffer ≠ a.p_StorageBuffer) (hrb : r.p_StorageBuffer ≠ b.p_StorageBuffer)
    (hal1 : allocSucceeds env a.pfn_Allocate a.sz_ElementSize wd.tick = true)
    (hal2 : allocSucceeds env b.pfn_Allocate b.sz_ElementSize (wd.tick + 1) = true)
    (hal3 : allocSucceeds env r.pfn_Allocate r.sz_ElementSize (wd.tick + 2) = true)
    (hop : ∀ i, i < a.sz_ElementCount →
      (env.arith f (elem ba a.sz_ElementSize i) (elem bb b.sz_ElementSize i)).length
        = r.sz_ElementSize) :
    ∃ wd1 br1, ELEMENTWISE_OP_DEF sel env (some r) (some a) (some b) wd = .ok wd1 ∧
      wd1.mem.get r.p_StorageBuffer = some br1 ∧ br1.length = br.length ∧
      (∀ i, i < a.sz_ElementCount → i < r.sz_ElementCount → elem br1 r.sz_ElementSize i
        = env.arith f (elem ba a.sz_ElementSize i) (elem bb b.sz_ElementSize i)) ∧
      (∀ i, a.sz_ElementCount ≤ i → elem br1 r.sz_ElementSize i = elem br r.sz_ElementSize i) ∧
      (∀ p x, p ≠ r.p_StorageBuffer → wd.mem.get p = some x → wd1.mem.get p = some x) ∧
      wd1.tick = wd.tick + 3 ∧ wd1.mem.length = wd.mem.length + 3 := by
  obtain ⟨i1, i2, i3, t, hi1, hi2, hi3, hrun⟩ :=
    elementwise_run sel env a b r wd f hsel hva hvb hvr hcmp hal1 hal2 hal3
  obtain ⟨hAg, hAl, hAf⟩ := hA
  obtain ⟨hBg, hBl, hBf⟩ := hB
  obtain ⟨hRg, hRl, hRf⟩ := hR
  have hbc : b.sz_ElementCount = a.sz_ElementCount := by
    have := (vctcmp_zero_iff a b wd).mp hcmp
    exact this.2.1.symm
  obtain ⟨ga, hga⟩ := (vctmemchk_eq_zero hva).2.2.2.2.2.2
  obtain ⟨gb, hgb⟩ := (vctmemchk_eq_zero hvb).2.2.2.2.2.2
  obtain ⟨gr, hgr⟩ := (vctmemchk_eq_zero hvr).2.2.2.2.2.2
  have bndA := Mem.get_bounds hAg
  have bndB := Mem.get_bounds hBg
  have bndR := Mem.get_bounds hRg
  -- the memory after the three allocations
  have hold : ∀ p x, wd.mem.get p = some x →
      Mem.get (wd.mem ++ [some i1] ++ [some i2] ++ [some i3]) p = some x := by
    intro p x hp
    have := Mem.get_bounds hp
    rw [List.append_assoc, List.append_assoc, Mem.get_append_left _ _ this.2]
    exact hp
  have hp1 : Mem.get (wd.mem ++ [some i1] ++ [some i2] ++ [some i3]) (wd.mem.length + 1)
      = some i1 := by
    rw [List.append_assoc, List.append_assoc]
    exact Mem.get_append_right wd.mem _ 0
  have hp2 : Mem.get (wd.mem ++ [some i1] ++ [some i2] ++ [some i3]) (wd.mem.length + 2)
      = some i2 := by
    rw [List.append_assoc, List.append_assoc]
    exact Mem.get_append_right wd.mem _ 1
  have hp3 : Mem.get (wd.mem ++ [some i1] ++ [some i2] ++ [some i3]) (wd.mem.length + 3)
      = some i3 := by
    rw [List.append_assoc, List.append_assoc]
    exact Mem.get_append_right wd.mem _ 2
  -- the loop
  obtain ⟨wl, hloop, htick, hlen, hframe, ⟨brl, hbrl, hbrlen, hres, hrest⟩, ⟨xa, hxa, -⟩,
      ⟨xb, hxb, -⟩, ⟨xr, hxr, -⟩⟩ :=
    foldlM_range_inv
      (elementwiseStep sel env r a b (wd.mem.length + 1) (wd.mem.length + 2)
        (wd.mem.length + 3))
      (fun k w => w.tick = wd.tick + 3 ∧ w.mem.length = wd.mem.length + 3 ∧
        (∀ p x, p ≠ r.p_StorageBuffer → wd.mem.get p = some x → w.mem.get p = some x) ∧
        (∃ brk, w.mem.get r.p_StorageBuffer = some brk ∧ brk.length = br.length ∧
          (∀ i, i < k → i < r.sz_ElementCount → elem brk r.sz_ElementSize i
            = env.arith f (elem ba a.sz_ElementSize i) (elem bb b.sz_ElementSize i)) ∧
          (∀ i, k ≤ i → elem brk r.sz_ElementSize i = elem br r.sz_ElementSize i)) ∧
        (∃ xa, w.mem.get (wd.mem.length + 1) = some xa ∧ xa.length = a.sz_ElementSize) ∧
        (∃ xb, w.mem.get (wd.mem.length + 2) = some xb ∧ xb.length = b.sz_ElementSize) ∧
        (∃ xr, w.mem.get (wd.mem.length + 3) = some xr ∧ xr.length = r.sz_ElementSize))
      a.sz_ElementCount
      ⟨wd.mem ++ [some i1] ++ [some i2] ++ [some i3], wd.tick + 3, t⟩
      ⟨rfl, by simp, fun p x _ hp => hold p x hp,
        ⟨br, hold _ _ hRg, rfl, fun i hi => by omega, fun _ _ => rfl⟩,
        ⟨i1, hp1, hi1⟩, ⟨i2, hp2, hi2⟩, ⟨i3, hp3, hi3⟩⟩
      (by
        intro k w hk ⟨htick, hlen, hframe, ⟨brk, hbrk, hbrklen, hres, hrest⟩, ⟨xa, hxa, hxal⟩,
          ⟨xb, hxb, hxbl⟩, ⟨xr, hxr, hxrl⟩⟩
        by_cases hkr : k < r.sz_ElementCount
        · have hstep := elementwiseStep_ok sel env a b r f hsel (wd.mem.length + 1)
            (wd.mem.length + 2) (wd.mem.length + 3) w k ba bb brk xa xb xr hk hbc hkr
            (hframe _ _ (Ne.symm hra) hAg) (by omega) hAf
            (hframe _ _ (Ne.symm hrb) hBg) (by omega) hBf
            hbrk (by omega) (by omega) hxa hxal hxb hxbl hxr hxrl
            (by omega) (by omega) (by omega) (by omega) (by omega) (by omega) (by omega)
            (hop k hk)
          have hoff := idx_offset_lt hkr
            (show r.sz_ElementCount * r.sz_ElementSize ≤ brk.length by omega)
          refine ⟨_, hstep, htick, by simp [hlen], ?_, ?_, ?_, ?_, ?_⟩
          · intro p x hpr hp
            have := Mem.get_bounds hp
            have h0 := hframe p x hpr hp
            simp only [Mem.get_put, Mem.length_put, hlen]
            rw [Mem.get_put _ _ _ (by simp [hlen]; omega), if_neg hpr,
              Mem.get_put _ _ _ (by simp [hlen]), if_neg (by omega),
              Mem.get_put _ _ _ (by simp [hlen]), if_neg (by omega),
              Mem.get_put _ _ _ (by omega), if_neg (by omega)]
            exact h0
          · refine ⟨brk.take (k * r.sz_ElementSize) ++
                env.arith f (elem ba a.sz_ElementSize k) (elem bb b.sz_ElementSize k) ++
                brk.drop (k * r.sz_ElementSize + r.sz_ElementSize), ?_, ?_, ?_, ?_⟩
            · rw [Mem.get_put _ _ _ (by simp [hlen]; omega), if_pos rfl]
            · simp only [List.length_append, List.length_take, List.length_drop, hop k hk]
              omega
            · intro i hi hir
              by_cases hik : i = k
              · subst hik
                exact elem_write_same (hop i hk) hoff
              · rw [elem_write_other (hop k hk) hoff hik]
                exact hres i (by omega) hir
            · intro i hi
              rw [elem_write_other (hop k hk) hoff (by omega)]
              exact hrest i (by omega)
          · refine ⟨elem ba a.sz_ElementSize k, ?_, length_elem (idx_offset_lt hk (by omega))⟩
            rw [Mem.get_put _ _ _ (by simp [hlen]; omega), if_neg (by omega),
              Mem.get_put _ _ _ (by simp [hlen]), if_neg (by omega),
              Mem.get_put _ _ _ (by simp [hlen]), if_neg (by omega),
              Mem.get_put _ _ _ (by omega), if_pos rfl]
          · refine ⟨elem bb b.sz_ElementSize k, ?_,
              length_elem (idx_offset_lt (hbc ▸ hk : k < b.sz_ElementCount) (by omega))⟩
            rw [Mem.get_put _ _ _ (by simp [hlen]; omega), if_neg (by omega),
              Mem.get_put _ _ _ (by simp [hlen]), if_neg (by omega),
              Mem.get_put _ _ _ (by simp [hlen]), if_pos rfl]
          · refine ⟨_, ?_, hop k hk⟩
            rw [Mem.get_put _ _ _ (by simp [hlen]; omega), if_neg (by omega),
              Mem.get_put _ _ _ (by simp [hlen]), if_pos rfl]
        · have hstep := elementwiseStep_skip sel env a b r f hsel (wd.mem.length + 1)
            (wd.mem.length + 2) (wd.mem.length + 3) w k ba bb xa xb xr hk hbc (by omega)
            (hframe _ _ (Ne.symm hra) hAg) (by omega) hAf
            (hframe _ _ (Ne.symm hrb) hBg) (by omega) hBf
            hxa hxal hxb hxbl hxr hxrl
            (by omega) (by omega) (by omega) (by omega)
            (hop k hk)
          refine ⟨_, hstep, htick, by simp [hlen], ?_, ?_, ?_, ?_, ?_⟩
          · intro p x hpr hp
            have := Mem.get_bounds hp
            rw [Mem.get_put _ _ _ (by simp [hlen]), if_neg (by omega),
              Mem.get_put _ _ _ (by simp [hlen]), if_neg (by omega),
              Mem.get_put _ _ _ (by omega), if_neg (by omega)]
            exact hframe p x hpr hp
          · refine ⟨brk, ?_, hbrklen, fun i hi hir => hres i (by omega) hir,
              fun i hi => hrest i (by omega)⟩
            rw [Mem.get_put _ _ _ (by simp [hlen]), if_neg (by omega),
              Mem.get_put _ _ _ (by simp [hlen]), if_neg (by omega),
              Mem.get_put _ _ _ (by omega), if_neg (by omega)]
            exact hbrk
          · refine ⟨elem ba a.sz_ElementSize k, ?_, length_elem (idx_offset_lt hk (by omega))⟩
            rw [Mem.get_put _ _ _ (by simp [hlen]), if_neg (by omega),
              Mem.get_put _ _ _ (by simp [hlen]), if_neg (by omega),
              Mem.get_put _ _ _ (by omega), if_pos rfl]
          · refine ⟨elem bb b.sz_ElementSize k, ?_,
              length_elem (idx_offset_lt (hbc ▸ hk : k < b.sz_ElementCount) (by omega))⟩
            rw [Mem.get_put _ _ _ (by simp [hlen]), if_neg (by omega),
              Mem.get_put _ _ _ (by simp [hlen]), if_pos rfl]
          · refine ⟨_, ?_, hop k hk⟩
            rw [Mem.get_put _ _ _ (by simp [hlen]), if_pos rfl])
  -- the three releases
  have hf1 := callFree_ok (g := ga) wl hxa
  have hf2 := callFree_ok (g := gb) (p := wd.mem.length + 2) (b := xb)
    ⟨wl.mem.put (wd.mem.length + 1) none, wl.tick, .release ga (wd.mem.length + 1) :: wl.trace⟩
    (by rw [Mem.get_put _ _ _ (by omega), if_neg (by omega)]; exact hxb)
  have hf3 := callFree_ok (g := gr) (p := wd.mem.length + 3) (b := xr)
    ⟨(wl.mem.put (wd.mem.length + 1) none).put (wd.mem.length + 2) none, wl.tick,
      .release gb (wd.mem.length + 2) :: .release ga (wd.mem.length + 1) :: wl.trace⟩
    (by rw [Mem.get_put _ _ _ (by simp; omega), if_neg (by omega),
          Mem.get_put _ _ _ (by omega), if_neg (by omega)]; exact hxr)
  dsimp only at hf2 hf3
  refine ⟨⟨((wl.mem.put (wd.mem.length + 1) none).put (wd.mem.length + 2) none).put
      (wd.mem.length + 3) none, wl.tick,
      .release gr (wd.mem.length + 3) :: .release gb (wd.mem.length + 2) ::
        .release ga (wd.mem.length + 1) :: wl.trace⟩,
    brl, ?_, ?_, hbrlen, hres, hrest, ?_, htick, ?_⟩
  · rw [hrun, hloop, hga, hgb, hgr]
    simp only [bind_ok, hf1, hf2, hf3]
  · rw [Mem.get_put _ _ _ (by simp; omega), if_neg (by omega),
      Mem.get_put _ _ _ (by simp; omega), if_neg (by omega),
      Mem.get_put _ _ _ (by omega), if_neg (by omega)]
    exact hbrl
  · intro p x hpr hp
    have := Mem.get_bounds hp
    rw [Mem.get_put _ _ _ (by simp; omega), if_neg (by omega),
      Mem.get_put _ _ _ (by simp; omega), if_neg (by omega),
      Mem.get_put _ _ _ (by omega), if_neg (by omega)]
    exact hframe p x hpr hp
  · simp [hlen]

/-- The element-wise engine on a result of the element count and size of `a`: element
`i` of the result is the callback applied to elements `i` of the operands, for every
`i` below the element count. -/
theorem elementwise_ok (sel : vector_t → Option Nat) (env : Env) (a b r : vector_t)
    (wd : World) (ba bb br : Bytes) (f : Nat) (hsel : sel a = some f)
    (hva : vctmemchk a = 0) (hvb : vctmemchk b = 0) (hvr : vctmemchk r = 0)
    (hcmp : (vctcmp (some a) (some b) wd).1 = 0)
    (hrc : r.sz_ElementCount = a.sz_ElementCount) (_hrs : r.sz_ElementSize = a.sz_ElementSize)
    (hA : HasBuffer env wd a ba) (hB : HasBuffer env wd b bb) (hR : HasBuffer env wd r br)
    (hra : r.p_StorageBuffer ≠ a.p_StorageBuffer) (hrb : r.p_StorageBuffer ≠ b.p_StorageBuffer)
    (hal1 : allocSucceeds env a.pfn_Allocate a.sz_ElementSize wd.tick = true)
    (hal2 : allocSucceeds env b.pfn_Allocate b.sz_ElementSize (wd.tick + 1) = true)
    (hal3 : allocSucceeds env r.pfn_Allocate r.sz_ElementSize (wd.tick + 2) = true)
    (hop : ∀ i, i < a.sz_ElementCount →
      (env.arith f (elem ba a.sz_ElementSize i) (elem bb b.sz_ElementSize i)).length
        = r.sz_ElementSize) :
    ∃ wd1 br1, ELEMENTWISE_OP_DEF sel env (some r) (some a) (some b) wd = .ok wd1 ∧
      wd1.mem.get r.p_StorageBuffer = some br1 ∧ br1.length = br.length ∧
      (∀ i, i < a.sz_ElementCount → elem br1 r.sz_ElementSize i
        = env.arith f (elem ba a.sz_ElementSize i) (elem bb b.sz_ElementSize i)) ∧
      (∀ p x, p ≠ r.p_StorageBuffer → wd.mem.get p = some x → wd1.mem.get p = some x) ∧
      wd1.tick = wd.tick + 3 ∧ wd1.mem.length = wd.mem.length + 3 := by
  obtain ⟨wd1, br1, h1, h2, h3, h4, -, h6, h7, h8⟩ :=
    elementwise_any sel env a b r wd ba bb br f hsel hva hvb hvr hcmp hA hB hR hra hrb
      hal1 hal2 hal3 hop
  exact ⟨wd1, br1, h1, h2, h3, fun i hi => h4 i hi (by omega), h6, h7, h8⟩

/-- C3. Element-wise result: for valid vectors `a`, `b` with `vctcmp = 0`, a valid result
vector of the same element count and size whose buffer is apart from both operands,
buffers that hold `element_count` elements, and the three scratch allocations
succeeding, each of `vctadd`, `vctsub`, `vctelemul`, `vctelediv` whose binding is
present on `a` (and stores exactly one element) returns normally with
`result[i] = op(a[i], b[i])` for every `i < element_count`, where `op` is that binding
of `a`, and leaves the buffers of `a` and `b` unchanged. -/
theorem C3_elementwise_result (env : Env) (a b r : vector_t) (wd : World) (ba bb br : Bytes)
    (hva : vctmemchk a = 0) (hvb : vctmemchk b = 0) (hvr : vctmemchk r = 0)
    (hcmp : (vctcmp (some a) (some b) wd).1 = 0)
    (hrc : r.sz_ElementCount = a.sz_ElementCount) (hrs : r.sz_ElementSize = a.sz_ElementSize)
    (hA : HasBuffer env wd a ba) (hB : HasBuffer env wd b bb) (hR : HasBuffer env wd r br)
    (hra : r.p_StorageBuffer ≠ a.p_StorageBuffer) (hrb : r.p_StorageBuffer ≠ b.p_StorageBuffer)
    (hal1 : allocSucceeds env a.pfn_Allocate a.sz_ElementSize wd.tick = true)
    (hal2 : allocSucceeds env b.pfn_Allocate b.sz_ElementSize (wd.tick + 1) = true)
    (hal3 : allocSucceeds env r.pfn_Allocate r.sz_ElementSize (wd.tick + 2) = true) :
    (∀ f, a.pfn_ElementAdd = some f →
      (∀ i, i < a.sz_ElementCount →
        (env.arith f (elem ba a.sz_ElementSize i) (elem bb b.sz_ElementSize i)).length
          = r.sz_ElementSize) →
      ElementwisePost env f a b r ba bb (vctadd env (some r) (some a) (some b) wd)) ∧
    (∀ f, a.pfn_ElementSubtract = some f →
      (∀ i, i < a.sz_ElementCount →
        (env.arith f (elem ba a.sz_ElementSize i) (elem bb b.sz_ElementSize i)).length
          = r.sz_ElementSize) →
      ElementwisePost env f a b r ba bb (vctsub env (some r) (some a) (some b) wd)) ∧
    (∀ f, a.pfn_ElementMultiply = some f →
      (∀ i, i < a.sz_ElementCount →
        (env.arith f (elem ba a.sz_ElementSize i) (elem bb b.sz_ElementSize i)).length
          = r.sz_ElementSize) →
      ElementwisePost env f a b r ba bb (vctelemul env (some r) (some a) (some b) wd)) ∧
    (∀ f, a.pfn_ElementDivide = some f →
      (∀ i, i < a.sz_ElementCount →
        (env.arith f (elem ba a.sz_ElementSize i) (elem bb b.sz_ElementSize i)).length
          = r.sz_ElementSize) →
      ElementwisePost env f a b r ba bb (vctelediv env (some r) (some a) (some b) wd)) := by
  have key : ∀ (sel : vector_t → Option Nat) (f : Nat), sel a = some f →
      (∀ i, i < a.sz_ElementCount →
        (env.arith f (elem ba a.sz_ElementSize i) (elem bb b.sz_ElementSize i)).length
          = r.sz_ElementSize) →
      ElementwisePost env f a b r ba bb
        (ELEMENTWISE_OP_DEF sel env (some r) (some a) (some b) wd) := by
    intro sel f hsel hop
    obtain ⟨wd1, br1, hrun, hg, -, hres, hframe, -, -⟩ :=
      elementwise_ok sel env a b r wd ba bb br f hsel hva hvb hvr hcmp hrc hrs hA hB hR
        hra hrb hal1 hal2 hal3 hop
    exact ⟨wd1, br1, hrun, hg, hres, hframe _ _ (Ne.symm hra) hA.1,
      hframe _ _ (Ne.symm hrb) hB.1⟩
  exact ⟨key _, key _, key _, key _⟩

/-- C3 at a concrete input: `[1,2,3] + [4,5,6]` with the `uint32_t` callbacks. -/
theorem C3_elementwise_result_witness :
    ElementwisePost exEnv 1 exVecA exVecB exVecR (toLe32 1 ++ toLe32 2 ++ toLe32 3)
      (toLe32 4 ++ toLe32 5 ++ toLe32 6)
      (vctadd exEnv (some exVecR) (some exVecA) (some exVecB) exWorld) :=
  (C3_elementwise_result exEnv exVecA exVecB exVecR exWorld (toLe32 1 ++ toLe32 2 ++ toLe32 3)
    (toLe32 4 ++ toLe32 5 ++ toLe32 6) (List.replicate 12 255)
    (by decide) (by decide) (by decide) (by decide) (by decide) (by decide)
    (by decide) (by decide) (by decide) (by decide) (by decide)
    (by decide) (by decide) (by decide)).1 1 (by decide) (by decide)

/-! ## The dot product -/

theorem memset0_ok {m : Mem} {p : Nat} {x : Bytes} (h : m.get p = some x) (n : Nat)
    (hn : n ≤ x.length) :
    memset0 m p n = .ok (m.put p (some (List.replicate n 0 ++ x.drop n))) := by
  have := store_ok h 0 (List.replicate n 0) (by simp; omega)
  simpa [memset0] using this

theorem dotSpec_succ (env : Env) (fadd fmul : Nat) (ba bb : Bytes) (sa sb size n : Nat) :
    dotSpec env fadd fmul ba bb sa sb size (n + 1) =
      env.arith fadd (env.arith fmul (elem ba sa n) (elem bb sb n))
        (dotSpec env fadd fmul ba bb sa sb size n) := by
  simp [dotSpec, List.range_succ, List.foldl_append]

theorem length_dotSpec (env : Env) (fadd fmul : Nat) (ba bb : Bytes) (sa sb size n : Nat)
    (hmul : ∀ i, i < n → (env.arith fmul (elem ba sa i) (elem bb sb i)).length = size)
    (hadd : ∀ x y : Bytes, x.length = size → y.length = size →
      (env.arith fadd x y).length = size) :
    (dotSpec env fadd fmul ba bb sa sb size n).length = size := by
  induction n with
  | zero => simp [dotSpec]
  | succ k ih =>
    rw [dotSpec_succ]
    exact hadd _ _ (hmul k (by omega)) (ih (fun i hi => hmul i (by omega)))

/-- Past its guards and allocations, `vctdot` is the `memset` of the product, its loop
and the three releases. -/
theorem dot_run (env : Env) (a b : vector_t) (q : Nat) (wd : World) (fadd fmul : Nat)
    (hq : q ≠ 0) (hfadd : a.pfn_ElementAdd = some fadd)
    (hfmul : a.pfn_ElementMultiply = some fmul)
    (hva : vctmemchk a = 0) (hvb : vctmemchk b = 0)
    (hcmp : (vctcmp (some a) (some b) wd).1 = 0)
    (hal1 : allocSucceeds env a.pfn_Allocate a.sz_ElementSize wd.tick = true)
    (hal2 : allocSucceeds env b.pfn_Allocate b.sz_ElementSize (wd.tick + 1) = true)
    (hal3 : allocSucceeds env a.pfn_Allocate a.sz_ElementSize (wd.tick + 2) = true) :
    ∃ i1 i2 i3 t, i1.length = a.sz_ElementSize ∧ i2.length = b.sz_ElementSize ∧
      i3.length = a.sz_ElementSize ∧
      vctdot env q (some a) (some b) wd =
        (memset0 (wd.mem ++ [some i1] ++ [some i2] ++ [some i3]) q a.sz_ElementSize >>= fun m =>
          (List.range a.sz_ElementCount).foldlM
            (dotStep env a b q (wd.mem.length + 1) (wd.mem.length + 2) (wd.mem.length + 3))
            ⟨m, wd.tick + 3, t⟩ >>= fun w =>
          callFree a.pfn_Free (wd.mem.length + 3) w >>= fun w =>
          callFree b.pfn_Free (wd.mem.length + 2) w >>= fun w =>
          callFree a.pfn_Free (wd.mem.length + 1) w) := by
  obtain ⟨g1, i1, hg1, hi1, h1⟩ := callAlloc_ok env wd hal1
  obtain ⟨g2, i2, hg2, hi2, h2⟩ := callAlloc_ok env
    ⟨wd.mem ++ [some i1], wd.tick + 1, .alloc g1 a.sz_ElementSize (wd.mem.length + 1) :: wd.trace⟩
    hal2
  obtain ⟨g3, i3, hg3, hi3, h3⟩ := callAlloc_ok env
    ⟨wd.mem ++ [some i1] ++ [some i2], wd.tick + 1 + 1,
      .alloc g2 b.sz_ElementSize ((wd.mem ++ [some i1]).length + 1) ::
        .alloc g1 a.sz_ElementSize (wd.mem.length + 1) :: wd.trace⟩
    hal3
  refine ⟨i1, i2, i3,
    .alloc g3 a.sz_ElementSize (wd.mem.length + 3) :: .alloc g2 b.sz_ElementSize (wd.mem.length + 2)
      :: .alloc g1 a.sz_ElementSize (wd.mem.length + 1) :: wd.trace,
    hi1, hi2, hi3, ?_⟩
  have hguard : ¬ ((vctcmp (some a) (some b) wd).1 ≠ 0 ∨ a.pfn_ElementAdd = none ∨
      a.pfn_ElementMultiply = none ∨ vctmemchk a ≠ 0 ∨ vctmemchk b ≠ 0) := by
    simp [hcmp, hfadd, hfmul, hva, hvb]
  simp only [List.length_append, List.length_singleton] at h2 h3
  simp only [vctdot, if_neg hq, if_neg hguard, vctcmp_snd, h1, h2, h3, bind_ok,
    check_succ, if_false]

/-- One pass of the dot-product loop, on distinct live blocks. -/
theorem dotStep_ok (env : Env) (a b : vector_t) (fadd fmul : Nat)
    (hfadd : a.pfn_ElementAdd = some fadd) (hfmul : a.pfn_ElementMultiply = some fmul)
    (q pA pB pP : Nat) (w : World) (k : Nat) (ba bb acc xa xb xp : Bytes)
    (hk : k < a.sz_ElementCount) (hbc : b.sz_ElementCount = a.sz_ElementCount)
    (hA : w.mem.get a.p_StorageBuffer = some ba)
    (hAl : a.sz_ElementCount * a.sz_ElementSize ≤ ba.length) (hAf : ba.length < 2 ^ env.w)
    (hB : w.mem.get b.p_StorageBuffer = some bb)
    (hBl : b.sz_ElementCount * b.sz_ElementSize ≤ bb.length) (hBf : bb.length < 2 ^ env.w)
    (hQ : w.mem.get q = some acc) (hQl : acc.length = a.sz_ElementSize)
    (hxa : w.mem.get pA = some xa) (hxal : xa.length = a.sz_ElementSize)
    (hxb : w.mem.get pB = some xb) (hxbl : xb.length = b.sz_ElementSize)
    (hxp : w.mem.get pP = some xp) (hxpl : xp.length = a.sz_ElementSize)
    (hAB : pA ≠ pB) (hAP : pA ≠ pP) (hBP : pB ≠ pP)
    (hAb : pA ≠ b.p_StorageBuffer)
    (hAq : pA ≠ q) (hBq : pB ≠ q) (hPq : pP ≠ q)
    (hmul : (env.arith fmul (elem ba a.sz_ElementSize k) (elem bb b.sz_ElementSize k)).length
      = a.sz_ElementSize)
    (hadd : (env.arith fadd
      (env.arith fmul (elem ba a.sz_ElementSize k) (elem bb b.sz_ElementSize k)) acc).length
      = a.sz_ElementSize) :
    dotStep env a b q pA pB pP w k =
      .ok ⟨((((w.mem.put pA (some (elem ba a.sz_ElementSize k))).put pB
              (some (elem bb b.sz_ElementSize k))).put pP
              (some (List.replicate a.sz_ElementSize 0))).put pP
              (some (env.arith fmul (elem ba a.sz_ElementSize k) (elem bb b.sz_ElementSize k)))).put
            q (some (env.arith fadd
              (env.arith fmul (elem ba a.sz_ElementSize k) (elem bb b.sz_ElementSize k)) acc)),
        w.tick,
        .arith fadd (env.arith fmul (elem ba a.sz_ElementSize k) (elem bb b.sz_ElementSize k)) acc
          :: .arith fmul (elem ba a.sz_ElementSize k) (elem bb b.sz_ElementSize k)
          :: w.trace⟩ := by
  have bA := Mem.get_bounds hxa
  have bB := Mem.get_bounds hxb
  have bP := Mem.get_bounds hxp
  have bQ := Mem.get_bounds hQ
  have h1 := vctread_ok env a w hA hAl hAf hk hxa (by omega)
  rw [← hxal, List.drop_length, List.append_nil, hxal] at h1
  have h2 := vctread_ok env b ⟨w.mem.put pA (some (elem ba a.sz_ElementSize k)), w.tick, w.trace⟩
    (b := bb) (d := xb) (q := pB) (i := k)
    (by simp [Mem.get_put, bA, hB, Ne.symm hAb]) hBl hBf (by omega)
    (by simp [Mem.get_put, bA, hxb, Ne.symm hAB]) (by omega)
  rw [← hxbl, List.drop_length, List.append_nil, hxbl] at h2
  have h3 := memset0_ok (m := (w.mem.put pA (some (elem ba a.sz_ElementSize k))).put pB
      (some (elem bb b.sz_ElementSize k))) (p := pP) (x := xp)
    (by simp [Mem.get_put, bA, bB, hxp, Ne.symm hAP, Ne.symm hBP]) a.sz_ElementSize (by omega)
  rw [← hxpl, List.drop_length, List.append_nil, hxpl] at h3
  have h4 := callArith_ok env (c := fmul) (p := pP) (u := pA) (v := pB)
    (l := elem ba a.sz_ElementSize k) (r := elem bb b.sz_ElementSize k)
    (x := List.replicate a.sz_ElementSize 0)
    ⟨((w.mem.put pA (some (elem ba a.sz_ElementSize k))).put pB
      (some (elem bb b.sz_ElementSize k))).put pP (some (List.replicate a.sz_ElementSize 0)),
      w.tick, w.trace⟩
    (by simp [Mem.get_put, bA, bB, bP, hAB, hAP])
    (by simp [Mem.get_put, bA, bB, bP, hBP])
    (by simp [Mem.get_put, bA, bB, bP])
    (by simp [hmul])
  rw [List.drop_of_length_le (by simp [hmul]), List.append_nil] at h4
  have h5 := callArith_ok env (c := fadd) (p := q) (u := pP) (v := q)
    (l := env.arith fmul (elem ba a.sz_ElementSize k) (elem bb b.sz_ElementSize k))
    (r := acc) (x := acc)
    ⟨(((w.mem.put pA (some (elem ba a.sz_ElementSize k))).put pB
      (some (elem bb b.sz_ElementSize k))).put pP (some (List.replicate a.sz_ElementSize 0))).put
      pP (some (env.arith fmul (elem ba a.sz_ElementSize k) (elem bb b.sz_ElementSize k))),
      w.tick, .arith fmul (elem ba a.sz_ElementSize k) (elem bb b.sz_ElementSize k) :: w.trace⟩
    (by simp [Mem.get_put, bA, bB, bP])
    (by simp [Mem.get_put, bA, bB, bP, hQ, Ne.symm hAq, Ne.symm hBq, Ne.symm hPq])
    (by simp [Mem.get_put, bA, bB, bP, hQ, Ne.symm hAq, Ne.symm hBq, Ne.symm hPq])
    (by omega)
  rw [List.drop_of_length_le (by omega), List.append_nil] at h5
  simp only [dotStep, h1, bind_ok, h2, h3, hfmul, hfadd, h4, h5]

/-- The dot product on valid, compatible operands with well-formed buffers, a product
cell of one element apart from both operands, succeeding scratch allocations and
callbacks that store exactly one element: it returns normally with the product cell
holding `dotSpec`, every other live block as before. -/
theorem dot_ok (env : Env) (a b : vector_t) (q : Nat) (wd : World) (ba bb x0 : Bytes)
    (fadd fmul : Nat) (hfadd : a.pfn_ElementAdd = some fadd)
    (hfmul : a.pfn_ElementMultiply = some fmul)
    (hva : vctmemchk a = 0) (hvb : vctmemchk b = 0)
    (hcmp : (vctcmp (some a) (some b) wd).1 = 0)
    (hA : HasBuffer env wd a ba) (hB : HasBuffer env wd b bb)
    (hQ : wd.mem.get q = some x0) (hQl : x0.length = a.sz_ElementSize)
    (hqa : q ≠ a.p_StorageBuffer) (hqb : q ≠ b.p_StorageBuffer)
    (hal1 : allocSucceeds env a.pfn_Allocate a.sz_ElementSize wd.tick = true)
    (hal2 : allocSucceeds env b.pfn_Allocate b.sz_ElementSize (wd.tick + 1) = true)
    (hal3 : allocSucceeds env a.pfn_Allocate a.sz_ElementSize (wd.tick + 2) = true)
    (hmul : ∀ i, i < a.sz_ElementCount →
      (env.arith fmul (elem ba a.sz_ElementSize i) (elem bb b.sz_ElementSize i)).length
        = a.sz_ElementSize)
    (hadd : ∀ x y : Bytes, x.length = a.sz_ElementSize → y.length = a.sz_ElementSize →
      (env.arith fadd x y).length = a.sz_ElementSize) :
    ∃ wd1, vctdot env q (some a) (some b) wd = .ok wd1 ∧
      wd1.mem.get q = some (dotSpec env fadd fmul ba bb a.sz_ElementSize b.sz_ElementSize
        a.sz_ElementSize a.sz_ElementCount) ∧
      (∀ p x, p ≠ q → wd.mem.get p = some x → wd1.mem.get p = some x) ∧
      wd1.tick = wd.tick + 3 ∧ wd1.mem.length = wd.mem.length + 3 := by
  have bQ := Mem.get_bounds hQ
  obtain ⟨i1, i2, i3, t, hi1, hi2, hi3, hrun⟩ :=
    dot_run env a b q wd fadd fmul (by omega) hfadd hfmul hva hvb hcmp hal1 hal2 hal3
  obtain ⟨hAg, hAl, hAf⟩ := hA
  obtain ⟨hBg, hBl, hBf⟩ := hB
  have hbc : b.sz_ElementCount = a.sz_ElementCount :=
    ((vctcmp_zero_iff a b wd).mp hcmp).2.1.symm
  obtain ⟨ga, hga⟩ := (vctmemchk_eq_zero hva).2.2.2.2.2.2
  obtain ⟨gb, hgb⟩ := (vctmemchk_eq_zero hvb).2.2.2.2.2.2
  have bndA := Mem.get_bounds hAg
  have bndB := Mem.get_bounds hBg
  have hold : ∀ p x, wd.mem.get p = some x →
      Mem.get (wd.mem ++ [some i1] ++ [some i2] ++ [some i3]) p = some x := by
    intro p x hp
    have := Mem.get_bounds hp
    rw [List.append_assoc, List.append_assoc, Mem.get_append_left _ _ this.2]
    exact hp
  have hp1 : Mem.get (wd.mem ++ [some i1] ++ [some i2] ++ [some i3]) (wd.mem.length + 1)
      = some i1 := by
    rw [List.append_assoc, List.append_assoc]
    exact Mem.get_append_right wd.mem _ 0
  have hp2 : Mem.get (wd.mem ++ [some i1] ++ [some i2] ++ [some i3]) (wd.mem.length + 2)
      = some i2 := by
    rw [List.append_assoc, List.append_assoc]
    exact Mem.get_append_right wd.mem _ 1
  have hp3 : Mem.get (wd.mem ++ [some i1] ++ [some i2] ++ [some i3]) (wd.mem.length + 3)
      = some i3 := by
    rw [List.append_assoc, List.append_assoc]
    exact Mem.get_append_right wd.mem _ 2
  have hlen3 : (wd.mem ++ [some i1] ++ [some i2] ++ [some i3]).length = wd.mem.length + 3 := by
    simp
  have hms := memset0_ok (hold _ _ hQ) a.sz_ElementSize (by omega)
  rw [← hQl, List.drop_length, List.append_nil, hQl] at hms
  -- the loop
  obtain ⟨wl, hloop, htick, hlen, hframe, hacc, ⟨xa, hxa, -⟩, ⟨xb, hxb, -⟩, ⟨xp, hxp, -⟩⟩ :=
    foldlM_range_inv
      (dotStep env a b q (wd.mem.length + 1) (wd.mem.length + 2) (wd.mem.length + 3))
      (fun k w => w.tick = wd.tick + 3 ∧ w.mem.length = wd.mem.length + 3 ∧
        (∀ p x, p ≠ q → wd.mem.get p = some x → w.mem.get p = some x) ∧
        w.mem.get q = some (dotSpec env fadd fmul ba bb a.sz_ElementSize b.sz_ElementSize
          a.sz_ElementSize k) ∧
        (∃ xa, w.mem.get (wd.mem.length + 1) = some xa ∧ xa.length = a.sz_ElementSize) ∧
        (∃ xb, w.mem.get (wd.mem.length + 2) = some xb ∧ xb.length = b.sz_ElementSize) ∧
        (∃ xp, w.mem.get (wd.mem.length + 3) = some xp ∧ xp.length = a.sz_ElementSize))
      a.sz_ElementCount
      ⟨(wd.mem ++ [some i1] ++ [some i2] ++ [some i3]).put q
        (some (List.replicate a.sz_ElementSize 0)), wd.tick + 3, t⟩
      ⟨rfl, by simp,
        fun p x hpq hp => by
          rw [Mem.get_put _ _ _ (by omega), if_neg hpq]; exact hold p x hp,
        by rw [Mem.get_put _ _ _ (by omega), if_pos rfl]; rfl,
        ⟨i1, by rw [Mem.get_put _ _ _ (by omega), if_neg (by omega)]; exact hp1, hi1⟩,
        ⟨i2, by rw [Mem.get_put _ _ _ (by omega), if_neg (by omega)]; exact hp2, hi2⟩,
        ⟨i3, by rw [Mem.get_put _ _ _ (by omega), if_neg (by omega)]; exact hp3, hi3⟩⟩
      (by
        intro k w hk ⟨htick, hlen, hframe, hacc, ⟨xa, hxa, hxal⟩, ⟨xb, hxb, hxbl⟩,
          ⟨xp, hxp, hxpl⟩⟩
        have haccl := length_dotSpec env fadd fmul ba bb a.sz_ElementSize b.sz_ElementSize
          a.sz_ElementSize k (fun i hi => hmul i (by omega)) hadd
        have hstep := dotStep_ok env a b fadd fmul hfadd hfmul q (wd.mem.length + 1)
          (wd.mem.length + 2) (wd.mem.length + 3) w k ba bb _ xa xb xp hk hbc
          (hframe _ _ (Ne.symm hqa) hAg) (by omega) hAf
          (hframe _ _ (Ne.symm hqb) hBg) (by omega) hBf
          hacc haccl hxa hxal hxb hxbl hxp hxpl
          (by omega) (by omega) (by omega) (by omega) (by omega) (by omega) (by omega)
          (hmul k hk) (hadd _ _ (hmul k hk) haccl)
        refine ⟨_, hstep, htick, by simp [hlen], ?_, ?_, ?_, ?_, ?_⟩
        · intro p x hpq hp
          have := Mem.get_bounds hp
          rw [Mem.get_put _ _ _ (by simp [hlen]; omega), if_neg hpq,
            Mem.get_put _ _ _ (by simp [hlen]), if_neg (by omega),
            Mem.get_put _ _ _ (by simp [hlen]), if_neg (by omega),
            Mem.get_put _ _ _ (by simp [hlen]), if_neg (by omega),
            Mem.get_put _ _ _ (by omega), if_neg (by omega)]
          exact hframe p x hpq hp
        · rw [Mem.get_put _ _ _ (by simp [hlen]; omega), if_pos rfl, dotSpec_succ]
        · refine ⟨elem ba a.sz_ElementSize k, ?_, length_elem (idx_offset_lt hk (by omega))⟩
          rw [Mem.get_put _ _ _ (by simp [hlen]; omega), if_neg (by omega),
            Mem.get_put _ _ _ (by simp [hlen]), if_neg (by omega),
            Mem.get_put _ _ _ (by simp [hlen]), if_neg (by omega),
            Mem.get_put _ _ _ (by simp [hlen]), if_neg (by omega),
            Mem.get_put _ _ _ (by omega), if_pos rfl]
        · refine ⟨elem bb b.sz_ElementSize k, ?_,
            length_elem (idx_offset_lt (hbc ▸ hk : k < b.sz_ElementCount) (by omega))⟩
          rw [Mem.get_put _ _ _ (by simp [hlen]; omega), if_neg (by omega),
            Mem.get_put _ _ _ (by simp [hlen]), if_neg (by omega),
            Mem.get_put _ _ _ (by simp [hlen]), if_neg (by omega),
            Mem.get_put _ _ _ (by simp [hlen]), if_pos rfl]
        · refine ⟨_, ?_, hmul k hk⟩
          rw [Mem.get_put _ _ _ (by simp [hlen]; omega), if_neg (by omega),
            Mem.get_put _ _ _ (by simp [hlen]), if_pos rfl])
  -- the three releases
  have hf1 := callFree_ok (g := ga) wl hxp
  have hf2 := callFree_ok (g := gb) (p := wd.mem.length + 2) (b := xb)
    ⟨wl.mem.put (wd.mem.length + 3) none, wl.tick, .release ga (wd.mem.length + 3) :: wl.trace⟩
    (by rw [Mem.get_put _ _ _ (by omega), if_neg (by omega)]; exact hxb)
  have hf3 := callFree_ok (g := ga) (p := wd.mem.length + 1) (b := xa)
    ⟨(wl.mem.put (wd.mem.length + 3) none).put (wd.mem.length + 2) none, wl.tick,
      .release gb (wd.mem.length + 2) :: .release ga (wd.mem.length + 3) :: wl.trace⟩
    (by rw [Mem.get_put _ _ _ (by simp; omega), if_neg (by omega),
          Mem.get_put _ _ _ (by omega), if_neg (by omega)]; exact hxa)
  dsimp only at hf2 hf3
  refine ⟨⟨((wl.mem.put (wd.mem.length + 3) none).put (wd.mem.length + 2) none).put
      (wd.mem.length + 1) none, wl.tick,
      .release ga (wd.mem.length + 1) :: .release gb (wd.mem.length + 2) ::
        .release ga (wd.mem.length + 3) :: wl.trace⟩, ?_, ?_, ?_, htick, ?_⟩
  · rw [hrun, hms]
    simp only [bind_ok, hloop, hga, hgb, hf1, hf2, hf3]
  · rw [Mem.get_put _ _ _ (by simp; omega), if_neg (by omega),
      Mem.get_put _ _ _ (by simp; omega), if_neg (by omega),
      Mem.get_put _ _ _ (by omega), if_neg (by omega)]
    exact hacc
  · intro p x hpq hp
    have := Mem.get_bounds hp
    rw [Mem.get_put _ _ _ (by simp; omega), if_neg (by omega),
      Mem.get_put _ _ _ (by simp; omega), if_neg (by omega),
      Mem.get_put _ _ _ (by omega), if_neg (by omega)]
    exact hframe p x hpq hp
  · simp [hlen]

/-- C4. Dot product: for valid vectors `a`, `b` with `vctcmp = 0`, add and multiply
bindings present on `a` (each storing exactly one element), buffers that hold
`element_count` elements, a product cell of one element apart from both buffers and the
three scratch allocations succeeding, `vctdot` returns normally and the product cell
holds the value obtained from `element_size` zero bytes by replacing, for `i` ascending
over `[0, element_count)`, the accumulator `acc` by `add(multiply(a[i], b[i]), acc)`;
the former contents `x0` of the cell do not occur in that value. -/
theorem C4_dot_product (env : Env) (a b : vector_t) (q : Nat) (wd : World) (ba bb x0 : Bytes)
    (fadd fmul : Nat) (hfadd : a.pfn_ElementAdd = some fadd)
    (hfmul : a.pfn_ElementMultiply = some fmul)
    (hva : vctmemchk a = 0) (hvb : vctmemchk b = 0)
    (hcmp : (vctcmp (some a) (some b) wd).1 = 0)
    (hA : HasBuffer env wd a ba) (hB : HasBuffer env wd b bb)
    (hQ : wd.mem.get q = some x0) (hQl : x0.length = a.sz_ElementSize)
    (hqa : q ≠ a.p_StorageBuffer) (hqb : q ≠ b.p_StorageBuffer)
    (hal1 : allocSucceeds env a.pfn_Allocate a.sz_ElementSize wd.tick = true)
    (hal2 : allocSucceeds env b.pfn_Allocate b.sz_ElementSize (wd.tick + 1) = true)
    (hal3 : allocSucceeds env a.pfn_Allocate a.sz_ElementSize (wd.tick + 2) = true)
    (hmul : ∀ i, i < a.sz_ElementCount →
      (env.arith fmul (elem ba a.sz_ElementSize i) (elem bb b.sz_ElementSize i)).length
        = a.sz_ElementSize)
    (hadd : ∀ x y : Bytes, x.length = a.sz_ElementSize → y.length = a.sz_ElementSize →
      (env.arith fadd x y).length = a.sz_ElementSize) :
    ∃ wd1, vctdot env q (some a) (some b) wd = .ok wd1 ∧
      wd1.mem.get q = some (dotSpec env fadd fmul ba bb a.sz_ElementSize b.sz_ElementSize
        a.sz_ElementSize a.sz_ElementCount) := by
  obtain ⟨wd1, h1, h2, -⟩ := dot_ok env a b q wd ba bb x0 fadd fmul hfadd hfmul hva hvb hcmp
    hA hB hQ hQl hqa hqb hal1 hal2 hal3 hmul hadd
  exact ⟨wd1, h1, h2⟩

/-- C4 at a concrete input: with the `uint32_t` callbacks, `[1,2,3]` dotted with
`[4,5,6]` into a cell that held 77 yields 32. -/
theorem C4_dot_product_witness :
    (∃ wd1, vctdot exEnv 4 (some exVecA) (some exVecB) exWorld = .ok wd1 ∧
      wd1.mem.get 4 = some (dotSpec exEnv 1 3 (toLe32 1 ++ toLe32 2 ++ toLe32 3)
        (toLe32 4 ++ toLe32 5 ++ toLe32 6) exVecA.sz_ElementSize exVecB.sz_ElementSize
        exVecA.sz_ElementSize exVecA.sz_ElementCount)) ∧
    dotSpec exEnv 1 3 (toLe32 1 ++ toLe32 2 ++ toLe32 3)
        (toLe32 4 ++ toLe32 5 ++ toLe32 6) exVecA.sz_ElementSize exVecB.sz_ElementSize
        exVecA.sz_ElementSize exVecA.sz_ElementCount = toLe32 32 :=
  ⟨C4_dot_product exEnv exVecA exVecB 4 exWorld (toLe32 1 ++ toLe32 2 ++ toLe32 3)
    (toLe32 4 ++ toLe32 5 ++ toLe32 6) (toLe32 77) 1 3 (by decide) (by decide) (by decide)
    (by decide) (by decide) (by decide) (by decide) (by decide) (by decide) (by decide)
    (by decide) (by decide) (by decide) (by decide) (by decide) (fun _ _ _ _ => rfl),
   by decide⟩

/-! ## Failed preconditions of the element-wise engine -/

theorem elementwise_null (sel : vector_t → Option Nat) (env : Env)
    (pr pa pb : Option vector_t) (wd : World) (h : pr = none ∨ pa = none ∨ pb = none) :
    ELEMENTWISE_OP_DEF sel env pr pa pb wd = .ok (printf wd .nullReference) := by
  unfold ELEMENTWISE_OP_DEF
  split
  · rename_i a b r
    simp at h
  · rfl

theorem elementwise_guard (sel : vector_t → Option Nat) (env : Env) (a b r : vector_t)
    (wd : World)
    (h : (vctcmp (some a) (some b) wd).1 ≠ 0 ∨ sel a = none ∨ vctmemchk a ≠ 0 ∨
      vctmemchk b ≠ 0 ∨ vctmemchk r ≠ 0) :
    ELEMENTWISE_OP_DEF sel env (some r) (some a) (some b) wd
      = .ok (printf wd .vectorsNotCompatible) := by
  simp only [ELEMENTWISE_OP_DEF, if_pos h, vctcmp_snd]

/-- C11. Element-wise precondition failure mutates nothing: if one of `result`, `a`, `b`
is null, `vctadd`, `vctsub`, `vctelemul` and `vctelediv` only print the null-reference
diagnostic; if `a` and `b` are not compatible, or one of `a`, `b`, `result` fails
`vctmemchk`, or the operation's own binding is null on `a`, they only print the
not-compatible diagnostic.  Printing leaves memory, hence the result buffer, as it was
and adds no callback invocation to the trace; the descriptor is not written at all. -/
theorem C11_elementwise_precondition_failure (env : Env) (pr pa pb : Option vector_t)
    (a b r : vector_t) (wd : World)
    (hnull : pr = none ∨ pa = none ∨ pb = none)
    (hbad : (vctcmp (some a) (some b) wd).1 ≠ 0 ∨ vctmemchk a ≠ 0 ∨ vctmemchk b ≠ 0 ∨
      vctmemchk r ≠ 0) :
    (vctadd env pr pa pb wd = .ok (printf wd .nullReference) ∧
     vctsub env pr pa pb wd = .ok (printf wd .nullReference) ∧
     vctelemul env pr pa pb wd = .ok (printf wd .nullReference) ∧
     vctelediv env pr pa pb wd = .ok (printf wd .nullReference)) ∧
    (vctadd env (some r) (some a) (some b) wd = .ok (printf wd .vectorsNotCompatible) ∧
     vctsub env (some r) (some a) (some b) wd = .ok (printf wd .vectorsNotCompatible) ∧
     vctelemul env (some r) (some a) (some b) wd = .ok (printf wd .vectorsNotCompatible) ∧
     vctelediv env (some r) (some a) (some b) wd = .ok (printf wd .vectorsNotCompatible)) ∧
    (∀ x y z : vector_t,
      (x.pfn_ElementAdd = none →
        vctadd env (some z) (some x) (some y) wd = .ok (printf wd .vectorsNotCompatible)) ∧
      (x.pfn_ElementSubtract = none →
        vctsub env (some z) (some x) (some y) wd = .ok (printf wd .vectorsNotCompatible)) ∧
      (x.pfn_ElementMultiply = none →
        vctelemul env (some z) (some x) (some y) wd = .ok (printf wd .vectorsNotCompatible)) ∧
      (x.pfn_ElementDivide = none →
        vctelediv env (some z) (some x) (some y) wd = .ok (printf wd .vectorsNotCompatible))) ∧
    (∀ d, (printf wd d).mem = wd.mem ∧ (printf wd d).tick = wd.tick ∧
      (printf wd d).trace = .print d :: wd.trace) := by
  have hg : ∀ sel : vector_t → Option Nat,
      (vctcmp (some a) (some b) wd).1 ≠ 0 ∨ sel a = none ∨ vctmemchk a ≠ 0 ∨
        vctmemchk b ≠ 0 ∨ vctmemchk r ≠ 0 := by
    intro sel
    rcases hbad with h | h | h | h
    · exact Or.inl h
    · exact Or.inr (Or.inr (Or.inl h))
    · exact Or.inr (Or.inr (Or.inr (Or.inl h)))
    · exact Or.inr (Or.inr (Or.inr (Or.inr h)))
  refine ⟨⟨elementwise_null _ env pr pa pb wd hnull, elementwise_null _ env pr pa pb wd hnull,
      elementwise_null _ env pr pa pb wd hnull, elementwise_null _ env pr pa pb wd hnull⟩,
    ⟨elementwise_guard _ env a b r wd (hg _), elementwise_guard _ env a b r wd (hg _),
      elementwise_guard _ env a b r wd (hg _), elementwise_guard _ env a b r wd (hg _)⟩,
    fun x y z => ⟨fun h => elementwise_guard _ env x y z wd (Or.inr (Or.inl h)),
      fun h => elementwise_guard _ env x y z wd (Or.inr (Or.inl h)),
      fun h => elementwise_guard _ env x y z wd (Or.inr (Or.inl h)),
      fun h => elementwise_guard _ env x y z wd (Or.inr (Or.inl h))⟩,
    fun d => ⟨rfl, rfl, rfl⟩⟩

/-- C11 at a concrete input: a null result, and operands whose add callbacks differ. -/
theorem C11_elementwise_precondition_failure_witness :
    vctadd exEnv none (some exVecA) (some exVecB) exWorld = .ok (printf exWorld .nullReference) ∧
    vctadd exEnv (some exVecR) (some exVecA) (some exVecOtherAdd) exWorld
      = .ok (printf exWorld .vectorsNotCompatible) :=
  have h := C11_elementwise_precondition_failure exEnv none (some exVecA) (some exVecB)
    exVecA exVecOtherAdd exVecR exWorld (by decide) (by decide)
  ⟨h.1.1, h.2.1.1⟩

/-! ## Squared magnitude, normalisation, destruction -/

/-- C16. Squared magnitude is the self dot product: `vctmagsq(m, v)` either is the very
outcome of `vctdot(m, v, v)`, or both calls return having only printed their
not-compatible diagnostic (the two texts differ), so memory, and with it `m`, is left
the same by both in every case, a null `m` included.  With the `uint32_t` callbacks the
squared magnitude of `[1,1,1]` is 3. -/
theorem C16_magsq_is_self_dot (env : Env) (p_Magnitude : Nat) (v : vector_t) (wd : World) :
    (vctmagsq env p_Magnitude (some v) wd = vctdot env p_Magnitude (some v) (some v) wd ∨
      (vctmagsq env p_Magnitude (some v) wd = .ok (printf wd .vectorNotCompatible) ∧
       vctdot env p_Magnitude (some v) (some v) wd = .ok (printf wd .vectorsNotCompatible))) ∧
    (vctmagsq exEnv 5 (some exVecA) exWorldNorm).map (fun w => w.mem.get 5)
      = .ok (some (toLe32 3)) := by
  refine ⟨?_, by decide⟩
  by_cases hp : p_Magnitude = 0
  · left
    simp [vctmagsq, vctdot, hp]
  · by_cases hg : v.pfn_ElementAdd = none ∨ v.pfn_ElementMultiply = none ∨ vctmemchk v ≠ 0
    · right
      have hg2 : (vctcmp (some v) (some v) wd).1 ≠ 0 ∨ v.pfn_ElementAdd = none ∨
          v.pfn_ElementMultiply = none ∨ vctmemchk v ≠ 0 ∨ vctmemchk v ≠ 0 := by
        rcases hg with h | h | h
        · exact Or.inr (Or.inl h)
        · exact Or.inr (Or.inr (Or.inl h))
        · exact Or.inr (Or.inr (Or.inr (Or.inl h)))
      constructor
      · simp only [vctmagsq, if_neg hp, if_pos hg]
      · simp only [vctdot, if_neg hp, if_pos hg2, vctcmp_snd]
    · left
      simp only [vctmagsq, if_neg hp, if_neg hg]

/-- C17. Zero magnitude is not reported: on the zero vector `[0,0,0]` with the
`uint32_t` callbacks, `vctnorm` does not print the divide-by-zero diagnostic and return;
it runs into the `memcmp` against the literal `NULL` and faults there.  The call
`vctdot` before it succeeds and yields the all-zero pattern. -/
theorem C17_norm_zero_faults :
    vctnorm exEnv (some exVecR4) (some exVecB) (some 1) exWorldNorm = .error .nullDeref ∧
    (vctdot exEnv 5 (some exVecB) (some exVecB) exWorldNorm).map (fun w => w.mem.get 5)
      = .ok (some (List.replicate 4 0)) ∧
    vctmemchk exVecB = 0 ∧ vctmemchk exVecR4 = 0 := by
  refine ⟨by decide, by decide, by decide, by decide⟩

/-- C18. No normalised result: on `[3,4,0]`, whose squared magnitude 25 is not the zero
pattern, `vctnorm` does not reach the square root or the inverse scaling; it faults in
the `memcmp` against the literal `NULL`, whereas `vctscaleinv` with the scalar 5 would
divide element-wise. -/
theorem C18_norm_faults_before_scaling :
    vctnorm exEnv (some exVecR4) (some exVecR) (some 1) exWorldNorm = .error .nullDeref ∧
    (vctdot exEnv 5 (some exVecR) (some exVecR) exWorldNorm).map (fun w => w.mem.get 5)
      = .ok (some (toLe32 25)) ∧
    exEnv.sqrt 1 (toLe32 25) = toLe32 5 := by
  refine ⟨by decide, by decide, by decide⟩

/-- C19. Destroy effect and frame: on a container with a non-null, live buffer and a
bound free callback `g`, `vctdstry` and `mtxdstry` add exactly one release of the buffer
through `g` to the trace, kill that block and return the descriptor with `buffer_size`
set to 0 and every other field (buffer pointer included) as it was; with a null buffer
they return descriptor and world untouched. -/
theorem C19_destroy_effect (v : vector_t) (m : matrix_t) (g h : FreeFn) (bv bm : Bytes)
    (wd : World)
    (hvf : v.pfn_Free = some g) (hvb : wd.mem.get v.p_StorageBuffer = some bv)
    (hmf : m.pfn_Free = some h) (hmb : wd.mem.get m.p_StorageBuffer = some bm) :
    vctdstry (some v) wd =
      .ok (some { v with sz_BufferSize := 0 },
        ⟨wd.mem.put v.p_StorageBuffer none, wd.tick,
          .release g v.p_StorageBuffer :: wd.trace⟩) ∧
    mtxdstry (some m) wd =
      .ok (some { m with sz_BufferSize := 0 },
        ⟨wd.mem.put m.p_StorageBuffer none, wd.tick,
          .release h m.p_StorageBuffer :: wd.trace⟩) ∧
    (∀ x : vector_t, x.p_StorageBuffer = 0 → vctdstry (some x) wd = .ok (some x, wd)) ∧
    (∀ x : matrix_t, x.p_StorageBuffer = 0 → mtxdstry (some x) wd = .ok (some x, wd)) := by
  have h1 := (Mem.get_some_pos hvb).1
  have h2 := (Mem.get_some_pos hmb).1
  refine ⟨?_, ?_, ?_, ?_⟩
  · simp [vctdstry, h1, hvf, callFree_ok wd hvb]
  · simp [mtxdstry, h2, hmf, callFree_ok wd hmb]
  · intro x hx
    simp [vctdstry, hx]
  · intro x hx
    simp [mtxdstry, hx]

/-- C19 at a concrete input: the vector `[1,2,3]` and the matrix on the same block. -/
theorem C19_destroy_effect_witness :
    vctdstry (some exVecA) exWorld =
      .ok (some { exVecA with sz_BufferSize := 0 },
        ⟨exWorld.mem.put exVecA.p_StorageBuffer none, exWorld.tick,
          .release .free exVecA.p_StorageBuffer :: exWorld.trace⟩) :=
  (C19_destroy_effect exVecA exMatrix .free .free (toLe32 1 ++ toLe32 2 ++ toLe32 3)
    (toLe32 1 ++ toLe32 2 ++ toLe32 3) exWorld (by decide) (by decide) (by decide)
    (by decide)).1

/-! ## Matrix addressing -/

theorem mtxreadraw_ok (env : Env) (m : matrix_t) (wd : World) {b d : Bytes} {q i : Nat}
    (hbuf : wd.mem.get m.p_StorageBuffer = some b)
    (hlen : m.sz_ElementCount * m.sz_ElementSize ≤ b.length)
    (hfit : b.length < 2 ^ env.w)
    (hi : i < m.sz_ElementCount)
    (hd : wd.mem.get q = some d) (hdl : m.sz_ElementSize ≤ d.length) :
    mtxreadraw env q (some m) i wd =
      .ok ⟨wd.mem.put q (some (elem b m.sz_ElementSize i ++ d.drop m.sz_ElementSize)),
        wd.tick, wd.trace⟩ := by
  have hoff := idx_offset_lt hi hlen
  have hmod : (i * m.sz_ElementSize) % 2 ^ env.w = i * m.sz_ElementSize :=
    Nat.mod_eq_of_lt (by omega)
  have hl : ((b.drop (i * m.sz_ElementSize)).take m.sz_ElementSize).length
      = m.sz_ElementSize := by
    simp; omega
  simp only [mtxreadraw, hi, if_true, memcpy, hmod, load_ok hbuf _ _ hoff]
  rw [store_ok hd 0 _ (by rw [hl]; omega)]
  simp [elem, hl]

/-- C21. Column-major matrix read: `mtxread(dest, m, row, col)` is
`mtxreadraw(dest, m, row + height*col)`, the index computed in `size_t`; and on a matrix
with `element_count = width * height` (a product that fits `size_t`) whose buffer holds
that many elements, every `row < height`, `col < width` gives a raw index below
`element_count` without wrapping, so the read copies element `row + height*col` into
the destination. -/
theorem C21_mtxread_column_major (env : Env) (m : matrix_t) (wd : World) (b d : Bytes)
    (p_Dest row col : Nat)
    (hcount : m.sz_ElementCount = m.sz_Width * m.sz_Height)
    (hfitc : m.sz_Width * m.sz_Height < 2 ^ env.w)
    (hbuf : wd.mem.get m.p_StorageBuffer = some b)
    (hlen : b.length = m.sz_ElementCount * m.sz_ElementSize)
    (hfit : b.length < 2 ^ env.w)
    (hd : wd.mem.get p_Dest = some d) (hdl : m.sz_ElementSize ≤ d.length)
    (hrow : row < m.sz_Height) (hcol : col < m.sz_Width) :
    (∀ r c, mtxread env p_Dest (some m) r c wd
      = mtxreadraw env p_Dest (some m) ((r + m.sz_Height * c) % 2 ^ env.w) wd) ∧
    row + m.sz_Height * col < m.sz_ElementCount ∧
    mtxread env p_Dest (some m) row col wd =
      .ok ⟨wd.mem.put p_Dest (some (elem b m.sz_ElementSize (row + m.sz_Height * col)
          ++ d.drop m.sz_ElementSize)), wd.tick, wd.trace⟩ := by
  have hraw : row + m.sz_Height * col < m.sz_Width * m.sz_Height := by
    have h1 : m.sz_Height * col + m.sz_Height ≤ m.sz_Height * m.sz_Width := by
      have := Nat.mul_le_mul_left m.sz_Height (show col + 1 ≤ m.sz_Width by omega)
      rw [Nat.mul_add, Nat.mul_one] at this
      exact this
    rw [Nat.mul_comm m.sz_Width m.sz_Height]
    omega
  have hdel : ∀ r c, mtxread env p_Dest (some m) r c wd
      = mtxreadraw env p_Dest (some m) ((r + m.sz_Height * c) % 2 ^ env.w) wd := by
    intro r c
    simp only [mtxread, Nat.add_mod_mod]
  refine ⟨hdel, by omega, ?_⟩
  rw [hdel, Nat.mod_eq_of_lt (by omega)]
  exact mtxreadraw_ok env m wd hbuf (by omega) hfit (by omega) hd hdl

/-- C21 at a concrete input: row 2, column 1 of the 3-row, 2-column matrix. -/
theorem C21_mtxread_column_major_witness :
    mtxread exEnv 2 (some exMatrix) 2 1 exWorldMatrix =
      .ok ⟨exWorldMatrix.mem.put 2 (some (elem
          (toLe32 10 ++ toLe32 11 ++ toLe32 12 ++ toLe32 13 ++ toLe32 14 ++ toLe32 15)
          exMatrix.sz_ElementSize (2 + exMatrix.sz_Height * 1)
          ++ (toLe32 77).drop exMatrix.sz_ElementSize)), exWorldMatrix.tick,
        exWorldMatrix.trace⟩ :=
  (C21_mtxread_column_major exEnv exMatrix exWorldMatrix
    (toLe32 10 ++ toLe32 11 ++ toLe32 12 ++ toLe32 13 ++ toLe32 14 ++ toLe32 15)
    (toLe32 77) 2 2 1 (by decide) (by decide) (by decide) (by decide) (by decide)
    (by decide) (by decide) (by decide) (by decide)).2.2

/-- C26. Known addressing gap: whenever the raw index `row + height*col`, computed in
`size_t`, is below `element_count`, `mtxread` copies that element whatever `row` and
`col` are; and there is a valid matrix with a pair `row >= height` whose raw index is
below `element_count`. -/
theorem C26_addressing_gap (env : Env) (m : matrix_t) (wd : World) (b d : Bytes)
    (p_Dest row col : Nat)
    (hbuf : wd.mem.get m.p_StorageBuffer = some b)
    (hlen : b.length = m.sz_ElementCount * m.sz_ElementSize)
    (hfit : b.length < 2 ^ env.w)
    (hd : wd.mem.get p_Dest = some d) (hdl : m.sz_ElementSize ≤ d.length)
    (hraw : (row + m.sz_Height * col) % 2 ^ env.w < m.sz_ElementCount) :
    mtxread env p_Dest (some m) row col wd =
      .ok ⟨wd.mem.put p_Dest (some (elem b m.sz_ElementSize
          ((row + m.sz_Height * col) % 2 ^ env.w) ++ d.drop m.sz_ElementSize)),
        wd.tick, wd.trace⟩ ∧
    (∃ (x : matrix_t) (r c : Nat), mtxmemchk x = 0 ∧
      x.sz_ElementCount = x.sz_Width * x.sz_Height ∧ x.sz_Height ≤ r ∧
      r + x.sz_Height * c < x.sz_ElementCount) := by
  refine ⟨?_, ⟨exMatrix, 4, 0, by decide, by decide, by decide, by decide⟩⟩
  have hdel : mtxread env p_Dest (some m) row col wd
      = mtxreadraw env p_Dest (some m) ((row + m.sz_Height * col) % 2 ^ env.w) wd := by
    simp only [mtxread, Nat.add_mod_mod]
  rw [hdel]
  exact mtxreadraw_ok env m wd hbuf (by omega) hfit hraw hd hdl

/-- C26 at a concrete input: row 4, column 0 of the 3-row, 2-column matrix reads raw
element 4, which is row 1 of column 1. -/
theorem C26_addressing_gap_witness :
    (mtxread exEnv 2 (some exMatrix) 4 0 exWorldMatrix).map (fun w => w.mem.get 2)
      = .ok (some (toLe32 14)) ∧
    exMatrix.sz_Height ≤ 4 :=
  ⟨by
    rw [(C26_addressing_gap exEnv exMatrix exWorldMatrix
      (toLe32 10 ++ toLe32 11 ++ toLe32 12 ++ toLe32 13 ++ toLe32 14 ++ toLe32 15)
      (toLe32 77) 2 4 0 (by decide) (by decide) (by decide) (by decide) (by decide)
      (by decide)).1]
    decide, by decide⟩

/-! ## Construction: what a failure and a success leave behind -/

/-- C22. A wrapped element count below the height is not detected: with a 32-bit
`size_t`, width 2 and height `2^31 + 1` give the wrapped product 2, which is smaller
than the height but not smaller than the width, and `mtxcreate` returns 0 with
`element_count = 2`; the exact product is `2^32 + 2`. -/
theorem C22_count_wrap_below_height_undetected :
    (mtxcreate exEnv32 (some exWideMatrix) none none exWorld).map
        (fun r => (r.1, r.2.1.map matrix_t.sz_ElementCount)) = .ok (0, some 2) ∧
    (exWideMatrix.sz_Width * exWideMatrix.sz_Height) % 2 ^ exEnv32.w = 2 ∧
    (exWideMatrix.sz_Width * exWideMatrix.sz_Height) % 2 ^ exEnv32.w < exWideMatrix.sz_Height ∧
    exWideMatrix.sz_Width ≠ 0 ∧ exWideMatrix.sz_Height ≠ 0 ∧ exWideMatrix.sz_ElementSize ≠ 0 ∧
    exWideMatrix.sz_Height < 2 ^ exEnv32.w := by
  refine ⟨by decide, by decide, by decide, by decide, by decide, by decide, by decide⟩

/-- C27. A successful construction can leave an invalid container: on a descriptor
whose free binding is already set, `vctcreate(v, NULL, NULL)` returns 0 and the
descriptor it leaves has a null free binding, so `vctmemchk` answers -1 although the
type tag is not `TYPE_NULL`. -/
theorem C27_create_success_invalid :
    (vctcreate exEnv (some exFreeBound) none none exWorld).map
        (fun r => (r.1, r.2.1.map vctmemchk, r.2.1.map vector_t.pfn_Free))
      = .ok (0, some (-1), some none) ∧
    exFreeBound.s32_Type ≠ TYPE_NULL ∧ exFreeBound.pfn_Free = some (.custom 1) := by
  refine ⟨by decide, by decide, by decide⟩

/-- C24. Element size is not compared: `exVecA` has four-byte elements and `exVecB8`
eight-byte elements, with the same type tag, length and bindings; `vctcmp` answers 0 and
`vctadd` runs and overwrites the result buffer, which held `0xff` bytes, with
`[1+10, 2+12, 3+14]`. -/
theorem C24_element_size_not_checked :
    (vctcmp (some exVecA) (some exVecB8) exWorldSizes).1 = 0 ∧
    exVecA.sz_ElementSize ≠ exVecB8.sz_ElementSize ∧
    vctmemchk exVecA = 0 ∧ vctmemchk exVecB8 = 0 ∧ vctmemchk exVecR = 0 ∧
    exWorldSizes.mem.get exVecR.p_StorageBuffer = some (List.replicate 12 255) ∧
    (vctadd exEnv (some exVecR) (some exVecA) (some exVecB8) exWorldSizes).map
        (fun w => w.mem.get exVecR.p_StorageBuffer)
      = .ok (some (toLe32 11 ++ toLe32 14 ++ toLe32 17)) := by
  refine ⟨by decide, by decide, by decide, by decide, by decide, by decide, by decide⟩

/-- What `vctcreate` leaves of a descriptor, whatever it returns: type tag, element
size, element count and the four arithmetic bindings. -/
theorem vctcreate_keeps (env : Env) (v v1 : vector_t) (fa : Option AllocFn)
    (ff : Option FreeFn) (wd wd1 : World) (c : Int)
    (h : vctcreate env (some v) fa ff wd = .ok (c, some v1, wd1)) :
    v1.s32_Type = v.s32_Type ∧ v1.sz_ElementSize = v.sz_ElementSize ∧
    v1.sz_ElementCount = v.sz_ElementCount ∧ v1.pfn_ElementAdd = v.pfn_ElementAdd ∧
    v1.pfn_ElementSubtract = v.pfn_ElementSubtract ∧
    v1.pfn_ElementMultiply = v.pfn_ElementMultiply ∧
    v1.pfn_ElementDivide = v.pfn_ElementDivide := by
  simp only [vctcreate] at h
  split at h
  · simp only [Except.ok.injEq, Prod.mk.injEq, Option.some.injEq] at h
    obtain ⟨-, h2, -⟩ := h
    subst h2
    exact ⟨rfl, rfl, rfl, rfl, rfl, rfl, rfl⟩
  · revert h
    generalize callAlloc env (allocateBinding fa v.pfn_Allocate)
        ((v.sz_ElementSize * v.sz_ElementCount) % 2 ^ env.w) wd = ca
    intro h
    cases ca with
    | error e => cases h
    | ok r =>
      simp only [bind_ok] at h
      split at h
      · revert h
        generalize callFree (freeBinding ff v.pfn_Free) r.1 r.2 = cf
        intro h
        cases cf with
        | error e => cases h
        | ok w2 =>
          simp only [bind_ok, pure_eq_ok, Except.ok.injEq, Prod.mk.injEq,
            Option.some.injEq] at h
          obtain ⟨-, h2, -⟩ := h
          subst h2
          exact ⟨rfl, rfl, rfl, rfl, rfl, rfl, rfl⟩
      · simp only [pure_eq_ok, Except.ok.injEq, Prod.mk.injEq, Option.some.injEq] at h
        obtain ⟨-, h2, -⟩ := h
        subst h2
        exact ⟨rfl, rfl, rfl, rfl, rfl, rfl, rfl⟩

/-- What `mtxcreate` leaves of a descriptor, whatever it returns: type tag, element
size, width, height and the four arithmetic bindings. -/
theorem mtxcreate_keeps (env : Env) (m m1 : matrix_t) (fa : Option AllocFn)
    (ff : Option FreeFn) (wd wd1 : World) (c : Int)
    (h : mtxcreate env (some m) fa ff wd = .ok (c, some m1, wd1)) :
    m1.s32_Type = m.s32_Type ∧ m1.sz_ElementSize = m.sz_ElementSize ∧
    m1.sz_Width = m.sz_Width ∧ m1.sz_Height = m.sz_Height ∧
    m1.pfn_ElementAdd = m.pfn_ElementAdd ∧
    m1.pfn_ElementSubtract = m.pfn_ElementSubtract ∧
    m1.pfn_ElementMultiply = m.pfn_ElementMultiply ∧
    m1.pfn_ElementDivide = m.pfn_ElementDivide := by
  simp only [mtxcreate] at h
  split at h
  · simp only [Except.ok.injEq, Prod.mk.injEq, Option.some.injEq] at h
    obtain ⟨-, h2, -⟩ := h
    subst h2
    exact ⟨rfl, rfl, rfl, rfl, rfl, rfl, rfl, rfl⟩
  · split at h
    · simp only [pure_eq_ok, Except.ok.injEq, Prod.mk.injEq, Option.some.injEq] at h
      obtain ⟨-, h2, -⟩ := h
      subst h2
      exact ⟨rfl, rfl, rfl, rfl, rfl, rfl, rfl, rfl⟩
    · revert h
      generalize callAlloc env (allocateBinding fa m.pfn_Allocate)
          ((m.sz_ElementSize * ((m.sz_Width * m.sz_Height) % 2 ^ env.w)) % 2 ^ env.w) wd = ca
      intro h
      cases ca with
      | error e => cases h
      | ok r =>
        simp only [bind_ok] at h
        split at h
        · revert h
          generalize callFree (freeBinding ff m.pfn_Free) r.1 r.2 = cf
          intro h
          cases cf with
          | error e => cases h
          | ok w2 =>
            simp only [bind_ok, pure_eq_ok, Except.ok.injEq, Prod.mk.injEq,
              Option.some.injEq] at h
            obtain ⟨-, h2, -⟩ := h
            subst h2
            exact ⟨rfl, rfl, rfl, rfl, rfl, rfl, rfl, rfl⟩
        · simp only [pure_eq_ok, Except.ok.injEq, Prod.mk.injEq, Option.some.injEq] at h
          obtain ⟨-, h2, -⟩ := h
          subst h2
          exact ⟨rfl, rfl, rfl, rfl, rfl, rfl, rfl, rfl⟩

/-- C23, as stated, fails: when the allocation fails `vctcreate` returns -1 and the
descriptor has been rebound to `zalloc` and `free` and carries the computed buffer
size; `mtxcreate` likewise, and on the count-overflow exit it has already overwritten
`element_count`. -/
theorem C23_failure_changes_descriptor :
    (vctcreate exEnvNoMem (some (exFresh 4 3)) none none exWorld).map
        (fun r => (r.1, r.2.1)) =
      .ok (-1, some { exFresh 4 3 with pfn_Allocate := some AllocFn.zalloc,
                                       pfn_Free := some FreeFn.free, sz_BufferSize := 12 }) ∧
    (mtxcreate exEnvNoMem (some (exFreshMatrix 4 2 3)) none none exWorld).map
        (fun r => (r.1, r.2.1)) =
      .ok (-1, some { exFreshMatrix 4 2 3 with pfn_Allocate := some AllocFn.zalloc,
                                               pfn_Free := some FreeFn.free,
                                               sz_BufferSize := 24 }) ∧
    (exFresh 4 3).pfn_Allocate = none ∧ (exFresh 4 3).sz_BufferSize = 0 := by
  refine ⟨by decide, by decide, by decide, by decide⟩

/-- C23, amended: whenever `vctcreate` or `mtxcreate` returns -1, the type tag, the
element size, the shape the caller gave (element count of a vector, width and height of
a matrix) and the four arithmetic bindings have the value they had before the call; and
on the null-descriptor and zero-shape exits the whole descriptor and the world are
unchanged. -/
theorem C23_failure_keeps_caller_fields (env : Env) (v v1 : vector_t) (m m1 : matrix_t)
    (fa : Option AllocFn) (ff : Option FreeFn) (wd wd1 wd2 : World)
    (hv : vctcreate env (some v) fa ff wd = .ok (-1, some v1, wd1))
    (hm : mtxcreate env (some m) fa ff wd = .ok (-1, some m1, wd2)) :
    (v1.s32_Type = v.s32_Type ∧ v1.sz_ElementSize = v.sz_ElementSize ∧
      v1.sz_ElementCount = v.sz_ElementCount ∧ v1.pfn_ElementAdd = v.pfn_ElementAdd ∧
      v1.pfn_ElementSubtract = v.pfn_ElementSubtract ∧
      v1.pfn_ElementMultiply = v.pfn_ElementMultiply ∧
      v1.pfn_ElementDivide = v.pfn_ElementDivide) ∧
    (m1.s32_Type = m.s32_Type ∧ m1.sz_ElementSize = m.sz_ElementSize ∧
      m1.sz_Width = m.sz_Width ∧ m1.sz_Height = m.sz_Height ∧
      m1.pfn_ElementAdd = m.pfn_ElementAdd ∧
      m1.pfn_ElementSubtract = m.pfn_ElementSubtract ∧
      m1.pfn_ElementMultiply = m.pfn_ElementMultiply ∧
      m1.pfn_ElementDivide = m.pfn_ElementDivide) ∧
    ((v.sz_ElementCount = 0 ∨ v.sz_ElementSize = 0) → v1 = v ∧ wd1 = wd) ∧
    ((m.sz_Width = 0 ∨ m.sz_Height = 0 ∨ m.sz_ElementSize = 0) → m1 = m ∧ wd2 = wd) := by
  refine ⟨vctcreate_keeps env v v1 fa ff wd wd1 _ hv, mtxcreate_keeps env m m1 fa ff wd wd2 _ hm,
    ?_, ?_⟩
  · intro hz
    simp only [vctcreate, if_pos hz, Except.ok.injEq, Prod.mk.injEq, Option.some.injEq,
      true_and] at hv
    exact ⟨hv.1.symm, hv.2.symm⟩
  · intro hz
    simp only [mtxcreate, if_pos hz, Except.ok.injEq, Prod.mk.injEq, Option.some.injEq,
      true_and] at hm
    exact ⟨hm.1.symm, hm.2.symm⟩

/-- C23 amended, at the failing allocation of the counterexample. -/
theorem C23_failure_keeps_caller_fields_witness :
    ((exFresh 4 3).s32_Type = (exFresh 4 3).s32_Type ∧ (4 : Nat) = (exFresh 4 3).sz_ElementSize ∧
      (3 : Nat) = (exFresh 4 3).sz_ElementCount) ∧
    ((exFreshMatrix 4 2 3).s32_Type = (exFreshMatrix 4 2 3).s32_Type ∧
      (2 : Nat) = (exFreshMatrix 4 2 3).sz_Width ∧ (3 : Nat) = (exFreshMatrix 4 2 3).sz_Height) :=
  have h := C23_failure_keeps_caller_fields exEnvNoMem (exFresh 4 3)
    { exFresh 4 3 with pfn_Allocate := some AllocFn.zalloc,
                       pfn_Free := some FreeFn.free, sz_BufferSize := 12 }
    (exFreshMatrix 4 2 3)
    { exFreshMatrix 4 2 3 with pfn_Allocate := some AllocFn.zalloc,
                               pfn_Free := some FreeFn.free, sz_BufferSize := 24 }
    none none exWorld
    ⟨exWorld.mem, 1, [.print .bufferSizeOverflow, .release .free 0, .alloc .zalloc 12 0]⟩
    ⟨exWorld.mem, 1, [.print .bufferSizeOverflow, .release .free 0, .alloc .zalloc 24 0]⟩
    (by decide) (by decide)
  ⟨⟨h.1.1, h.1.2.1, h.1.2.2.1⟩, ⟨h.2.1.1, h.2.1.2.2.1, h.2.1.2.2.2.1⟩⟩

/-! ## What the accessors and the scaling engine validate -/

theorem scale_null (sel : vector_t → Option Nat) (env : Env)
    (ps pv : Option vector_t) (k : Nat) (wd : World) (h : ps = none ∨ pv = none ∨ k = 0) :
    SCALE_OP_DEF sel env ps pv k wd = .ok (printf wd .nullReference) := by
  unfold SCALE_OP_DEF
  split
  · rename_i v s
    have hk : k = 0 := by simpa using h
    simp [hk]
  · rfl

theorem scale_guard (sel : vector_t → Option Nat) (env : Env) (s v : vector_t) (k : Nat)
    (wd : World) (hk : k ≠ 0) (h : sel v = none ∨ vctmemchk v ≠ 0) :
    SCALE_OP_DEF sel env (some s) (some v) k wd = .ok (printf wd .vectorsNotCompatible) := by
  simp only [SCALE_OP_DEF, if_neg hk, if_pos h]

/-- C25, as stated, fails: `exVecNoType` and `exResNoType` carry the type tag `TYPE_NULL`,
so `vctmemchk` answers -1 on both, yet `vctread` copies element 1 into the cell at
address 4, `vctwrite` stores the cell's 77 into element 0, and `vctscale` overwrites the
buffer of the invalid result container with `[1*77, 2*77, 3*77]`. -/
theorem C25_invalid_container_accessed :
    vctmemchk exVecNoType = -1 ∧ vctmemchk exResNoType = -1 ∧
    exWorld.mem.get 4 = some (toLe32 77) ∧
    (vctread exEnv 4 (some exVecNoType) 1 exWorld).map (fun w => w.mem.get 4)
      = .ok (some (toLe32 2)) ∧
    (vctwrite exEnv (some exVecNoType) 0 4 exWorld).map (fun w => w.mem.get 1)
      = .ok (some (toLe32 77 ++ toLe32 2 ++ toLe32 3)) ∧
    exWorld.mem.get 3 = some (List.replicate 12 255) ∧
    (vctscale exEnv (some exResNoType) (some exVecA) 4 exWorld).map (fun w => w.mem.get 3)
      = .ok (some (toLe32 77 ++ toLe32 154 ++ toLe32 231)) := by
  refine ⟨by decide, by decide, by decide, by decide, by decide, by decide, by decide⟩

/-- C25, amended: the accessors examine the reference and the index only, so of the
invalid states they stop at a zero `element_count`: on such a container `vctread`,
`vctwrite`, `mtxreadraw` and `mtxread` only print their bounds diagnostic, whatever the
index; and `vctscale`/`vctscaleinv` validate the source vector only: with a source that
fails `vctmemchk` they only print a diagnostic, whatever the result container is. -/
theorem C25_accessors_check_index_scale_checks_source (env : Env) (v s : vector_t)
    (m : matrix_t) (wd : World)
    (hv : v.sz_ElementCount = 0) (hm : m.sz_ElementCount = 0) (hs : vctmemchk s ≠ 0) :
    (∀ p i, vctread env p (some v) i wd = .ok (printf wd .indexExceeded)) ∧
    (∀ p i, vctwrite env (some v) i p wd = .ok (printf wd .indexExceeded)) ∧
    (∀ p i, mtxreadraw env p (some m) i wd = .ok (printf wd .rawIndexExceeded)) ∧
    (∀ p r c, mtxread env p (some m) r c wd = .ok (printf wd .rawIndexExceeded)) ∧
    (∀ r k, ∃ d, vctscale env r (some s) k wd = .ok (printf wd d) ∧
      vctscaleinv env r (some s) k wd = .ok (printf wd d)) ∧
    (∀ d, (printf wd d).mem = wd.mem) := by
  refine ⟨?_, ?_, ?_, ?_, ?_, fun d => rfl⟩
  · intro p i
    simp [vctread, hv]
  · intro p i
    simp [vctwrite, hv]
  · intro p i
    simp [mtxreadraw, hm]
  · intro p r c
    simp [mtxread, mtxreadraw, hm]
  · intro r k
    by_cases hn : r = none ∨ k = 0
    · refine ⟨.nullReference, scale_null _ env r (some s) k wd ?_,
        scale_null _ env r (some s) k wd ?_⟩
      · rcases hn with h | h
        · exact Or.inl h
        · exact Or.inr (Or.inr h)
      · rcases hn with h | h
        · exact Or.inl h
        · exact Or.inr (Or.inr h)
    · simp only [not_or] at hn
      obtain ⟨x, hx⟩ := Option.ne_none_iff_exists'.mp hn.1
      subst hx
      exact ⟨.vectorsNotCompatible, scale_guard _ env x s k wd hn.2 (Or.inr hs),
        scale_guard _ env x s k wd hn.2 (Or.inr hs)⟩

/-- C25 amended, at a vector and a matrix whose element count is 0 and a source with the
type tag `TYPE_NULL`. -/
theorem C25_accessors_check_index_scale_checks_source_witness :
    vctread exEnv 4 (some { exVecA with sz_ElementCount := 0 }) 0 exWorld
      = .ok (printf exWorld .indexExceeded) ∧
    (∃ d, vctscale exEnv (some exVecR) (some exVecNoType) 4 exWorld = .ok (printf exWorld d) ∧
      vctscaleinv exEnv (some exVecR) (some exVecNoType) 4 exWorld = .ok (printf exWorld d)) :=
  have h := C25_accessors_check_index_scale_checks_source exEnv
    { exVecA with sz_ElementCount := 0 } exVecNoType { exMatrix with sz_ElementCount := 0 }
    exWorld (by decide) (by decide) (by decide)
  ⟨h.1 4 0, h.2.2.2.2.1 (some exVecR) 4⟩

/-! ## Failure paths of the derived operations -/

theorem LeavesMemory_printf (wd : World) (d : Diag) : LeavesMemory wd (.ok (printf wd d)) :=
  ⟨_, rfl, fun _ => rfl⟩

theorem Mem.get_fresh_none (m : Mem) : m.get (m.length + 1) = none := by
  simp [Mem.get]

/-- A block that is allocated and released again leaves every address as it was. -/
theorem Mem.get_alloc_release (m : Mem) (x : Option Bytes) (p : Nat) :
    ((m ++ [x]).put (m.length + 1) none).get p = m.get p := by
  rw [Mem.get_put _ _ _ (by simp)]
  split
  · rename_i h
    rw [h, Mem.get_fresh_none]
  · rename_i h
    exact Mem.get_append_old m x h

/-- Two blocks that are allocated and released again leave every address as it was. -/
theorem Mem.get_alloc_release2 (m : Mem) (x y : Option Bytes) (p : Nat) :
    (((m ++ [x] ++ [y]).put (m.length + 2) none).put (m.length + 1) none).get p = m.get p := by
  rw [Mem.get_put _ _ _ (by simp)]
  split
  · rename_i h
    rw [h, Mem.get_fresh_none]
  · rename_i h
    have := Mem.get_alloc_release (m ++ [x]) y p
    simp only [List.length_append, List.length_singleton] at this
    rw [this]
    exact Mem.get_append_old m x h

theorem vctmemchk_ne_zero {v : vector_t} (h : vctmemchk v ≠ 0) : vctmemchk v = -1 := by
  unfold vctmemchk at h ⊢
  split
  · rename_i hc
    simp [hc] at h
  · rfl

/-- Past its guards, `vctdot` with a failing scratch allocation releases what it had
allocated and returns. -/
theorem dot_alloc_fail (env : Env) (a b : vector_t) (q : Nat) (wd : World) (hq : q ≠ 0)
    (hguard : ¬ ((vctcmp (some a) (some b) wd).1 ≠ 0 ∨ a.pfn_ElementAdd = none ∨
      a.pfn_ElementMultiply = none ∨ vctmemchk a ≠ 0 ∨ vctmemchk b ≠ 0))
    (hfail : allocSucceeds env a.pfn_Allocate a.sz_ElementSize wd.tick = false ∨
      allocSucceeds env b.pfn_Allocate b.sz_ElementSize (wd.tick + 1) = false ∨
      allocSucceeds env a.pfn_Allocate a.sz_ElementSize (wd.tick + 2) = false) :
    LeavesMemory wd (vctdot env q (some a) (some b) wd) := by
  have hg := hguard
  simp only [not_or, not_not] at hguard
  obtain ⟨-, -, -, hva, hvb⟩ := hguard
  obtain ⟨-, -, -, -, -, ⟨ga, hga⟩, ⟨fa, hfa⟩⟩ := vctmemchk_eq_zero hva
  obtain ⟨-, -, -, -, -, ⟨gb, hgb⟩, ⟨fb, hfb⟩⟩ := vctmemchk_eq_zero hvb
  simp only [vctdot, if_neg hq, if_neg hg, vctcmp_snd]
  cases h1 : allocSucceeds env a.pfn_Allocate a.sz_ElementSize wd.tick with
  | false =>
    rw [hga] at h1 ⊢
    simp only [callAlloc_fail env wd h1, bind_ok, check_zero, if_true, pure_eq_ok]
    exact ⟨_, rfl, fun _ => rfl⟩
  | true =>
    obtain ⟨g1, i1, hg1, hi1, hc1⟩ := callAlloc_ok env wd h1
    simp only [hc1, bind_ok, check_succ, if_false]
    cases h2 : allocSucceeds env b.pfn_Allocate b.sz_ElementSize (wd.tick + 1) with
    | false =>
      rw [hgb] at h2 ⊢
      have hc2 := callAlloc_fail env (g := gb) (n := b.sz_ElementSize)
        ⟨wd.mem ++ [some i1], wd.tick + 1,
          .alloc g1 a.sz_ElementSize (wd.mem.length + 1) :: wd.trace⟩ h2
      have hf := callFree_ok (g := fa) (p := wd.mem.length + 1) (b := i1)
        ⟨wd.mem ++ [some i1], wd.tick + 1 + 1,
          .alloc gb b.sz_ElementSize 0 :: .alloc g1 a.sz_ElementSize (wd.mem.length + 1)
            :: wd.trace⟩
        (Mem.get_append_fresh _ _)
      simp only [hc2, bind_ok, check_zero, if_true, hfa, hf, pure_eq_ok]
      exact ⟨_, rfl, fun p => Mem.get_alloc_release wd.mem _ p⟩
    | true =>
      obtain ⟨g2, i2, hg2, hi2, hc2⟩ := callAlloc_ok env
        ⟨wd.mem ++ [some i1], wd.tick + 1,
          .alloc g1 a.sz_ElementSize (wd.mem.length + 1) :: wd.trace⟩ h2
      simp only [List.length_append, List.length_singleton] at hc2
      simp only [hc2, bind_ok, check_succ, if_false]
      have h3 : allocSucceeds env a.pfn_Allocate a.sz_ElementSize (wd.tick + 2) = false := by
        rcases hfail with h | h | h
        · rw [h1] at h; cases h
        · rw [h2] at h; cases h
        · exact h
      rw [hga] at h3 ⊢
      have hc3 := callAlloc_fail env (g := ga) (n := a.sz_ElementSize)
        ⟨wd.mem ++ [some i1] ++ [some i2], wd.tick + 1 + 1,
          .alloc g2 b.sz_ElementSize (wd.mem.length + 1 + 1) ::
            .alloc g1 a.sz_ElementSize (wd.mem.length + 1) :: wd.trace⟩ h3
      have hf2 := callFree_ok (g := fb) (p := wd.mem.length + 1 + 1) (b := i2)
        ⟨wd.mem ++ [some i1] ++ [some i2], wd.tick + 1 + 1 + 1,
          .alloc ga a.sz_ElementSize 0 :: .alloc g2 b.sz_ElementSize (wd.mem.length + 1 + 1) ::
            .alloc g1 a.sz_ElementSize (wd.mem.length + 1) :: wd.trace⟩
        (by
          have := Mem.get_append_fresh (wd.mem ++ [some i1]) (some i2)
          simpa using this)
      have hf1 := callFree_ok (g := fa) (p := wd.mem.length + 1) (b := i1)
        ⟨(wd.mem ++ [some i1] ++ [some i2]).put (wd.mem.length + 1 + 1) none,
          wd.tick + 1 + 1 + 1,
          .release fb (wd.mem.length + 1 + 1) ::
            .alloc ga a.sz_ElementSize 0 :: .alloc g2 b.sz_ElementSize (wd.mem.length + 1 + 1) ::
            .alloc g1 a.sz_ElementSize (wd.mem.length + 1) :: wd.trace⟩
        (by
          rw [Mem.get_put _ _ _ (by simp), if_neg (by omega), List.append_assoc]
          exact Mem.get_append_right wd.mem _ 0)
      simp only [hc3, bind_ok, check_zero, if_true, hfa, hfb, hf2, hf1, pure_eq_ok]
      exact ⟨_, rfl, fun p => Mem.get_alloc_release2 wd.mem _ _ p⟩

/-- Past its guards, the scaling engine with a failing scratch allocation releases what
it had allocated and returns. -/
theorem scale_alloc_fail (sel : vector_t → Option Nat) (env : Env) (s v : vector_t) (k : Nat)
    (wd : World) (hk : k ≠ 0) (hguard : ¬ (sel v = none ∨ vctmemchk v ≠ 0))
    (hfail : allocSucceeds env v.pfn_Allocate v.sz_ElementSize wd.tick = false ∨
      allocSucceeds env v.pfn_Allocate v.sz_ElementSize (wd.tick + 1) = false) :
    LeavesMemory wd (SCALE_OP_DEF sel env (some s) (some v) k wd) := by
  have hg := hguard
  simp only [not_or, not_not] at hguard
  obtain ⟨-, hvv⟩ := hguard
  obtain ⟨-, -, -, -, -, ⟨ga, hga⟩, ⟨fa, hfa⟩⟩ := vctmemchk_eq_zero hvv
  simp only [SCALE_OP_DEF, if_neg hk, if_neg hg]
  cases h1 : allocSucceeds env v.pfn_Allocate v.sz_ElementSize wd.tick with
  | false =>
    rw [hga] at h1 ⊢
    simp only [callAlloc_fail env wd h1, bind_ok, check_zero, if_true, pure_eq_ok]
    exact ⟨_, rfl, fun _ => rfl⟩
  | true =>
    obtain ⟨g1, i1, hg1, hi1, hc1⟩ := callAlloc_ok env wd h1
    simp only [hc1, bind_ok, check_succ, if_false]
    have h2 : allocSucceeds env v.pfn_Allocate v.sz_ElementSize (wd.tick + 1) = false := by
      rcases hfail with h | h
      · rw [h1] at h; cases h
      · exact h
    rw [hga] at h2 ⊢
    have hc2 := callAlloc_fail env (g := ga) (n := v.sz_ElementSize)
      ⟨wd.mem ++ [some i1], wd.tick + 1,
        .alloc g1 v.sz_ElementSize (wd.mem.length + 1) :: wd.trace⟩ h2
    have hf := callFree_ok (g := fa) (p := wd.mem.length + 1) (b := i1)
      ⟨wd.mem ++ [some i1], wd.tick + 1 + 1,
        .alloc ga v.sz_ElementSize 0 :: .alloc g1 v.sz_ElementSize (wd.mem.length + 1)
          :: wd.trace⟩
      (Mem.get_append_fresh _ _)
    simp only [hc2, bind_ok, check_zero, if_true, hfa, hf, pure_eq_ok]
    exact ⟨_, rfl, fun p => Mem.get_alloc_release wd.mem _ p⟩

theorem dot_null (env : Env) (pa pb : Option vector_t) (q : Nat) (wd : World)
    (h : pa = none ∨ pb = none ∨ q = 0) :
    vctdot env q pa pb wd = .ok (printf wd .nullReference) := by
  unfold vctdot
  split
  · rename_i a b
    have hq : q = 0 := by simpa using h
    simp [hq]
  · rfl

theorem dot_guard (env : Env) (a b : vector_t) (q : Nat) (wd : World) (hq : q ≠ 0)
    (h : (vctcmp (some a) (some b) wd).1 ≠ 0 ∨ a.pfn_ElementAdd = none ∨
      a.pfn_ElementMultiply = none ∨ vctmemchk a ≠ 0 ∨ vctmemchk b ≠ 0) :
    vctdot env q (some a) (some b) wd = .ok (printf wd .vectorsNotCompatible) := by
  simp only [vctdot, if_neg hq, if_pos h, vctcmp_snd]

/-- Every failure of `vctdot` leaves memory as it was. -/
theorem dot_noop (env : Env) (a b : vector_t) (q : Nat) (wd : World)
    (h : (vctcmp (some a) (some b) wd).1 ≠ 0 ∨ a.pfn_ElementAdd = none ∨
      a.pfn_ElementMultiply = none ∨ vctmemchk a ≠ 0 ∨ vctmemchk b ≠ 0 ∨
      allocSucceeds env a.pfn_Allocate a.sz_ElementSize wd.tick = false ∨
      allocSucceeds env b.pfn_Allocate b.sz_ElementSize (wd.tick + 1) = false ∨
      allocSucceeds env a.pfn_Allocate a.sz_ElementSize (wd.tick + 2) = false) :
    LeavesMemory wd (vctdot env q (some a) (some b) wd) := by
  by_cases hq : q = 0
  · rw [dot_null env _ _ q wd (Or.inr (Or.inr hq))]
    exact LeavesMemory_printf _ _
  · by_cases hg : (vctcmp (some a) (some b) wd).1 ≠ 0 ∨ a.pfn_ElementAdd = none ∨
        a.pfn_ElementMultiply = none ∨ vctmemchk a ≠ 0 ∨ vctmemchk b ≠ 0
    · rw [dot_guard env a b q wd hq hg]
      exact LeavesMemory_printf _ _
    · exact dot_alloc_fail env a b q wd hq hg (by tauto)

/-- Every failure of the scaling engine leaves memory as it was. -/
theorem scale_noop (sel : vector_t → Option Nat) (env : Env) (s v : vector_t) (k : Nat)
    (wd : World)
    (h : sel v = none ∨ vctmemchk v ≠ 0 ∨
      allocSucceeds env v.pfn_Allocate v.sz_ElementSize wd.tick = false ∨
      allocSucceeds env v.pfn_Allocate v.sz_ElementSize (wd.tick + 1) = false) :
    LeavesMemory wd (SCALE_OP_DEF sel env (some s) (some v) k wd) := by
  by_cases hk : k = 0
  · rw [scale_null sel env _ _ k wd (Or.inr (Or.inr hk))]
    exact LeavesMemory_printf _ _
  · by_cases hg : sel v = none ∨ vctmemchk v ≠ 0
    · rw [scale_guard sel env s v k wd hk hg]
      exact LeavesMemory_printf _ _
    · exact scale_alloc_fail sel env s v k wd hk hg (by tauto)

/-- C20. Derived operations are report-and-no-op: `vctdot`, `vctmagsq`, `vctscale` and
`vctscaleinv` return normally with every address of memory holding what it held before
the call, so the product, the magnitude and the result vector are as they were,
whenever an argument is null, a required binding (add or multiply for `vctdot` and
`vctmagsq`, multiply for `vctscale`, divide for `vctscaleinv`) is null, a source vector
fails `vctmemchk`, the operands of `vctdot` are not compatible, or one of the scratch
allocations (three for `vctdot` and `vctmagsq`, two for the scaling operations) fails. -/
theorem C20_derived_report_and_noop (env : Env) (wd : World) :
    (∀ (pa pb : Option vector_t) (q : Nat), pa = none ∨ pb = none ∨ q = 0 →
      LeavesMemory wd (vctdot env q pa pb wd)) ∧
    (∀ (a b : vector_t) (q : Nat),
      (vctcmp (some a) (some b) wd).1 ≠ 0 ∨ a.pfn_ElementAdd = none ∨
        a.pfn_ElementMultiply = none ∨ vctmemchk a ≠ 0 ∨ vctmemchk b ≠ 0 ∨
        allocSucceeds env a.pfn_Allocate a.sz_ElementSize wd.tick = false ∨
        allocSucceeds env b.pfn_Allocate b.sz_ElementSize (wd.tick + 1) = false ∨
        allocSucceeds env a.pfn_Allocate a.sz_ElementSize (wd.tick + 2) = false →
      LeavesMemory wd (vctdot env q (some a) (some b) wd)) ∧
    (∀ (pv : Option vector_t) (q : Nat), pv = none ∨ q = 0 →
      LeavesMemory wd (vctmagsq env q pv wd)) ∧
    (∀ (v : vector_t) (q : Nat),
      v.pfn_ElementAdd = none ∨ v.pfn_ElementMultiply = none ∨ vctmemchk v ≠ 0 ∨
        allocSucceeds env v.pfn_Allocate v.sz_ElementSize wd.tick = false ∨
        allocSucceeds env v.pfn_Allocate v.sz_ElementSize (wd.tick + 1) = false ∨
        allocSucceeds env v.pfn_Allocate v.sz_ElementSize (wd.tick + 2) = false →
      LeavesMemory wd (vctmagsq env q (some v) wd)) ∧
    (∀ (ps pv : Option vector_t) (k : Nat), ps = none ∨ pv = none ∨ k = 0 →
      LeavesMemory wd (vctscale env ps pv k wd) ∧
      LeavesMemory wd (vctscaleinv env ps pv k wd)) ∧
    (∀ (s v : vector_t) (k : Nat),
      v.pfn_ElementMultiply = none ∨ vctmemchk v ≠ 0 ∨
        allocSucceeds env v.pfn_Allocate v.sz_ElementSize wd.tick = false ∨
        allocSucceeds env v.pfn_Allocate v.sz_ElementSize (wd.tick + 1) = false →
      LeavesMemory wd (vctscale env (some s) (some v) k wd)) ∧
    (∀ (s v : vector_t) (k : Nat),
      v.pfn_ElementDivide = none ∨ vctmemchk v ≠ 0 ∨
        allocSucceeds env v.pfn_Allocate v.sz_ElementSize wd.tick = false ∨
        allocSucceeds env v.pfn_Allocate v.sz_ElementSize (wd.tick + 1) = false →
      LeavesMemory wd (vctscaleinv env (some s) (some v) k wd)) := by
  refine ⟨?_, ?_, ?_, ?_, ?_, ?_, ?_⟩
  · intro pa pb q h
    rw [dot_null env pa pb q wd h]
    exact LeavesMemory_printf _ _
  · intro a b q h
    exact dot_noop env a b q wd h
  · intro pv q h
    cases pv with
    | none => exact LeavesMemory_printf _ _
    | some v =>
      have hq : q = 0 := by simpa using h
      simp only [vctmagsq, hq, if_true]
      exact LeavesMemory_printf _ _
  · intro v q h
    by_cases hq : q = 0
    · simp only [vctmagsq, hq, if_true]
      exact LeavesMemory_printf _ _
    · by_cases hg : v.pfn_ElementAdd = none ∨ v.pfn_ElementMultiply = none ∨ vctmemchk v ≠ 0
      · simp only [vctmagsq, if_neg hq, if_pos hg]
        exact LeavesMemory_printf _ _
      · simp only [vctmagsq, if_neg hq, if_neg hg]
        exact dot_noop env v v q wd (by tauto)
  · intro ps pv k h
    exact ⟨by
      rw [vctscale, scale_null _ env ps pv k wd h]
      exact LeavesMemory_printf _ _, by
      rw [vctscaleinv, scale_null _ env ps pv k wd h]
      exact LeavesMemory_printf _ _⟩
  · intro s v k h
    exact scale_noop _ env s v k wd h
  · intro s v k h
    exact scale_noop _ env s v k wd h

/-- C20 at concrete inputs: with a `calloc` that fails from its second call on,
`vctdot` of `[1,2,3]` and `[4,5,6]` into the cell at address 4 and `vctscale` of
`[1,2,3]` into the vector at address 3 leave memory as it was. -/
theorem C20_derived_report_and_noop_witness :
    LeavesMemory exWorld (vctdot exEnvOneAlloc 4 (some exVecA) (some exVecB) exWorld) ∧
    LeavesMemory exWorld (vctscale exEnvOneAlloc (some exVecR) (some exVecA) 4 exWorld) ∧
    LeavesMemory exWorld (vctmagsq exEnv 4 (some exVecNoType) exWorld) :=
  ⟨(C20_derived_report_and_noop exEnvOneAlloc exWorld).2.1 exVecA exVecB 4
      (Or.inr (Or.inr (Or.inr (Or.inr (Or.inr (Or.inr (Or.inl (by decide)))))))),
   (C20_derived_report_and_noop exEnvOneAlloc exWorld).2.2.2.2.2.1 exVecR exVecA 4
      (Or.inr (Or.inr (Or.inr (by decide)))),
   (C20_derived_report_and_noop exEnv exWorld).2.2.2.1 exVecNoType 4
      (Or.inr (Or.inr (Or.inl (by decide))))⟩

/-! ## Destruction invalidates -/

theorem norm_guard (env : Env) (n v : vector_t) (f : Option Nat) (wd : World)
    (h : v.pfn_ElementDivide = none ∨ f = none ∨ vctmemchk v ≠ 0) :
    vctnorm env (some n) (some v) f wd = .ok (printf wd .sqrtNotCompatible) := by
  simp only [vctnorm, if_pos h]

/-- C28. Destroy invalidates: on a valid vector `v` whose buffer is live, `vctdstry`
returns a descriptor `v1` on which `vctmemchk` answers -1, and from then on, in whatever
world, `vctadd`, `vctsub`, `vctelemul` and `vctelediv` with `v1` as either operand or as
result, `vctdot` with `v1` as either operand, `vctmagsq`, `vctscale`, `vctscaleinv` and
`vctnorm` with `v1` as source only print a diagnostic, which leaves memory as it was;
likewise `mtxdstry` on a valid matrix returns a descriptor on which `mtxmemchk` answers
-1. -/
theorem C28_destroy_invalidates (env : Env) (v : vector_t) (m : matrix_t) (bv bm : Bytes)
    (wd : World)
    (hv : vctmemchk v = 0) (hvb : wd.mem.get v.p_StorageBuffer = some bv)
    (hm : mtxmemchk m = 0) (hmb : wd.mem.get m.p_StorageBuffer = some bm) :
    ∃ v1 wd1 m1 wd2, vctdstry (some v) wd = .ok (some v1, wd1) ∧ vctmemchk v1 = -1 ∧
      mtxdstry (some m) wd = .ok (some m1, wd2) ∧ mtxmemchk m1 = -1 ∧
      ∀ (w : World) (x y : vector_t) (q : Nat) (f : Option Nat),
        (∀ op, op ∈ [vctadd, vctsub, vctelemul, vctelediv] →
          op env (some x) (some v1) (some y) w = .ok (printf w .vectorsNotCompatible) ∧
          op env (some x) (some y) (some v1) w = .ok (printf w .vectorsNotCompatible) ∧
          op env (some v1) (some x) (some y) w = .ok (printf w .vectorsNotCompatible)) ∧
        (∃ d, vctdot env q (some v1) (some y) w = .ok (printf w d)) ∧
        (∃ d, vctdot env q (some y) (some v1) w = .ok (printf w d)) ∧
        (∃ d, vctmagsq env q (some v1) w = .ok (printf w d)) ∧
        (∃ d, vctscale env (some x) (some v1) q w = .ok (printf w d)) ∧
        (∃ d, vctscaleinv env (some x) (some v1) q w = .ok (printf w d)) ∧
        vctnorm env (some x) (some v1) f w = .ok (printf w .sqrtNotCompatible) ∧
        (∀ d, (printf w d).mem = w.mem) := by
  obtain ⟨hvp, -, -, -, -, -, ⟨gv, hgv⟩⟩ := vctmemchk_eq_zero hv
  have hmp : m.p_StorageBuffer ≠ 0 := (Mem.get_some_pos hmb).1
  have hmf : ∃ g, m.pfn_Free = some g := by
    unfold mtxmemchk at hm
    split at hm
    · rename_i hc
      exact Option.ne_none_iff_exists'.mp hc.2.2.2.2.2.2.2.2
    · simp at hm
  obtain ⟨gm, hgm⟩ := hmf
  have hv1 : vctmemchk { v with sz_BufferSize := 0 } ≠ 0 := by
    simp [vctmemchk]
  have hm1 : mtxmemchk { m with sz_BufferSize := 0 } = -1 := by
    simp [mtxmemchk]
  refine ⟨{ v with sz_BufferSize := 0 },
    ⟨wd.mem.put v.p_StorageBuffer none, wd.tick, .release gv v.p_StorageBuffer :: wd.trace⟩,
    { m with sz_BufferSize := 0 },
    ⟨wd.mem.put m.p_StorageBuffer none, wd.tick, .release gm m.p_StorageBuffer :: wd.trace⟩,
    ?_, vctmemchk_ne_zero hv1, ?_, hm1, ?_⟩
  · simp only [vctdstry, if_pos hvp, hgv, callFree_ok wd hvb, bind_ok, pure_eq_ok]
  · simp only [mtxdstry, if_pos hmp, hgm, callFree_ok wd hmb, bind_ok, pure_eq_ok]
  · intro w x y q f
    refine ⟨?_, ?_, ?_, ?_, ?_, ?_, norm_guard env x _ f w (Or.inr (Or.inr hv1)),
      fun d => rfl⟩
    · intro op hop
      simp only [List.mem_cons, List.mem_singleton, List.not_mem_nil, or_false] at hop
      rcases hop with h | h | h | h <;> subst h <;>
        exact ⟨elementwise_guard _ env _ y x w (Or.inr (Or.inr (Or.inl hv1))),
          elementwise_guard _ env y _ x w (Or.inr (Or.inr (Or.inr (Or.inl hv1)))),
          elementwise_guard _ env x y _ w (Or.inr (Or.inr (Or.inr (Or.inr hv1))))⟩
    · by_cases hq : q = 0
      · exact ⟨_, dot_null env _ _ q w (Or.inr (Or.inr hq))⟩
      · exact ⟨_, dot_guard env _ y q w hq (Or.inr (Or.inr (Or.inr (Or.inl hv1))))⟩
    · by_cases hq : q = 0
      · exact ⟨_, dot_null env _ _ q w (Or.inr (Or.inr hq))⟩
      · exact ⟨_, dot_guard env y _ q w hq (Or.inr (Or.inr (Or.inr (Or.inr hv1))))⟩
    · by_cases hq : q = 0
      · exact ⟨.nullReference, by simp only [vctmagsq, hq, if_true]⟩
      · exact ⟨.vectorNotCompatible, by
          simp only [vctmagsq, if_neg hq, if_pos (Or.inr (Or.inr hv1))]⟩
    · by_cases hq : q = 0
      · exact ⟨_, scale_null _ env _ _ q w (Or.inr (Or.inr hq))⟩
      · exact ⟨_, scale_guard _ env x _ q w hq (Or.inr hv1)⟩
    · by_cases hq : q = 0
      · exact ⟨_, scale_null _ env _ _ q w (Or.inr (Or.inr hq))⟩
      · exact ⟨_, scale_guard _ env x _ q w hq (Or.inr hv1)⟩

/-- C28 at a concrete input: after `vctdstry` on the vector `[1,2,3]`, `vctmemchk`
answers -1 and `vctadd` with it as left operand only prints its diagnostic. -/
theorem C28_destroy_invalidates_witness :
    ∃ v1 wd1, vctdstry (some exVecA) exWorld = .ok (some v1, wd1) ∧ vctmemchk v1 = -1 ∧
      vctadd exEnv (some exVecR) (some v1) (some exVecB) wd1
        = .ok (printf wd1 .vectorsNotCompatible) :=
  have ⟨v1, wd1, _, _, h1, h2, _, _, h5⟩ := C28_destroy_invalidates exEnv exVecA exMatrix
    (toLe32 1 ++ toLe32 2 ++ toLe32 3) (toLe32 1 ++ toLe32 2 ++ toLe32 3) exWorld
    (by decide) (by decide) (by decide) (by decide)
  ⟨v1, wd1, h1, h2, ((h5 wd1 exVecR exVecB 0 none).1 vctadd (by simp)).1⟩

/-! ## The scaling engine -/

/-- Past its guards and allocations, `SCALE_OP_DEF` is its loop followed by the two
releases. -/
theorem scale_run (sel : vector_t → Option Nat) (env : Env) (s v : vector_t) (k : Nat)
    (wd : World) (f : Nat) (hk : k ≠ 0) (hsel : sel v = some f) (hvv : vctmemchk v = 0)
    (hal1 : allocSucceeds env v.pfn_Allocate v.sz_ElementSize wd.tick = true)
    (hal2 : allocSucceeds env v.pfn_Allocate v.sz_ElementSize (wd.tick + 1) = true) :
    ∃ i1 i2 t, i1.length = v.sz_ElementSize ∧ i2.length = v.sz_ElementSize ∧
      SCALE_OP_DEF sel env (some s) (some v) k wd =
        ((List.range v.sz_ElementCount).foldlM
            (scaleStep sel env (some s) v k (wd.mem.length + 1) (wd.mem.length + 2))
            ⟨wd.mem ++ [some i1] ++ [some i2], wd.tick + 2, t⟩ >>= fun w =>
          callFree v.pfn_Free (wd.mem.length + 1) w >>= fun w =>
          callFree v.pfn_Free (wd.mem.length + 2) w) := by
  obtain ⟨g1, i1, hg1, hi1, h1⟩ := callAlloc_ok env wd hal1
  obtain ⟨g2, i2, hg2, hi2, h2⟩ := callAlloc_ok env
    ⟨wd.mem ++ [some i1], wd.tick + 1, .alloc g1 v.sz_ElementSize (wd.mem.length + 1) :: wd.trace⟩
    hal2
  refine ⟨i1, i2,
    .alloc g2 v.sz_ElementSize (wd.mem.length + 2) :: .alloc g1 v.sz_ElementSize (wd.mem.length + 1)
      :: wd.trace, hi1, hi2, ?_⟩
  have hguard : ¬ (sel v = none ∨ vctmemchk v ≠ 0) := by
    simp [hsel, hvv]
  simp only [List.length_append, List.length_singleton] at h2
  simp only [SCALE_OP_DEF, if_neg hk, if_neg hguard, h1, h2, bind_ok, check_succ, if_false]

/-- One pass of the scaling loop, on distinct live blocks. -/
theorem scaleStep_ok (sel : vector_t → Option Nat) (env : Env) (s v : vector_t)
    (f : Nat) (hsel : sel v = some f) (k pE pS : Nat) (w : World) (i : Nat)
    (bv brk kb xe xs : Bytes)
    (hi : i < v.sz_ElementCount)
    (hsc : s.sz_ElementCount = v.sz_ElementCount) (hss : s.sz_ElementSize = v.sz_ElementSize)
    (hV : w.mem.get v.p_StorageBuffer = some bv)
    (hVl : v.sz_ElementCount * v.sz_ElementSize ≤ bv.length) (hVf : bv.length < 2 ^ env.w)
    (hR : w.mem.get s.p_StorageBuffer = some brk)
    (hRl : s.sz_ElementCount * s.sz_ElementSize ≤ brk.length) (hRf : brk.length < 2 ^ env.w)
    (hK : w.mem.get k = some kb)
    (hxe : w.mem.get pE = some xe) (hxel : xe.length = v.sz_ElementSize)
    (hxs : w.mem.get pS = some xs) (hxsl : xs.length = v.sz_ElementSize)
    (hES : pE ≠ pS) (hEk : pE ≠ k) (hEr : pE ≠ s.p_StorageBuffer)
    (hSr : pS ≠ s.p_StorageBuffer)
    (hop : (env.arith f (elem bv v.sz_ElementSize i) kb).length = s.sz_ElementSize) :
    scaleStep sel env (some s) v k pE pS w i =
      .ok ⟨((w.mem.put pE (some (elem bv v.sz_ElementSize i))).put pS
              (some (env.arith f (elem bv v.sz_ElementSize i) kb))).put
            s.p_StorageBuffer
            (some (brk.take (i * s.sz_ElementSize) ++
              env.arith f (elem bv v.sz_ElementSize i) kb ++
              brk.drop (i * s.sz_ElementSize + s.sz_ElementSize))),
        w.tick, .arith f (elem bv v.sz_ElementSize i) kb :: w.trace⟩ := by
  have bE := Mem.get_bounds hxe
  have bS := Mem.get_bounds hxs
  have h1 := vctread_ok env v w hV hVl hVf hi hxe (by omega)
  rw [← hxel, List.drop_length, List.append_nil, hxel] at h1
  have h2 := callArith_ok env (c := f) (p := pS) (u := pE) (v := k)
    (l := elem bv v.sz_ElementSize i) (r := kb) (x := xs)
    ⟨w.mem.put pE (some (elem bv v.sz_ElementSize i)), w.tick, w.trace⟩
    (by simp [Mem.get_put, bE])
    (by simp [Mem.get_put, bE, hK, Ne.symm hEk])
    (by simp [Mem.get_put, bE, hxs, Ne.symm hES])
    (by omega)
  have hd : List.drop s.sz_ElementSize xs = [] := by
    rw [hss, ← hxsl, List.drop_length]
  rw [hop, hd, List.append_nil] at h2
  have h3 := vctwrite_ok env s
    ⟨(w.mem.put pE (some (elem bv v.sz_ElementSize i))).put pS
      (some (env.arith f (elem bv v.sz_ElementSize i) kb)),
      w.tick, .arith f (elem bv v.sz_ElementSize i) kb :: w.trace⟩
    (b := brk) (q := pS) (i := i)
    (s := env.arith f (elem bv v.sz_ElementSize i) kb)
    (by simp [Mem.get_put, bE, bS, hR, Ne.symm hEr, Ne.symm hSr])
    hRl hRf (by omega)
    (by simp [Mem.get_put, bE, bS])
    (by omega)
  rw [← hop, List.take_length, hop] at h3
  simp only [scaleStep, h1, bind_ok, hsel, h2, h3]

/-- The scaling engine on a valid source with a well-formed buffer, a result of the same
element count and size on a buffer apart from the source and from the scalar, a live
scalar, succeeding scratch allocations and a callback that stores exactly one element:
it returns normally, element `i` of the result is the callback applied to element `i` of
the source and the scalar, every other live block is as before. -/
theorem scale_ok (sel : vector_t → Option Nat) (env : Env) (s v : vector_t) (k : Nat)
    (wd : World) (bv br kb : Bytes) (f : Nat) (hsel : sel v = some f)
    (hvv : vctmemchk v = 0)
    (hsc : s.sz_ElementCount = v.sz_ElementCount) (hss : s.sz_ElementSize = v.sz_ElementSize)
    (hV : HasBuffer env wd v bv) (hR : HasBuffer env wd s br)
    (hK : wd.mem.get k = some kb)
    (hrv : s.p_StorageBuffer ≠ v.p_StorageBuffer) (hrk : s.p_StorageBuffer ≠ k)
    (hal1 : allocSucceeds env v.pfn_Allocate v.sz_ElementSize wd.tick = true)
    (hal2 : allocSucceeds env v.pfn_Allocate v.sz_ElementSize (wd.tick + 1) = true)
    (hop : ∀ i, i < v.sz_ElementCount →
      (env.arith f (elem bv v.sz_ElementSize i) kb).length = s.sz_ElementSize) :
    ∃ wd1 br1, SCALE_OP_DEF sel env (some s) (some v) k wd = .ok wd1 ∧
      wd1.mem.get s.p_StorageBuffer = some br1 ∧ br1.length = br.length ∧
      (∀ i, i < v.sz_ElementCount → elem br1 s.sz_ElementSize i
        = env.arith f (elem bv v.sz_ElementSize i) kb) ∧
      (∀ p x, p ≠ s.p_StorageBuffer → wd.mem.get p = some x → wd1.mem.get p = some x) ∧
      wd1.tick = wd.tick + 2 ∧ wd1.mem.length = wd.mem.length + 2 := by
  have bK := Mem.get_bounds hK
  obtain ⟨i1, i2, t, hi1, hi2, hrun⟩ :=
    scale_run sel env s v k wd f (by omega) hsel hvv hal1 hal2
  obtain ⟨hVg, hVl, hVf⟩ := hV
  obtain ⟨hRg, hRl, hRf⟩ := hR
  obtain ⟨gv, hgv⟩ := (vctmemchk_eq_zero hvv).2.2.2.2.2.2
  have bndV := Mem.get_bounds hVg
  have bndR := Mem.get_bounds hRg
  have hold : ∀ p x, wd.mem.get p = some x →
      Mem.get (wd.mem ++ [some i1] ++ [some i2]) p = some x := by
    intro p x hp
    have := Mem.get_bounds hp
    rw [List.append_assoc, Mem.get_append_left _ _ this.2]
    exact hp
  have hp1 : Mem.get (wd.mem ++ [some i1] ++ [some i2]) (wd.mem.length + 1) = some i1 := by
    rw [List.append_assoc]
    exact Mem.get_append_right wd.mem _ 0
  have hp2 : Mem.get (wd.mem ++ [some i1] ++ [some i2]) (wd.mem.length + 2) = some i2 := by
    rw [List.append_assoc]
    exact Mem.get_append_right wd.mem _ 1
  -- the loop
  obtain ⟨wl, hloop, htick, hlen, hframe, ⟨brl, hbrl, hbrlen, hres⟩, ⟨xe, hxe, -⟩,
      ⟨xs, hxs, -⟩⟩ :=
    foldlM_range_inv
      (scaleStep sel env (some s) v k (wd.mem.length + 1) (wd.mem.length + 2))
      (fun n w => w.tick = wd.tick + 2 ∧ w.mem.length = wd.mem.length + 2 ∧
        (∀ p x, p ≠ s.p_StorageBuffer → wd.mem.get p = some x → w.mem.get p = some x) ∧
        (∃ brk, w.mem.get s.p_StorageBuffer = some brk ∧ brk.length = br.length ∧
          ∀ i, i < n → elem brk s.sz_ElementSize i
            = env.arith f (elem bv v.sz_ElementSize i) kb) ∧
        (∃ xe, w.mem.get (wd.mem.length + 1) = some xe ∧ xe.length = v.sz_ElementSize) ∧
        (∃ xs, w.mem.get (wd.mem.length + 2) = some xs ∧ xs.length = v.sz_ElementSize))
      v.sz_ElementCount
      ⟨wd.mem ++ [some i1] ++ [some i2], wd.tick + 2, t⟩
      ⟨rfl, by simp, fun p x _ hp => hold p x hp, ⟨br, hold _ _ hRg, rfl, fun i hi => by omega⟩,
        ⟨i1, hp1, hi1⟩, ⟨i2, hp2, hi2⟩⟩
      (by
        intro n w hn ⟨htick, hlen, hframe, ⟨brk, hbrk, hbrklen, hres⟩, ⟨xe, hxe, hxel⟩,
          ⟨xs, hxs, hxsl⟩⟩
        have hstep := scaleStep_ok sel env s v f hsel k (wd.mem.length + 1)
          (wd.mem.length + 2) w n bv brk kb xe xs hn hsc hss
          (hframe _ _ (Ne.symm hrv) hVg) (by omega) hVf
          hbrk (by omega) (by omega)
          (hframe _ _ (Ne.symm hrk) hK)
          hxe hxel hxs hxsl
          (by omega) (by omega) (by omega) (by omega)
          (hop n hn)
        have hnr : n < s.sz_ElementCount := by omega
        have hoff := idx_offset_lt hnr
          (show s.sz_ElementCount * s.sz_ElementSize ≤ brk.length by omega)
        refine ⟨_, hstep, htick, by simp [hlen], ?_, ?_, ?_, ?_⟩
        · intro p x hpr hp
          have := Mem.get_bounds hp
          have h0 := hframe p x hpr hp
          rw [Mem.get_put _ _ _ (by simp [hlen]; omega), if_neg hpr,
            Mem.get_put _ _ _ (by simp [hlen]), if_neg (by omega),
            Mem.get_put _ _ _ (by omega), if_neg (by omega)]
          exact h0
        · refine ⟨brk.take (n * s.sz_ElementSize) ++
              env.arith f (elem bv v.sz_ElementSize n) kb ++
              brk.drop (n * s.sz_ElementSize + s.sz_ElementSize), ?_, ?_, ?_⟩
          · rw [Mem.get_put _ _ _ (by simp [hlen]; omega), if_pos rfl]
          · simp only [List.length_append, List.length_take, List.length_drop, hop n hn]
            omega
          · intro i hi
            by_cases hin : i = n
            · subst hin
              exact elem_write_same (hop i hn) hoff
            · rw [elem_write_other (hop n hn) hoff hin]
              exact hres i (by omega)
        · refine ⟨elem bv v.sz_ElementSize n, ?_, length_elem (idx_offset_lt hn (by omega))⟩
          rw [Mem.get_put _ _ _ (by simp [hlen]; omega), if_neg (by omega),
            Mem.get_put _ _ _ (by simp [hlen]), if_neg (by omega),
            Mem.get_put _ _ _ (by omega), if_pos rfl]
        · refine ⟨_, ?_, by rw [hop n hn, hss]⟩
          rw [Mem.get_put _ _ _ (by simp [hlen]; omega), if_neg (by omega),
            Mem.get_put _ _ _ (by simp [hlen]), if_pos rfl])
  -- the two releases
  have hf1 := callFree_ok (g := gv) wl hxe
  have hf2 := callFree_ok (g := gv) (p := wd.mem.length + 2) (b := xs)
    ⟨wl.mem.put (wd.mem.length + 1) none, wl.tick, .release gv (wd.mem.length + 1) :: wl.trace⟩
    (by rw [Mem.get_put _ _ _ (by omega), if_neg (by omega)]; exact hxs)
  dsimp only at hf2
  refine ⟨⟨(wl.mem.put (wd.mem.length + 1) none).put (wd.mem.length + 2) none, wl.tick,
      .release gv (wd.mem.length + 2) :: .release gv (wd.mem.length + 1) :: wl.trace⟩,
    brl, ?_, ?_, hbrlen, hres, ?_, htick, ?_⟩
  · rw [hrun, hloop, hgv]
    simp only [bind_ok, hf1, hf2]
  · rw [Mem.get_put _ _ _ (by simp; omega), if_neg (by omega),
      Mem.get_put _ _ _ (by omega), if_neg (by omega)]
    exact hbrl
  · intro p x hpr hp
    have := Mem.get_bounds hp
    rw [Mem.get_put _ _ _ (by simp; omega), if_neg (by omega),
      Mem.get_put _ _ _ (by omega), if_neg (by omega)]
    exact hframe p x hpr hp
  · simp [hlen]

/-- C14. Scaling result: for a valid vector `v` whose buffer holds `element_count`
elements, a live scalar `k`, a result vector of the same element count and size on a
buffer apart from `v` and from the scalar, and both scratch allocations succeeding,
`vctscale` (resp. `vctscaleinv`) whose multiply (resp. divide) binding is present on `v`
(and stores exactly one element) returns normally with
`result[i] = multiply(v[i], k)` (resp. `divide(v[i], k)`) for every
`i < element_count`, the element being the left and the scalar the right operand, and
leaves the buffer of `v` unchanged. -/
theorem C14_scaling_result (env : Env) (s v : vector_t) (k : Nat) (wd : World)
    (bv br kb : Bytes) (hvv : vctmemchk v = 0)
    (hsc : s.sz_ElementCount = v.sz_ElementCount) (hss : s.sz_ElementSize = v.sz_ElementSize)
    (hV : HasBuffer env wd v bv) (hR : HasBuffer env wd s br)
    (hK : wd.mem.get k = some kb)
    (hrv : s.p_StorageBuffer ≠ v.p_StorageBuffer) (hrk : s.p_StorageBuffer ≠ k)
    (hal1 : allocSucceeds env v.pfn_Allocate v.sz_ElementSize wd.tick = true)
    (hal2 : allocSucceeds env v.pfn_Allocate v.sz_ElementSize (wd.tick + 1) = true) :
    (∀ f, v.pfn_ElementMultiply = some f →
      (∀ i, i < v.sz_ElementCount →
        (env.arith f (elem bv v.sz_ElementSize i) kb).length = s.sz_ElementSize) →
      ScalePost env f v s bv kb (vctscale env (some s) (some v) k wd)) ∧
    (∀ f, v.pfn_ElementDivide = some f →
      (∀ i, i < v.sz_ElementCount →
        (env.arith f (elem bv v.sz_ElementSize i) kb).length = s.sz_ElementSize) →
      ScalePost env f v s bv kb (vctscaleinv env (some s) (some v) k wd)) := by
  have key : ∀ (sel : vector_t → Option Nat) (f : Nat), sel v = some f →
      (∀ i, i < v.sz_ElementCount →
        (env.arith f (elem bv v.sz_ElementSize i) kb).length = s.sz_ElementSize) →
      ScalePost env f v s bv kb (SCALE_OP_DEF sel env (some s) (some v) k wd) := by
    intro sel f hsel hop
    obtain ⟨wd1, br1, hrun, hg, -, hres, hframe, -, -⟩ :=
      scale_ok sel env s v k wd bv br kb f hsel hvv hsc hss hV hR hK hrv hrk hal1 hal2 hop
    exact ⟨wd1, br1, hrun, hg, hres, hframe _ _ (Ne.symm hrv) hV.1⟩
  exact ⟨key _, key _⟩

/-- C14 at a concrete input: `[1,2,3]` scaled by the cell holding 77, with the
`uint32_t` multiplication. -/
theorem C14_scaling_result_witness :
    ScalePost exEnv 3 exVecA exVecR (toLe32 1 ++ toLe32 2 ++ toLe32 3) (toLe32 77)
      (vctscale exEnv (some exVecR) (some exVecA) 4 exWorld) :=
  (C14_scaling_result exEnv exVecR exVecA 4 exWorld (toLe32 1 ++ toLe32 2 ++ toLe32 3)
    (List.replicate 12 255) (toLe32 77)
    (by decide) (by decide) (by decide) (by decide) (by decide) (by decide) (by decide)
    (by decide) (by decide) (by decide)).1 3 (by decide) (by decide)

/-- C15. Scale round trip: for a valid vector `a` with a divide binding, valid vectors
`t` and `r` of the element count and size of `a` on buffers apart from each other, from
`a`'s buffer (for `t`) and from the scalar, `t` carrying a multiply binding, a live
scalar `k` with `multiply(divide(x, k), k) = x` for every element `x` of `a`, and the
scratch allocations of both calls succeeding, `vctscaleinv(t, a, k)` followed by
`vctscale(r, t, k)` returns normally and every element of `r` equals the corresponding
element of `a`. -/
theorem C15_scale_round_trip (env : Env) (a t r : vector_t) (k : Nat) (wd : World)
    (ba bt br kb : Bytes) (fdiv fmul : Nat)
    (hdiv : a.pfn_ElementDivide = some fdiv) (hmul : t.pfn_ElementMultiply = some fmul)
    (hva : vctmemchk a = 0) (hvt : vctmemchk t = 0)
    (htc : t.sz_ElementCount = a.sz_ElementCount) (hts : t.sz_ElementSize = a.sz_ElementSize)
    (hrc : r.sz_ElementCount = a.sz_ElementCount) (hrs : r.sz_ElementSize = a.sz_ElementSize)
    (hA : HasBuffer env wd a ba) (hT : HasBuffer env wd t bt) (hR : HasBuffer env wd r br)
    (hK : wd.mem.get k = some kb)
    (hta : t.p_StorageBuffer ≠ a.p_StorageBuffer) (htk : t.p_StorageBuffer ≠ k)
    (hrt : r.p_StorageBuffer ≠ t.p_StorageBuffer) (hrk : r.p_StorageBuffer ≠ k)
    (hal1 : allocSucceeds env a.pfn_Allocate a.sz_ElementSize wd.tick = true)
    (hal2 : allocSucceeds env a.pfn_Allocate a.sz_ElementSize (wd.tick + 1) = true)
    (hal3 : allocSucceeds env t.pfn_Allocate t.sz_ElementSize (wd.tick + 2) = true)
    (hal4 : allocSucceeds env t.pfn_Allocate t.sz_ElementSize (wd.tick + 3) = true)
    (hlen : ∀ i, i < a.sz_ElementCount →
      (env.arith fdiv (elem ba a.sz_ElementSize i) kb).length = a.sz_ElementSize)
    (hinv : ∀ i, i < a.sz_ElementCount →
      env.arith fmul (env.arith fdiv (elem ba a.sz_ElementSize i) kb) kb
        = elem ba a.sz_ElementSize i) :
    ∃ wd1 wd2 br2, vctscaleinv env (some t) (some a) k wd = .ok wd1 ∧
      vctscale env (some r) (some t) k wd1 = .ok wd2 ∧
      wd2.mem.get r.p_StorageBuffer = some br2 ∧
      ∀ i, i < a.sz_ElementCount → elem br2 r.sz_ElementSize i = elem ba a.sz_ElementSize i := by
  obtain ⟨wd1, bt1, hrun1, hg1, hl1, hres1, hframe1, htick1, -⟩ :=
    scale_ok vector_t.pfn_ElementDivide env t a k wd ba bt kb fdiv hdiv hva htc hts hA hT hK
      hta htk hal1 hal2 (fun i hi => by rw [hlen i hi, hts])
  have helem : ∀ i, i < a.sz_ElementCount →
      (elem ba a.sz_ElementSize i).length = a.sz_ElementSize := by
    intro i hi
    exact length_elem (idx_offset_lt hi (Nat.le_of_eq hA.2.1.symm))
  have hT1 : HasBuffer env wd1 t bt1 := ⟨hg1, by rw [hl1]; exact hT.2.1, by rw [hl1]; exact hT.2.2⟩
  have hR1 : HasBuffer env wd1 r br :=
    ⟨hframe1 _ _ hrt hR.1, hR.2.1, hR.2.2⟩
  obtain ⟨wd2, br2, hrun2, hg2, -, hres2, -, -, -⟩ :=
    scale_ok vector_t.pfn_ElementMultiply env r t k wd1 bt1 br kb fmul hmul hvt
      (by rw [hrc, htc]) (by rw [hrs, hts]) hT1 hR1 (hframe1 _ _ (Ne.symm htk) hK)
      hrt hrk (by rw [htick1]; exact hal3) (by rw [htick1]; exact hal4)
      (fun i hi => by
        rw [htc] at hi
        rw [hres1 i hi, hinv i hi, helem i hi, hrs])
  refine ⟨wd1, wd2, br2, hrun1, hrun2, hg2, ?_⟩
  intro i hi
  rw [hres2 i (by rw [htc]; exact hi), hres1 i hi, hinv i hi]

/-- C15 at a concrete input: `[10,20,30]` divided by 10 into the vector at address 2 and
multiplied by 10 again into the vector at address 3. -/
theorem C15_scale_round_trip_witness :
    ∃ wd1 wd2 br2, vctscaleinv exEnv (some exVecB) (some exVecA) 4 exWorldScale = .ok wd1 ∧
      vctscale exEnv (some exVecR) (some exVecB) 4 wd1 = .ok wd2 ∧
      wd2.mem.get exVecR.p_StorageBuffer = some br2 ∧
      ∀ i, i < exVecA.sz_ElementCount → elem br2 exVecR.sz_ElementSize i
        = elem (toLe32 10 ++ toLe32 20 ++ toLe32 30) exVecA.sz_ElementSize i :=
  C15_scale_round_trip exEnv exVecA exVecB exVecR 4 exWorldScale
    (toLe32 10 ++ toLe32 20 ++ toLe32 30) (List.replicate 12 255) (List.replicate 12 255)
    (toLe32 10) 4 3 (by decide) (by decide) (by decide) (by decide) (by decide) (by decide)
    (by decide) (by decide) (by decide) (by decide) (by decide) (by decide) (by decide)
    (by decide) (by decide) (by decide) (by decide) (by decide) (by decide) (by decide)
    (by decide) (by decide)

/-! ## Algebraic relations between the operations -/

/-- C12. Add/subtract round trip: for valid vectors `a`, `b` with `vctcmp = 0` and equal
element size, valid vectors `r` and `s` of that shape, `r` compatible with `a`
(`vctcmp = 0`), all on well-formed buffers with `r` apart from `a`, `b`, `s` and `s`
apart from `a`, add and subtract bindings with `subtract(add(x, y), x) = y` on the
elements, and the scratch allocations of both calls succeeding, `vctadd(r, a, b)`
followed by `vctsub(s, r, a)` returns normally and every element of `s` equals the
corresponding element of `b`. -/
theorem C12_add_sub_round_trip (env : Env) (a b r s : vector_t) (wd : World)
    (ba bb br bs : Bytes) (fadd fsub : Nat)
    (hfadd : a.pfn_ElementAdd = some fadd) (hfsub : r.pfn_ElementSubtract = some fsub)
    (hva : vctmemchk a = 0) (hvb : vctmemchk b = 0) (hvr : vctmemchk r = 0)
    (hvs : vctmemchk s = 0)
    (hcmp : (vctcmp (some a) (some b) wd).1 = 0) (hcmpr : (vctcmp (some r) (some a) wd).1 = 0)
    (hbs : b.sz_ElementSize = a.sz_ElementSize)
    (hrs : r.sz_ElementSize = a.sz_ElementSize)
    (hsc : s.sz_ElementCount = a.sz_ElementCount) (hss : s.sz_ElementSize = a.sz_ElementSize)
    (hA : HasBuffer env wd a ba) (hB : HasBuffer env wd b bb) (hR : HasBuffer env wd r br)
    (hS : HasBuffer env wd s bs)
    (hra : r.p_StorageBuffer ≠ a.p_StorageBuffer) (hrb : r.p_StorageBuffer ≠ b.p_StorageBuffer)
    (hsr : s.p_StorageBuffer ≠ r.p_StorageBuffer) (hsa : s.p_StorageBuffer ≠ a.p_StorageBuffer)
    (hal1 : allocSucceeds env a.pfn_Allocate a.sz_ElementSize wd.tick = true)
    (hal2 : allocSucceeds env b.pfn_Allocate b.sz_ElementSize (wd.tick + 1) = true)
    (hal3 : allocSucceeds env r.pfn_Allocate r.sz_ElementSize (wd.tick + 2) = true)
    (hal4 : allocSucceeds env r.pfn_Allocate r.sz_ElementSize (wd.tick + 3) = true)
    (hal5 : allocSucceeds env a.pfn_Allocate a.sz_ElementSize (wd.tick + 4) = true)
    (hal6 : allocSucceeds env s.pfn_Allocate s.sz_ElementSize (wd.tick + 5) = true)
    (hlen : ∀ i, i < a.sz_ElementCount →
      (env.arith fadd (elem ba a.sz_ElementSize i) (elem bb b.sz_ElementSize i)).length
        = a.sz_ElementSize)
    (hexact : ∀ i, i < a.sz_ElementCount →
      env.arith fsub
          (env.arith fadd (elem ba a.sz_ElementSize i) (elem bb b.sz_ElementSize i))
          (elem ba a.sz_ElementSize i)
        = elem bb b.sz_ElementSize i) :
    ∃ wd1 wd2 bs2, vctadd env (some r) (some a) (some b) wd = .ok wd1 ∧
      vctsub env (some s) (some r) (some a) wd1 = .ok wd2 ∧
      wd2.mem.get s.p_StorageBuffer = some bs2 ∧
      ∀ i, i < a.sz_ElementCount → elem bs2 s.sz_ElementSize i = elem bb b.sz_ElementSize i := by
  have hrc : r.sz_ElementCount = a.sz_ElementCount := ((vctcmp_zero_iff r a wd).mp hcmpr).2.1
  have hbc : a.sz_ElementCount = b.sz_ElementCount := ((vctcmp_zero_iff a b wd).mp hcmp).2.1
  obtain ⟨wd1, br1, hrun1, hg1, hl1, hres1, hframe1, htick1, -⟩ :=
    elementwise_ok vector_t.pfn_ElementAdd env a b r wd ba bb br fadd hfadd hva hvb hvr hcmp
      hrc hrs hA hB hR hra hrb hal1 hal2 hal3 (fun i hi => by rw [hlen i hi, hrs])
  have helem : ∀ i, i < a.sz_ElementCount →
      (elem bb b.sz_ElementSize i).length = a.sz_ElementSize := by
    intro i hi
    rw [length_elem (idx_offset_lt (hbc ▸ hi) (Nat.le_of_eq hB.2.1.symm)), hbs]
  have hR1 : HasBuffer env wd1 r br1 := ⟨hg1, by rw [hl1]; exact hR.2.1, by rw [hl1]; exact hR.2.2⟩
  have hA1 : HasBuffer env wd1 a ba := ⟨hframe1 _ _ (Ne.symm hra) hA.1, hA.2.1, hA.2.2⟩
  have hS1 : HasBuffer env wd1 s bs := ⟨hframe1 _ _ hsr hS.1, hS.2.1, hS.2.2⟩
  have hcmp1 : (vctcmp (some r) (some a) wd1).1 = 0 :=
    (vctcmp_zero_iff r a wd1).mpr ((vctcmp_zero_iff r a wd).mp hcmpr)
  obtain ⟨wd2, bs2, hrun2, hg2, -, hres2, -, -, -⟩ :=
    elementwise_ok vector_t.pfn_ElementSubtract env r a s wd1 br1 ba bs fsub hfsub hvr hva hvs
      hcmp1 (by rw [hsc, hrc]) (by rw [hss, hrs]) hR1 hA1 hS1 hsr hsa
      (by rw [htick1]; exact hal4) (by rw [htick1]; exact hal5) (by rw [htick1]; exact hal6)
      (fun i hi => by
        rw [hrc] at hi
        rw [hres1 i hi, hexact i hi, helem i hi, hss])
  refine ⟨wd1, wd2, bs2, hrun1, hrun2, hg2, ?_⟩
  intro i hi
  rw [hres2 i (by rw [hrc]; exact hi), hres1 i hi, hexact i hi]

/-- C12 at a concrete input: `[1,1,1] + [3,4,0]` into the vector at address 4, minus
`[1,1,1]` into the vector at address 2, with the wrapping `uint32_t` callbacks. -/
theorem C12_add_sub_round_trip_witness :
    ∃ wd1 wd2 bs2, vctadd exEnv (some exVecR4) (some exVecA) (some exVecR) exWorldNorm = .ok wd1 ∧
      vctsub exEnv (some exVecB) (some exVecR4) (some exVecA) wd1 = .ok wd2 ∧
      wd2.mem.get exVecB.p_StorageBuffer = some bs2 ∧
      ∀ i, i < exVecA.sz_ElementCount → elem bs2 exVecB.sz_ElementSize i
        = elem (toLe32 3 ++ toLe32 4 ++ toLe32 0) exVecR.sz_ElementSize i :=
  C12_add_sub_round_trip exEnv exVecA exVecR exVecR4 exVecB exWorldNorm
    (toLe32 1 ++ toLe32 1 ++ toLe32 1) (toLe32 3 ++ toLe32 4 ++ toLe32 0)
    (List.replicate 12 255) (toLe32 0 ++ toLe32 0 ++ toLe32 0) 1 2
    (by decide) (by decide) (by decide) (by decide) (by decide) (by decide) (by decide)
    (by decide) (by decide) (by decide) (by decide) (by decide) (by decide) (by decide)
    (by decide) (by decide) (by decide) (by decide) (by decide) (by decide) (by decide)
    (by decide) (by decide) (by decide) (by decide) (by decide) (by decide) (by decide)

theorem dotSpec_comm (env : Env) (fadd fmul : Nat) (ba bb : Bytes) (sa sb size n : Nat)
    (h : ∀ i, i < n → env.arith fmul (elem ba sa i) (elem bb sb i)
      = env.arith fmul (elem bb sb i) (elem ba sa i)) :
    dotSpec env fadd fmul ba bb sa sb size n = dotSpec env fadd fmul bb ba sb sa size n := by
  induction n with
  | zero => rfl
  | succ m ih =>
    rw [dotSpec_succ, dotSpec_succ, ih (fun i hi => h i (by omega)), h m (by omega)]

/-- C13, as stated, fails: `exVecACustom` and `exVecB` are valid and compatible (`vctcmp`
does not look at the allocate binding) and the `uint32_t` multiplication commutes, yet
with `exVecACustom`'s allocator failing at the third allocation of the call,
`vctdot(p, a, b)`, which allocates through `a`, `b`, `a`, is a no-op and leaves the 77
in the cell at address 4, while `vctdot(p, b, a)`, which allocates through `b`, `a`,
`b`, runs and stores 32 there. -/
theorem C13_noop_depends_on_order :
    vctmemchk exVecACustom = 0 ∧ vctmemchk exVecB = 0 ∧
    (vctcmp (some exVecACustom) (some exVecB) exWorld).1 = 0 ∧
    exVecACustom.pfn_ElementMultiply = some 3 ∧
    (∀ x y : Bytes, exEnvThirdFails.arith 3 x y = exEnvThirdFails.arith 3 y x) ∧
    exWorld.mem.get 4 = some (toLe32 77) ∧
    (vctdot exEnvThirdFails 4 (some exVecACustom) (some exVecB) exWorld).map
        (fun w => (w.mem.get 4, w.trace.head?))
      = .ok (some (toLe32 77), some (.print .memoryNotFound)) ∧
    (vctdot exEnvThirdFails 4 (some exVecB) (some exVecACustom) exWorld).map
        (fun w => w.mem.get 4)
      = .ok (some (toLe32 32)) := by
  refine ⟨by decide, by decide, by decide, by decide, ?_, by decide, by decide, by decide⟩
  intro x y
  simp [exEnvThirdFails, exEnv, MultiplyU32, Nat.mul_comm]

/-- C13, amended. Dot commutativity: for valid vectors `a`, `b` with `vctcmp = 0` and
equal element size, add and multiply bindings (each storing exactly one element),
well-formed buffers, two product cells of one element apart from both buffers, a
multiply callback that commutes on the elements, and the scratch allocations of either
call succeeding, `vctdot(p, a, b)` and `vctdot(q, b, a)` from the same state both return
normally and leave the same bytes in `p` and `q`.  The precondition that makes
`vctdot(p, x, y)` a no-op with non-null `p` holds for `(x, y)` exactly when it holds for
`(y, x)`, and then both calls only print the same diagnostic.  When the two vectors
share the allocate binding and the element size, a failing scratch allocation of one
order is a failing one of the other, and both calls leave memory as it was. -/
theorem C13_dot_commutes (env : Env) (a b : vector_t) (p q : Nat) (wd : World)
    (ba bb x0 y0 : Bytes) (fadd fmul : Nat)
    (hfadd : a.pfn_ElementAdd = some fadd) (hfmul : a.pfn_ElementMultiply = some fmul)
    (hva : vctmemchk a = 0) (hvb : vctmemchk b = 0)
    (hcmp : (vctcmp (some a) (some b) wd).1 = 0)
    (hbs : b.sz_ElementSize = a.sz_ElementSize)
    (hA : HasBuffer env wd a ba) (hB : HasBuffer env wd b bb)
    (hP : wd.mem.get p = some x0) (hPl : x0.length = a.sz_ElementSize)
    (hQ : wd.mem.get q = some y0) (hQl : y0.length = a.sz_ElementSize)
    (hpa : p ≠ a.p_StorageBuffer) (hpb : p ≠ b.p_StorageBuffer)
    (hqa : q ≠ a.p_StorageBuffer) (hqb : q ≠ b.p_StorageBuffer)
    (hal1 : allocSucceeds env a.pfn_Allocate a.sz_ElementSize wd.tick = true)
    (hal2 : allocSucceeds env b.pfn_Allocate b.sz_ElementSize (wd.tick + 1) = true)
    (hal3 : allocSucceeds env a.pfn_Allocate a.sz_ElementSize (wd.tick + 2) = true)
    (hbl1 : allocSucceeds env b.pfn_Allocate b.sz_ElementSize wd.tick = true)
    (hbl2 : allocSucceeds env a.pfn_Allocate a.sz_ElementSize (wd.tick + 1) = true)
    (hbl3 : allocSucceeds env b.pfn_Allocate b.sz_ElementSize (wd.tick + 2) = true)
    (hmul : ∀ i, i < a.sz_ElementCount →
      (env.arith fmul (elem ba a.sz_ElementSize i) (elem bb b.sz_ElementSize i)).length
        = a.sz_ElementSize)
    (hadd : ∀ x y : Bytes, x.length = a.sz_ElementSize → y.length = a.sz_ElementSize →
      (env.arith fadd x y).length = a.sz_ElementSize)
    (hcomm : ∀ i, i < a.sz_ElementCount →
      env.arith fmul (elem ba a.sz_ElementSize i) (elem bb b.sz_ElementSize i)
        = env.arith fmul (elem bb b.sz_ElementSize i) (elem ba a.sz_ElementSize i)) :
    (∃ w1 w2 z, vctdot env p (some a) (some b) wd = .ok w1 ∧
      vctdot env q (some b) (some a) wd = .ok w2 ∧
      w1.mem.get p = some z ∧ w2.mem.get q = some z) ∧
    (∀ (x y : vector_t) (u v : Nat) (w : World), u ≠ 0 → v ≠ 0 →
      (((vctcmp (some x) (some y) w).1 ≠ 0 ∨ x.pfn_ElementAdd = none ∨
          x.pfn_ElementMultiply = none ∨ vctmemchk x ≠ 0 ∨ vctmemchk y ≠ 0) ↔
        ((vctcmp (some y) (some x) w).1 ≠ 0 ∨ y.pfn_ElementAdd = none ∨
          y.pfn_ElementMultiply = none ∨ vctmemchk y ≠ 0 ∨ vctmemchk x ≠ 0)) ∧
      (((vctcmp (some x) (some y) w).1 ≠ 0 ∨ x.pfn_ElementAdd = none ∨
          x.pfn_ElementMultiply = none ∨ vctmemchk x ≠ 0 ∨ vctmemchk y ≠ 0) →
        vctdot env u (some x) (some y) w = .ok (printf w .vectorsNotCompatible) ∧
        vctdot env v (some y) (some x) w = .ok (printf w .vectorsNotCompatible))) ∧
    (∀ (x y : vector_t) (u v : Nat) (w : World),
      x.pfn_Allocate = y.pfn_Allocate → x.sz_ElementSize = y.sz_ElementSize →
      (allocSucceeds env x.pfn_Allocate x.sz_ElementSize w.tick = false ∨
        allocSucceeds env y.pfn_Allocate y.sz_ElementSize (w.tick + 1) = false ∨
        allocSucceeds env x.pfn_Allocate x.sz_ElementSize (w.tick + 2) = false) →
      LeavesMemory w (vctdot env u (some x) (some y) w) ∧
      LeavesMemory w (vctdot env v (some y) (some x) w)) := by
  have hsym : ∀ (x y : vector_t) (w : World),
      ((vctcmp (some x) (some y) w).1 ≠ 0 ∨ x.pfn_ElementAdd = none ∨
          x.pfn_ElementMultiply = none ∨ vctmemchk x ≠ 0 ∨ vctmemchk y ≠ 0) →
      ((vctcmp (some y) (some x) w).1 ≠ 0 ∨ y.pfn_ElementAdd = none ∨
          y.pfn_ElementMultiply = none ∨ vctmemchk y ≠ 0 ∨ vctmemchk x ≠ 0) := by
    intro x y w h
    by_cases hc : (vctcmp (some x) (some y) w).1 = 0
    · have hxy := (vctcmp_zero_iff x y w).mp hc
      rcases h with h | h | h | h | h
      · exact absurd hc h
      · exact Or.inr (Or.inl (hxy.2.2.1 ▸ h))
      · exact Or.inr (Or.inr (Or.inl (hxy.2.2.2.2.1 ▸ h)))
      · exact Or.inr (Or.inr (Or.inr (Or.inr h)))
      · exact Or.inr (Or.inr (Or.inr (Or.inl h)))
    · left
      intro hyx
      apply hc
      have := (vctcmp_zero_iff y x w).mp hyx
      exact (vctcmp_zero_iff x y w).mpr
        ⟨this.1.symm, this.2.1.symm, this.2.2.1.symm, this.2.2.2.1.symm, this.2.2.2.2.1.symm,
          this.2.2.2.2.2.symm⟩
  refine ⟨?_, ?_, ?_⟩
  · have hab := (vctcmp_zero_iff a b wd).mp hcmp
    have hcmp2 : (vctcmp (some b) (some a) wd).1 = 0 :=
      (vctcmp_zero_iff b a wd).mpr
        ⟨hab.1.symm, hab.2.1.symm, hab.2.2.1.symm, hab.2.2.2.1.symm, hab.2.2.2.2.1.symm,
          hab.2.2.2.2.2.symm⟩
    obtain ⟨w1, h1, hz1, -⟩ := dot_ok env a b p wd ba bb x0 fadd fmul hfadd hfmul hva hvb hcmp
      hA hB hP hPl hpa hpb hal1 hal2 hal3 hmul hadd
    obtain ⟨w2, h2, hz2, -⟩ := dot_ok env b a q wd bb ba y0 fadd fmul
      (hab.2.2.1 ▸ hfadd) (hab.2.2.2.2.1 ▸ hfmul) hvb hva hcmp2 hB hA hQ (by rw [hQl, hbs])
      hqb hqa hbl1 hbl2 hbl3
      (fun i hi => by
        rw [← hab.2.1] at hi
        rw [← hcomm i hi, hmul i hi, hbs])
      (fun x y hx hy => by
        rw [hbs] at hx hy ⊢
        exact hadd x y hx hy)
    refine ⟨w1, w2, _, h1, h2, hz1, ?_⟩
    rw [hz2, hbs, ← hab.2.1]
    exact congrArg some (dotSpec_comm env fadd fmul ba bb _ _ _ _ (fun i hi => by
      have := hcomm i hi
      rw [hbs] at this
      exact this)).symm
  · intro x y u v w hu hv
    refine ⟨⟨hsym x y w, hsym y x w⟩, fun h => ⟨dot_guard env x y u w hu h,
      dot_guard env y x v w hv (hsym x y w h)⟩⟩
  · intro x y u v w hal hsz h
    refine ⟨dot_noop env x y u w (Or.inr (Or.inr (Or.inr (Or.inr (Or.inr h))))),
      dot_noop env y x v w (Or.inr (Or.inr (Or.inr (Or.inr (Or.inr ?_)))))⟩
    rw [← hal, ← hsz]
    rw [← hal, ← hsz] at h
    exact h

/-- C13 amended, at a concrete input: with a `calloc` that succeeds three times, `[1,2,3]`
and `[4,5,6]` dotted in both orders into the cells at addresses 4 and 5 give the same
bytes; from a state in which `calloc` fails, both orders leave memory as it was. -/
theorem C13_dot_commutes_witness :
    (∃ w1 w2 z, vctdot exEnvThreeAllocs 4 (some exVecA) (some exVecB) exWorld = .ok w1 ∧
      vctdot exEnvThreeAllocs 5 (some exVecB) (some exVecA) exWorld = .ok w2 ∧
      w1.mem.get 4 = some z ∧ w2.mem.get 5 = some z) ∧
    LeavesMemory exWorldLater
      (vctdot exEnvThreeAllocs 4 (some exVecA) (some exVecB) exWorldLater) ∧
    LeavesMemory exWorldLater
      (vctdot exEnvThreeAllocs 5 (some exVecB) (some exVecA) exWorldLater) :=
  have h := C13_dot_commutes exEnvThreeAllocs exVecA exVecB 4 5 exWorld
    (toLe32 1 ++ toLe32 2 ++ toLe32 3) (toLe32 4 ++ toLe32 5 ++ toLe32 6) (toLe32 77)
    (toLe32 88) 1 3
    (by decide) (by decide) (by decide) (by decide) (by decide) (by decide) (by decide)
    (by decide) (by decide) (by decide) (by decide) (by decide) (by decide) (by decide)
    (by decide) (by decide) (by decide) (by decide) (by decide) (by decide) (by decide)
    (by decide) (by decide) (fun _ _ _ _ => rfl) (by decide)
  ⟨h.1, h.2.2 exVecA exVecB 4 5 exWorldLater (by decide) (by decide) (Or.inl (by decide))⟩

/-! ## What a write leaves alone -/

/-- C29. Write frame: on a vector whose buffer holds `element_count` elements, for
indices `i`, `j < element_count` with `j ≠ i`, `vctwrite(c, i, p_Data)` returns normally,
the buffer keeps its length and element `j` is unchanged, so `vctread` at `j` into a
cell apart from the buffer stores the same bytes before and after the write; the call
returns no descriptor, so type tag, sizes and bindings are not written.  Consequently an
element-wise operation on a result with at least as many elements as `a` leaves the
elements of the result at indices from `a.element_count` on unchanged (for a result with
fewer elements, every index of the result is below the minimum), and the buffer keeps
its length. -/
theorem C29_write_frame (env : Env) (c : vector_t) (wd : World) (buf blk dst : Bytes)
    (i j p_Data p_Dest : Nat)
    (hC : HasBuffer env wd c buf)
    (hi : i < c.sz_ElementCount) (hj : j < c.sz_ElementCount) (hji : j ≠ i)
    (hblk : wd.mem.get p_Data = some blk) (hblkl : c.sz_ElementSize ≤ blk.length)
    (hdst : wd.mem.get p_Dest = some dst) (hdstl : c.sz_ElementSize ≤ dst.length)
    (hdc : p_Dest ≠ c.p_StorageBuffer) :
    (∃ wd1 buf1 wd2 wd3, vctwrite env (some c) i p_Data wd = .ok wd1 ∧
      wd1.mem.get c.p_StorageBuffer = some buf1 ∧ buf1.length = buf.length ∧
      elem buf1 c.sz_ElementSize j = elem buf c.sz_ElementSize j ∧
      vctread env p_Dest (some c) j wd = .ok wd2 ∧
      vctread env p_Dest (some c) j wd1 = .ok wd3 ∧
      wd3.mem.get p_Dest = wd2.mem.get p_Dest) ∧
    (∀ (sel : vector_t → Option Nat) (a b r : vector_t) (ba bb br : Bytes) (f : Nat),
      sel a = some f → vctmemchk a = 0 → vctmemchk b = 0 → vctmemchk r = 0 →
      (vctcmp (some a) (some b) wd).1 = 0 →
      HasBuffer env wd a ba → HasBuffer env wd b bb → HasBuffer env wd r br →
      r.p_StorageBuffer ≠ a.p_StorageBuffer → r.p_StorageBuffer ≠ b.p_StorageBuffer →
      allocSucceeds env a.pfn_Allocate a.sz_ElementSize wd.tick = true →
      allocSucceeds env b.pfn_Allocate b.sz_ElementSize (wd.tick + 1) = true →
      allocSucceeds env r.pfn_Allocate r.sz_ElementSize (wd.tick + 2) = true →
      (∀ n, n < a.sz_ElementCount →
        (env.arith f (elem ba a.sz_ElementSize n) (elem bb b.sz_ElementSize n)).length
          = r.sz_ElementSize) →
      ∃ wd1 br1, ELEMENTWISE_OP_DEF sel env (some r) (some a) (some b) wd = .ok wd1 ∧
        wd1.mem.get r.p_StorageBuffer = some br1 ∧ br1.length = br.length ∧
        ∀ n, min a.sz_ElementCount r.sz_ElementCount ≤ n → n < r.sz_ElementCount →
          elem br1 r.sz_ElementSize n = elem br r.sz_ElementSize n) := by
  obtain ⟨hCg, hCl, hCf⟩ := hC
  have bC := Mem.get_bounds hCg
  have bD := Mem.get_bounds hdst
  have hoff := idx_offset_lt hi (Nat.le_of_eq hCl.symm)
  have hw := vctwrite_ok env c wd hCg (Nat.le_of_eq hCl.symm) hCf hi hblk hblkl
  have htl : (blk.take c.sz_ElementSize).length = c.sz_ElementSize := by
    simp; omega
  have hl1 : (buf.take (i * c.sz_ElementSize) ++ blk.take c.sz_ElementSize ++
      buf.drop (i * c.sz_ElementSize + c.sz_ElementSize)).length = buf.length := by
    simp only [List.length_append, List.length_take, List.length_drop]
    omega
  have he : elem (buf.take (i * c.sz_ElementSize) ++ blk.take c.sz_ElementSize ++
      buf.drop (i * c.sz_ElementSize + c.sz_ElementSize)) c.sz_ElementSize j
      = elem buf c.sz_ElementSize j := elem_write_other htl hoff hji
  have hr0 := vctread_ok env c wd hCg (Nat.le_of_eq hCl.symm) hCf hj hdst hdstl
  have hr1 := vctread_ok env c
    ⟨wd.mem.put c.p_StorageBuffer
      (some (buf.take (i * c.sz_ElementSize) ++ blk.take c.sz_ElementSize ++
        buf.drop (i * c.sz_ElementSize + c.sz_ElementSize))), wd.tick, wd.trace⟩
    (b := buf.take (i * c.sz_ElementSize) ++ blk.take c.sz_ElementSize ++
        buf.drop (i * c.sz_ElementSize + c.sz_ElementSize)) (d := dst) (q := p_Dest) (i := j)
    (by rw [Mem.get_put _ _ _ bC, if_pos rfl])
    (by rw [hl1]; omega) (by rw [hl1]; exact hCf) hj
    (by rw [Mem.get_put _ _ _ bC, if_neg hdc]; exact hdst) hdstl
  constructor
  · refine ⟨_, _, _, _, hw, ?_, hl1, he, hr0, hr1, ?_⟩
    · rw [Mem.get_put _ _ _ bC, if_pos rfl]
    · rw [Mem.get_put _ _ _ (by simp; exact bD), if_pos rfl, Mem.get_put _ _ _ bD, if_pos rfl,
        he]
  · intro sel a b r ba bb br f hsel hva hvb hvr hcmp hA hB hR hra hrb hal1 hal2 hal3 hop
    obtain ⟨wd1, br1, h1, h2, h3, -, h5, -⟩ :=
      elementwise_any sel env a b r wd ba bb br f hsel hva hvb hvr hcmp hA hB hR hra hrb
        hal1 hal2 hal3 hop
    refine ⟨wd1, br1, h1, h2, h3, fun n hn hnr => h5 n ?_⟩
    rcases Nat.le_total a.sz_ElementCount r.sz_ElementCount with h | h
    · rwa [Nat.min_eq_left h] at hn
    · rw [Nat.min_eq_right h] at hn
      omega

/-- C29 at concrete inputs: writing element 0 of the three-element vector at address 3
leaves element 1 alone, and adding the two-element vectors `[1,2]` and `[4,5]` into it
leaves element 2 alone. -/
theorem C29_write_frame_witness :
    (∃ wd1 buf1 wd2 wd3, vctwrite exEnv (some exVecR) 0 1 exWorldFrame = .ok wd1 ∧
      wd1.mem.get exVecR.p_StorageBuffer = some buf1 ∧
      buf1.length = (List.replicate 12 255).length ∧
      elem buf1 exVecR.sz_ElementSize 1 = elem (List.replicate 12 255) exVecR.sz_ElementSize 1 ∧
      vctread exEnv 2 (some exVecR) 1 exWorldFrame = .ok wd2 ∧
      vctread exEnv 2 (some exVecR) 1 wd1 = .ok wd3 ∧
      wd3.mem.get 2 = wd2.mem.get 2) ∧
    (∃ wd1 br1, vctadd exEnv (some exVecR) (some exShortA) (some exShortB) exWorldFrame
        = .ok wd1 ∧
      wd1.mem.get exVecR.p_StorageBuffer = some br1 ∧
      br1.length = (List.replicate 12 255).length ∧
      ∀ n, min exShortA.sz_ElementCount exVecR.sz_ElementCount ≤ n →
        n < exVecR.sz_ElementCount →
        elem br1 exVecR.sz_ElementSize n
          = elem (List.replicate 12 255) exVecR.sz_ElementSize n) :=
  have h := C29_write_frame exEnv exVecR exWorldFrame (List.replicate 12 255)
    (toLe32 1 ++ toLe32 2) (toLe32 4 ++ toLe32 5) 0 1 1 2
    (by decide) (by decide) (by decide) (by decide) (by decide) (by decide) (by decide)
    (by decide) (by decide)
  ⟨h.1, h.2 vector_t.pfn_ElementAdd exShortA exShortB exVecR (toLe32 1 ++ toLe32 2)
    (toLe32 4 ++ toLe32 5) (List.replicate 12 255) 1
    (by decide) (by decide) (by decide) (by decide) (by decide) (by decide) (by decide)
    (by decide) (by decide) (by decide) (by decide) (by decide) (by decide) (by decide)⟩

end Lin99
